import Mathlib

/-!
# PetIBM operator assembly: stencil coefficients, implicit operator, body-point partition

A shallow embedding of

* `src/solvers/navierStokes/inline/generateA.inl`
  (`getColumns`, `getCoefficients`, `NavierStokesSolver<2|3>::generateA`), and
* `src/solvers/tairaColonius/inline/generateBodyInfo.inl`
  (`TairaColoniusSolver<2|3>::generateBodyInfo`).

Conventions of the embedding.

* `PetscReal` is modelled by exact rationals `ℚ`; rounding is not modelled.
* `PetscInt` is modelled by unbounded integers (`Int`, or `Nat` for sizes and
  counts, which the backend never reports negative); overflow is not modelled.
* `PetscErrorCode` is an `Int`; `0` is success.
* A C++ overload set (`getColumns`, `getCoefficients`, `generateA`,
  `generateBodyInfo`) is split by a `2D` / `3D` suffix.
-/

namespace PetIBM

abbrev PetscReal := ℚ
abbrev PetscInt := Int
abbrev PetscErrorCode := Int

/-! ## Stencil coefficients (`generateA.inl`, lines 28-43) -/

/-- The two-dimensional `getCoefficients`: the output array `values[0..4]`. -/
def getCoefficients2D (dxMinus dxPlus dyMinus dyPlus : PetscReal) : List PetscReal :=
  [ -(2 / dxMinus / dxPlus + 2 / dyMinus / dyPlus),
    2 / dxMinus / (dxMinus + dxPlus),
    2 / dxPlus / (dxMinus + dxPlus),
    2 / dyMinus / (dyMinus + dyPlus),
    2 / dyPlus / (dyMinus + dyPlus) ]

/-- The three-dimensional `getCoefficients`: it first calls the two-dimensional
overload on the same array, then updates `values[0]` in place and writes
`values[5]` and `values[6]`. -/
def getCoefficients3D (dxMinus dxPlus dyMinus dyPlus dzMinus dzPlus : PetscReal) :
    List PetscReal :=
  match getCoefficients2D dxMinus dxPlus dyMinus dyPlus with
  | v0 :: rest =>
      (v0 + (-2 / dzMinus / dzPlus)) :: rest ++
        [2 / dzMinus / (dzMinus + dzPlus), 2 / dzPlus / (dzMinus + dzPlus)]
  | [] => []

/-! ## Neighbour indices (`generateA.inl`, lines 8-26) -/

/-- The implicit conversion from `PetscReal` to `PetscInt` in
`cols[p] = globalIndices[..]`: truncation toward zero. -/
def toPetscInt (q : PetscReal) : PetscInt := Int.tdiv q.num q.den

/-- The two-dimensional `getColumns`: the output array `cols[0..4]`.  The array
`globalIndices[j][i]` is the function `globalIndices j i`. -/
def getColumns2D (globalIndices : PetscInt → PetscInt → PetscReal) (i j : PetscInt) :
    List PetscInt :=
  [ toPetscInt (globalIndices j i),
    toPetscInt (globalIndices j (i - 1)),
    toPetscInt (globalIndices j (i + 1)),
    toPetscInt (globalIndices (j - 1) i),
    toPetscInt (globalIndices (j + 1) i) ]

/-- The three-dimensional `getColumns`: the output array `cols[0..6]`.  The
array `globalIndices[k][j][i]` is the function `globalIndices k j i`. -/
def getColumns3D (globalIndices : PetscInt → PetscInt → PetscInt → PetscReal)
    (i j k : PetscInt) : List PetscInt :=
  [ toPetscInt (globalIndices k j i),
    toPetscInt (globalIndices k j (i - 1)),
    toPetscInt (globalIndices k j (i + 1)),
    toPetscInt (globalIndices k (j - 1) i),
    toPetscInt (globalIndices k (j + 1) i),
    toPetscInt (globalIndices (k - 1) j i),
    toPetscInt (globalIndices (k + 1) j i) ]

/-! ## The matrix backend

The sparse-matrix library is outside the repository.  A matrix is modelled by
its entries, zero where nothing is stored; only entries whose row and column
lie in the index range of the matrix are meaningful.  The operations follow
the documented behaviour of the library calls of the same name. -/

/-- A matrix, by its entries `A row col`. -/
abbrev Mat := PetscInt → PetscInt → PetscReal

/-- The matrix after `MatCreate`: no entry stored. -/
def Mat.zero : Mat := fun _ _ => 0

/-- Store `v` at `(r, c)`. -/
def setEntry (A : Mat) (r c : PetscInt) (v : PetscReal) : Mat :=
  fun r' c' => if r' = r ∧ c' = c then v else A r' c'

/-- The call `MatSetValues(A, 1, &row, n, cols, values, INSERT_VALUES)`: for
`p = 0 .. n-1` in order, `values[p]` is stored at `(row, cols[p])`; a negative
row or column index is ignored. -/
def MatSetValues (A : Mat) (row : PetscInt) (cols : List PetscInt) (values : List PetscReal) :
    Mat :=
  (cols.zip values).foldl
    (fun B cv => if row < 0 ∨ cv.1 < 0 then B else setEntry B row cv.1 cv.2) A

/-- The call `MatScale(A, a)`: every entry is multiplied by `a`. -/
def MatScale (A : Mat) (a : PetscReal) : Mat := fun r c => a * A r c

/-- The call `MatShift(A, a)`: `a` is added to every diagonal entry. -/
def MatShift (A : Mat) (a : PetscReal) : Mat := fun r c => if r = c then A r c + a else A r c

/-- The call `MatDiagonalScale(A, l, r)`: row `i` is multiplied by `l[i]` and
column `j` by `r[j]`. -/
def MatDiagonalScale (A : Mat) (l r : PetscInt → PetscReal) : Mat :=
  fun i j => l i * A i j * r j

/-- The error codes the backend calls of `generateA` return: `err line` for the
call on source line `line` of `generateA.inl`, and `setValuesErr line i j k`
for the `MatSetValues` call of that line at loop indices `i, j, k` (`k = 0` in
2D). -/
structure Backend where
  err : Nat → PetscErrorCode
  setValuesErr : Nat → PetscInt → PetscInt → PetscInt → PetscErrorCode

/-- The macro `CHKERRQ(ierr)`: a non-zero code is returned to the caller at once. -/
def chk (e : PetscErrorCode) : Except PetscErrorCode Unit :=
  if e = 0 then Except.ok () else Except.error e

/-- The code a run returns: that of the failed call, or the final `return 0`. -/
def returnCode {α : Type} : Except PetscErrorCode α → PetscErrorCode
  | Except.ok _ => 0
  | Except.error e => e

/-- The loop `for (i = start; i < start + count; i++) body` over `PetscInt`,
leaving at the first failed call. -/
def forRange {σ : Type} (body : PetscInt → σ → Except PetscErrorCode σ) :
    Nat → PetscInt → σ → Except PetscErrorCode σ
  | 0, _, s => Except.ok s
  | count + 1, i, s => (body i s).bind (forRange body count (i + 1))

/-- What `DMDAGetCorners` delivers: the first owned index and the number of
owned nodes along each axis. -/
structure Corners where
  mstart : PetscInt
  nstart : PetscInt
  pstart : PetscInt
  m : PetscInt
  n : PetscInt
  p : PetscInt

/-! ## Implicit operator, 2D (`generateA.inl`, lines 63-169) -/

/-- The members of the 2D solver that `generateA` reads, with what the
backend delivers for them: time increment, viscosity, implicit diffusion
coefficient; per velocity component the global-index array of
`DMDAVecGetArray`, the corners of `DMDAGetCorners` and the spacing arrays; and
the diagonals `MHat`, `RInv`. -/
structure Solver2D where
  dt : PetscReal
  nu : PetscReal
  alphaImplicit : PetscReal
  uGlobalIdx : PetscInt → PetscInt → PetscReal
  vGlobalIdx : PetscInt → PetscInt → PetscReal
  uCorners : Corners
  vCorners : Corners
  dxU : PetscInt → PetscReal
  dyU : PetscInt → PetscReal
  dxV : PetscInt → PetscReal
  dyV : PetscInt → PetscReal
  MHat : PetscInt → PetscReal
  RInv : PetscInt → PetscReal

/-- One iteration of the insertion loops (lines 140-142, 153-155) without the
error check: `getColumns`, `getCoefficients` with the spacings `dx[i]`,
`dx[i+1]`, `dy[j]`, `dy[j+1]`, and `MatSetValues` of the row `cols[0]`. -/
def insertRow2D (globalIdx : PetscInt → PetscInt → PetscReal) (dx dy : PetscInt → PetscReal)
    (i j : PetscInt) (A : Mat) : Mat :=
  let cols := getColumns2D globalIdx i j
  let values := getCoefficients2D (dx i) (dx (i + 1)) (dy j) (dy (j + 1))
  MatSetValues A (cols.headD 0) cols values

/-- The insertion loops of one component (lines 136-144 for U, 149-157 for V);
`line` is the source line of the `MatSetValues` call. -/
def insertLoop2D (be : Backend) (line : Nat) (globalIdx : PetscInt → PetscInt → PetscReal)
    (c : Corners) (dx dy : PetscInt → PetscReal) (A : Mat) : Except PetscErrorCode Mat :=
  forRange (fun j A =>
    forRange (fun i A =>
      (chk (be.setValuesErr line i j 0)).bind fun _ =>
      Except.ok (insertRow2D globalIdx dx dy i j A)) c.m.toNat c.mstart A) c.n.toNat c.nstart A

/-- The two-dimensional specialization `NavierStokesSolver<2>::generateA`: the
matrix `A` on `return 0`, or the code of the first failed checked call.  The
sizing pass (lines 87-119) only fills the preallocation hints `d_nnz`, `o_nnz`
handed to the backend, so it appears here through its checked calls only.
Line 166 has no `CHKERRQ`; a failed `MatDiagonalScale` is taken to leave the
matrix as it was. -/
def generateA2D (be : Backend) (sv : Solver2D) : Except PetscErrorCode Mat :=
  (chk (be.err 78)).bind fun _ =>
  (chk (be.err 84)).bind fun _ =>
  (chk (be.err 85)).bind fun _ =>
  (chk (be.err 94)).bind fun _ =>
  (chk (be.err 95)).bind fun _ =>
  (chk (be.err 105)).bind fun _ =>
  (chk (be.err 108)).bind fun _ =>
  (chk (be.err 109)).bind fun _ =>
  (chk (be.err 119)).bind fun _ =>
  (chk (be.err 122)).bind fun _ =>
  (chk (be.err 123)).bind fun _ =>
  (chk (be.err 124)).bind fun _ =>
  (chk (be.err 125)).bind fun _ =>
  (chk (be.err 126)).bind fun _ =>
  (chk (be.err 129)).bind fun _ =>
  (chk (be.err 130)).bind fun _ =>
  (chk (be.err 134)).bind fun _ =>
  (chk (be.err 135)).bind fun _ =>
  (insertLoop2D be 142 sv.uGlobalIdx sv.uCorners sv.dxU sv.dyU Mat.zero).bind fun A1 =>
  (chk (be.err 145)).bind fun _ =>
  (chk (be.err 147)).bind fun _ =>
  (chk (be.err 148)).bind fun _ =>
  (insertLoop2D be 155 sv.vGlobalIdx sv.vCorners sv.dxV sv.dyV A1).bind fun A2 =>
  (chk (be.err 158)).bind fun _ =>
  (chk (be.err 160)).bind fun _ =>
  (chk (be.err 161)).bind fun _ =>
  (chk (be.err 163)).bind fun _ =>
  (chk (be.err 164)).bind fun _ =>
  (chk (be.err 165)).bind fun _ =>
  Except.ok
    (if be.err 166 = 0 then
      MatDiagonalScale
        (MatScale (MatShift (MatScale A2 (sv.nu * sv.alphaImplicit)) (-1 / sv.dt)) (-1))
        sv.MHat sv.RInv
    else MatScale (MatShift (MatScale A2 (sv.nu * sv.alphaImplicit)) (-1 / sv.dt)) (-1))

/-! ## Implicit operator, 3D (`generateA.inl`, lines 172-322) -/

/-- The members of the 3D solver that `generateA` reads. -/
structure Solver3D where
  dt : PetscReal
  nu : PetscReal
  alphaImplicit : PetscReal
  uGlobalIdx : PetscInt → PetscInt → PetscInt → PetscReal
  vGlobalIdx : PetscInt → PetscInt → PetscInt → PetscReal
  wGlobalIdx : PetscInt → PetscInt → PetscInt → PetscReal
  uCorners : Corners
  vCorners : Corners
  wCorners : Corners
  dxU : PetscInt → PetscReal
  dyU : PetscInt → PetscReal
  dzU : PetscInt → PetscReal
  dxV : PetscInt → PetscReal
  dyV : PetscInt → PetscReal
  dzV : PetscInt → PetscReal
  dxW : PetscInt → PetscReal
  dyW : PetscInt → PetscReal
  dzW : PetscInt → PetscReal
  MHat : PetscInt → PetscReal
  RInv : PetscInt → PetscReal

/-- One iteration of the 3D insertion loops (lines 273-275, 289-291, 305-307)
without the error check. -/
def insertRow3D (globalIdx : PetscInt → PetscInt → PetscInt → PetscReal)
    (dx dy dz : PetscInt → PetscReal) (i j k : PetscInt) (A : Mat) : Mat :=
  let cols := getColumns3D globalIdx i j k
  let values :=
    getCoefficients3D (dx i) (dx (i + 1)) (dy j) (dy (j + 1)) (dz k) (dz (k + 1))
  MatSetValues A (cols.headD 0) cols values

/-- The insertion loops of one component in 3D (lines 267-278, 283-294,
299-310). -/
def insertLoop3D (be : Backend) (line : Nat)
    (globalIdx : PetscInt → PetscInt → PetscInt → PetscReal)
    (c : Corners) (dx dy dz : PetscInt → PetscReal) (A : Mat) : Except PetscErrorCode Mat :=
  forRange (fun k A =>
    forRange (fun j A =>
      forRange (fun i A =>
        (chk (be.setValuesErr line i j k)).bind fun _ =>
        Except.ok (insertRow3D globalIdx dx dy dz i j k A)) c.m.toNat c.mstart A)
      c.n.toNat c.nstart A) c.p.toNat c.pstart A

/-- The three-dimensional specialization `NavierStokesSolver<3>::generateA`.
Here line 319 checks the code of `MatDiagonalScale`. -/
def generateA3D (be : Backend) (sv : Solver3D) : Except PetscErrorCode Mat :=
  (chk (be.err 187)).bind fun _ =>
  (chk (be.err 192)).bind fun _ =>
  (chk (be.err 193)).bind fun _ =>
  (chk (be.err 202)).bind fun _ =>
  (chk (be.err 203)).bind fun _ =>
  (chk (be.err 216)).bind fun _ =>
  (chk (be.err 219)).bind fun _ =>
  (chk (be.err 220)).bind fun _ =>
  (chk (be.err 233)).bind fun _ =>
  (chk (be.err 236)).bind fun _ =>
  (chk (be.err 237)).bind fun _ =>
  (chk (be.err 250)).bind fun _ =>
  (chk (be.err 253)).bind fun _ =>
  (chk (be.err 254)).bind fun _ =>
  (chk (be.err 255)).bind fun _ =>
  (chk (be.err 256)).bind fun _ =>
  (chk (be.err 257)).bind fun _ =>
  (chk (be.err 260)).bind fun _ =>
  (chk (be.err 261)).bind fun _ =>
  (chk (be.err 265)).bind fun _ =>
  (chk (be.err 266)).bind fun _ =>
  (insertLoop3D be 275 sv.uGlobalIdx sv.uCorners sv.dxU sv.dyU sv.dzU Mat.zero).bind fun A1 =>
  (chk (be.err 279)).bind fun _ =>
  (chk (be.err 281)).bind fun _ =>
  (chk (be.err 282)).bind fun _ =>
  (insertLoop3D be 291 sv.vGlobalIdx sv.vCorners sv.dxV sv.dyV sv.dzV A1).bind fun A2 =>
  (chk (be.err 295)).bind fun _ =>
  (chk (be.err 297)).bind fun _ =>
  (chk (be.err 298)).bind fun _ =>
  (insertLoop3D be 307 sv.wGlobalIdx sv.wCorners sv.dxW sv.dyW sv.dzW A2).bind fun A3 =>
  (chk (be.err 311)).bind fun _ =>
  (chk (be.err 313)).bind fun _ =>
  (chk (be.err 314)).bind fun _ =>
  (chk (be.err 316)).bind fun _ =>
  (chk (be.err 317)).bind fun _ =>
  (chk (be.err 318)).bind fun _ =>
  (chk (be.err 319)).bind fun _ =>
  Except.ok
    (MatDiagonalScale
      (MatScale (MatShift (MatScale A3 (sv.nu * sv.alphaImplicit)) (-1 / sv.dt)) (-1))
      sv.MHat sv.RInv)

/-! ## Specification-side definitions for the implicit operator -/

/-- Every backend call of `generateA` succeeds. -/
def AllOk (be : Backend) : Prop :=
  (∀ line, be.err line = 0) ∧ ∀ line i j k, be.setValuesErr line i j k = 0

/-- The indices `start, start + 1, ..., start + count - 1` a loop visits. -/
def intRange : Nat → PetscInt → List PetscInt
  | 0, _ => []
  | count + 1, start => start :: intRange count (start + 1)

/-- The arguments of one `MatSetValues` call: the row, the columns, the values. -/
structure RowOp where
  row : PetscInt
  cols : List PetscInt
  values : List PetscReal

/-- Perform one `MatSetValues` call. -/
def applyRow (A : Mat) (op : RowOp) : Mat := MatSetValues A op.row op.cols op.values

/-- The `MatSetValues` call of node `(i, j)` in 2D. -/
def rowOp2D (globalIdx : PetscInt → PetscInt → PetscReal) (dx dy : PetscInt → PetscReal)
    (i j : PetscInt) : RowOp :=
  { row := (getColumns2D globalIdx i j).headD 0,
    cols := getColumns2D globalIdx i j,
    values := getCoefficients2D (dx i) (dx (i + 1)) (dy j) (dy (j + 1)) }

/-- The `MatSetValues` call of node `(i, j, k)` in 3D. -/
def rowOp3D (globalIdx : PetscInt → PetscInt → PetscInt → PetscReal)
    (dx dy dz : PetscInt → PetscReal) (i j k : PetscInt) : RowOp :=
  { row := (getColumns3D globalIdx i j k).headD 0,
    cols := getColumns3D globalIdx i j k,
    values := getCoefficients3D (dx i) (dx (i + 1)) (dy j) (dy (j + 1)) (dz k) (dz (k + 1)) }

/-- The calls of the insertion loops of one 2D component, in loop order: `j`
outermost, `i` innermost. -/
def componentOps2D (globalIdx : PetscInt → PetscInt → PetscReal) (c : Corners)
    (dx dy : PetscInt → PetscReal) : List RowOp :=
  (intRange c.n.toNat c.nstart).flatMap fun j =>
    (intRange c.m.toNat c.mstart).map fun i => rowOp2D globalIdx dx dy i j

/-- The calls of the insertion loops of one 3D component, in loop order. -/
def componentOps3D (globalIdx : PetscInt → PetscInt → PetscInt → PetscReal) (c : Corners)
    (dx dy dz : PetscInt → PetscReal) : List RowOp :=
  (intRange c.p.toNat c.pstart).flatMap fun k =>
    (intRange c.n.toNat c.nstart).flatMap fun j =>
      (intRange c.m.toNat c.mstart).map fun i => rowOp3D globalIdx dx dy dz i j k

/-- All `MatSetValues` calls of the 2D `generateA`, in order: U, then V. -/
def rowOps2D (sv : Solver2D) : List RowOp :=
  componentOps2D sv.uGlobalIdx sv.uCorners sv.dxU sv.dyU ++
    componentOps2D sv.vGlobalIdx sv.vCorners sv.dxV sv.dyV

/-- All `MatSetValues` calls of the 3D `generateA`, in order: U, V, W. -/
def rowOps3D (sv : Solver3D) : List RowOp :=
  componentOps3D sv.uGlobalIdx sv.uCorners sv.dxU sv.dyU sv.dzU ++
    (componentOps3D sv.vGlobalIdx sv.vCorners sv.dxV sv.dyV sv.dzV ++
      componentOps3D sv.wGlobalIdx sv.wCorners sv.dxW sv.dyW sv.dzW)

/-- The matrix `L` of inserted stencil rows, once all calls are done. -/
def stencilMatrix (ops : List RowOp) : Mat := ops.foldl applyRow Mat.zero

/-- The matrix before diagonal scaling: the stencil rows scaled by `nu * alpha`,
shifted by `-1/dt`, then negated (lines 163-165, 316-318). -/
def preScaling (nu alphaImplicit dt : PetscReal) (ops : List RowOp) : Mat :=
  MatScale (MatShift (MatScale (stencilMatrix ops) (nu * alphaImplicit)) (-1 / dt)) (-1)

/-- The shape every inserted row has: the row index is the first column, and
there are as many values as columns. -/
def RowShape (width : Nat) (op : RowOp) : Prop :=
  op.row = op.cols.getD 0 0 ∧ op.cols.length = width ∧ op.values.length = width

/-- Different calls insert different rows: the owned nodes of all components
have pairwise different global indices. -/
def RowsDistinct (ops : List RowOp) : Prop := ops.Pairwise fun a b => a.row ≠ b.row

/-- The non-negative column indices of one row are pairwise different. -/
def DistinctColumns (cols : List PetscInt) : Prop := cols.Pairwise fun a b => 0 ≤ a → a ≠ b

instance (ops : List RowOp) : Decidable (RowsDistinct ops) := by
  unfold RowsDistinct
  exact inferInstance

instance (cols : List PetscInt) : Decidable (DistinctColumns cols) := by
  unfold DistinctColumns
  exact inferInstance

/-- All spacings of the 2D solver are positive. -/
def PositiveSpacings2D (sv : Solver2D) : Prop :=
  (∀ i, 0 < sv.dxU i) ∧ (∀ j, 0 < sv.dyU j) ∧ (∀ i, 0 < sv.dxV i) ∧ (∀ j, 0 < sv.dyV j)

/-- All spacings of the 3D solver are positive. -/
def PositiveSpacings3D (sv : Solver3D) : Prop :=
  (∀ i, 0 < sv.dxU i) ∧ (∀ j, 0 < sv.dyU j) ∧ (∀ k, 0 < sv.dzU k) ∧
  (∀ i, 0 < sv.dxV i) ∧ (∀ j, 0 < sv.dyV j) ∧ (∀ k, 0 < sv.dzV k) ∧
  (∀ i, 0 < sv.dxW i) ∧ (∀ j, 0 < sv.dyW j) ∧ (∀ k, 0 < sv.dzW k)

/-- The source lines of the checked backend calls of the 2D `generateA`
outside the insertion loops. -/
def checkedLines2D : List Nat :=
  [78, 84, 85, 94, 95, 105, 108, 109, 119, 122, 123, 124, 125, 126, 129, 130, 134, 135, 145, 147, 148, 158, 160, 161, 163, 164, 165]

/-- The source lines of the checked backend calls of the 3D `generateA`
outside the insertion loops. -/
def checkedLines3D : List Nat :=
  [187, 192, 193, 202, 203, 216, 219, 220, 233, 236, 237, 250, 253, 254, 255, 256, 257, 260, 261, 265, 266, 279, 281, 282, 295, 297, 298, 311, 313, 314, 316, 317, 318, 319]

/-- Every error a run reports is a non-zero code. -/
def GoodErr {α : Type} (x : Except PetscErrorCode α) : Prop :=
  ∀ e, x = Except.error e → e ≠ 0

/-- The pairs `(i, j)` the 2D insertion loops of a component visit. -/
def Visited2D (c : Corners) (i j : PetscInt) : Prop :=
  i ∈ intRange c.m.toNat c.mstart ∧ j ∈ intRange c.n.toNat c.nstart

/-- The triples `(i, j, k)` the 3D insertion loops of a component visit. -/
def Visited3D (c : Corners) (i j k : PetscInt) : Prop :=
  i ∈ intRange c.m.toNat c.mstart ∧ j ∈ intRange c.n.toNat c.nstart ∧
    k ∈ intRange c.p.toNat c.pstart

/-! ## Body-point partition (`generateBodyInfo.inl`)

The function reads the body coordinates `x, y, z`, the mesh coordinates
`mesh->x, mesh->y, mesh->z` and what three backend queries report, and it
updates four member vectors.  A result `none` stands for a run that does not
return normally: an out-of-range `operator[]` or a `reserve` of a negative
amount. -/

/-- The members of `CartesianMesh` read here: the vertex coordinates per axis. -/
structure CartesianMesh where
  x : List PetscReal
  y : List PetscReal
  z : List PetscReal

/-- The coordinates of the body points: members `x, y, z` of the solver. -/
structure Body where
  x : List PetscReal
  y : List PetscReal
  z : List PetscReal

/-- What the backend reports to `generateBodyInfo`: the error code of each of
the three queries and the values they deliver (`MPI_Comm_size`: the number of
processes; `DMDAGetOwnershipRanges`: the per-axis counts of owned pressure
nodes; `DMDAGetInfo`: the number of processes along each axis). -/
structure PartitionInfo where
  commSizeErr : PetscErrorCode
  numProcs : Nat
  ownershipErr : PetscErrorCode
  lxp : List Nat
  lyp : List Nat
  lzp : List Nat
  infoErr : PetscErrorCode
  m : Nat
  n : Nat
  p : Nat

/-- The member vectors `generateBodyInfo` writes. -/
structure BodyInfo where
  boundaryPointIndices : List (List PetscInt)
  numBoundaryPointsOnProcess : List PetscInt
  numPhiOnProcess : List PetscInt
  globalIndexMapping : List PetscInt
  deriving DecidableEq

/-- The state of a freshly constructed solver: all four vectors empty. -/
def BodyInfo.empty : BodyInfo := ⟨[], [], [], []⟩

/-- The method `std::vector::resize(n)`: keeps the first `n` elements and pads
with value-initialised elements `d`. -/
def resize {α : Type} (v : List α) (n : Nat) (d : α) : List α :=
  v.take n ++ List.replicate (n - v.length) d

/-- The access `v[i] = f(v[i])`, out of range: no normal return. -/
def modifyAt {α : Type} (v : List α) (i : Nat) (f : α → α) : Option (List α) :=
  match v[i]? with
  | some a => some (v.set i (f a))
  | none => none

/-- The loop `for (i = start; i < start + count; i++) body`, threading the
variables the body assigns. -/
def forLoop {σ : Type} (body : Nat → σ → Option σ) : Nat → Nat → σ → Option σ
  | 0, _, s => some s
  | count + 1, i, s => (body i s).bind (forLoop body count (i + 1))

/-- The operator `a && b`: `b` is evaluated only when `a` is true. -/
def andThen (a b : Option Bool) : Option Bool :=
  match a with
  | some true => b
  | r => r

/-- The comparison `v[l] >= w[k]`. -/
def geAt (v : List PetscReal) (l : Nat) (w : List PetscReal) (k : Nat) : Option Bool :=
  match v[l]?, w[k]? with
  | some a, some b => some (decide (a ≥ b))
  | _, _ => none

/-- The comparison `v[l] < w[k]`. -/
def ltAt (v : List PetscReal) (l : Nat) (w : List PetscReal) (k : Nat) : Option Bool :=
  match v[l]?, w[k]? with
  | some a, some b => some (decide (a < b))
  | _, _ => none

/-- The condition of lines 54 and 62:
`x[l] >= mesh->x[xStart] && x[l] < mesh->x[xEnd] && y[l] >= mesh->y[yStart] && y[l] < mesh->y[yEnd]`. -/
def inCell2D (mesh : CartesianMesh) (body : Body) (xStart xEnd yStart yEnd l : Nat) :
    Option Bool :=
  andThen (geAt body.x l mesh.x xStart) <|
  andThen (ltAt body.x l mesh.x xEnd) <|
  andThen (geAt body.y l mesh.y yStart) (ltAt body.y l mesh.y yEnd)

/-- The condition of lines 116 and 124: the 2D condition followed by
`&& z[l] >= mesh->z[zStart] && z[l] < mesh->z[zEnd]`. -/
def inCell3D (mesh : CartesianMesh) (body : Body)
    (xStart xEnd yStart yEnd zStart zEnd l : Nat) : Option Bool :=
  andThen (geAt body.x l mesh.x xStart) <|
  andThen (ltAt body.x l mesh.x xEnd) <|
  andThen (geAt body.y l mesh.y yStart) <|
  andThen (ltAt body.y l mesh.y yEnd) <|
  andThen (geAt body.z l mesh.z zStart) (ltAt body.z l mesh.z zEnd)

/-- The body of the counting loop (lines 54-57, 116-119). -/
def countStep (cond : Nat → Option Bool) (procIdx l : Nat) (num : List PetscInt) :
    Option (List PetscInt) :=
  match cond l with
  | some true => modifyAt num procIdx (fun c => c + 1)
  | some false => some num
  | none => none

/-- The body of the collecting loop (lines 62-65, 124-127). -/
def collectStep (cond : Nat → Option Bool) (procIdx l : Nat) (lists : List (List PetscInt)) :
    Option (List (List PetscInt)) :=
  match cond l with
  | some true => modifyAt lists procIdx (fun v => v ++ [(l : PetscInt)])
  | some false => some lists
  | none => none

/-- The statement `boundaryPointIndices[procIdx].reserve(numBoundaryPointsOnProcess[procIdx])`
(lines 59, 121): it changes no element; it does not return normally when an
index is out of range or the amount is negative. -/
def reserveStep (lists : List (List PetscInt)) (num : List PetscInt) (procIdx : Nat) :
    Option Unit :=
  match lists[procIdx]?, num[procIdx]? with
  | some _, some c => if 0 ≤ c then some () else none
  | _, _ => none

/-- The work done for one process cell, lines 51-66 (2D) and 113-128 (3D):
record the number of pressure nodes, count the body points of the cell,
reserve, collect them.  `cond l` is the membership condition of the cell,
`size` is `x.size()`, `phi` the product of the owned counts. -/
def scanCell (cond : Nat → Option Bool) (size procIdx : Nat) (phi : PetscInt)
    (s : BodyInfo) : Option BodyInfo :=
  (modifyAt s.numPhiOnProcess procIdx (fun _ => phi)).bind fun numPhi =>
  (forLoop (countStep cond procIdx) size 0 s.numBoundaryPointsOnProcess).bind fun num =>
  (reserveStep s.boundaryPointIndices num procIdx).bind fun _ =>
  (forLoop (collectStep cond procIdx) size 0 s.boundaryPointIndices).bind fun lists =>
  some { s with boundaryPointIndices := lists,
                numBoundaryPointsOnProcess := num,
                numPhiOnProcess := numPhi }

/-- The resizes of lines 29-33 (2D) and 87-91 (3D). -/
def resizeAll (numProcs size : Nat) (s : BodyInfo) : BodyInfo :=
  { boundaryPointIndices := resize s.boundaryPointIndices numProcs [],
    numBoundaryPointsOnProcess := resize s.numBoundaryPointsOnProcess numProcs 0,
    numPhiOnProcess := resize s.numPhiOnProcess numProcs 0,
    globalIndexMapping := resize s.globalIndexMapping size 0 }

/-- The body of the loop over `i` of the 2D specialization (lines 49-67); the
threaded pair is `(xStart, members)`. -/
def iBody2D (pi : PartitionInfo) (mesh : CartesianMesh) (body : Body)
    (j yStart yEnd : Nat) (i : Nat) (st : Nat × BodyInfo) : Option (Nat × BodyInfo) :=
  match pi.lxp[i]?, pi.lyp[j]? with
  | some lxpi, some lypj =>
      let procIdx := j * pi.m + i
      let xEnd := st.1 + lxpi
      (scanCell (inCell2D mesh body st.1 xEnd yStart yEnd) body.x.length procIdx
          ((lxpi : PetscInt) * (lypj : PetscInt)) st.2).bind fun s =>
      some (xEnd, s)
  | _, _ => none

/-- The body of the loop over `j` of the 2D specialization (lines 45-69); the
threaded pair is `(yStart, members)`. -/
def jBody2D (pi : PartitionInfo) (mesh : CartesianMesh) (body : Body)
    (j : Nat) (st : Nat × BodyInfo) : Option (Nat × BodyInfo) :=
  match pi.lyp[j]? with
  | some lypj =>
      let yEnd := st.1 + lypj
      (forLoop (iBody2D pi mesh body j st.1 yEnd) pi.m 0 (0, st.2)).bind fun r =>
      some (yEnd, r.2)
  | none => none

/-- The two-dimensional specialization `TairaColoniusSolver<2>::generateBodyInfo`:
the returned error code and the members afterwards.  `CHKERRQ` returns the
code of a failed query at once. -/
def generateBodyInfo2D (pi : PartitionInfo) (mesh : CartesianMesh) (body : Body)
    (s : BodyInfo) : Option (PetscErrorCode × BodyInfo) :=
  if pi.commSizeErr ≠ 0 then some (pi.commSizeErr, s) else
  let s1 := resizeAll pi.numProcs body.x.length s
  if pi.ownershipErr ≠ 0 then some (pi.ownershipErr, s1) else
  if pi.infoErr ≠ 0 then some (pi.infoErr, s1) else
  (forLoop (jBody2D pi mesh body) pi.n 0 (0, s1)).bind fun r =>
  some (0, r.2)

/-- The body of the loop over `i` of the 3D specialization (lines 111-129). -/
def iBody3D (pi : PartitionInfo) (mesh : CartesianMesh) (body : Body)
    (k zStart zEnd j yStart yEnd : Nat) (i : Nat) (st : Nat × BodyInfo) :
    Option (Nat × BodyInfo) :=
  match pi.lxp[i]?, pi.lyp[j]?, pi.lzp[k]? with
  | some lxpi, some lypj, some lzpk =>
      let procIdx := k * pi.m * pi.n + j * pi.m + i
      let xEnd := st.1 + lxpi
      (scanCell (inCell3D mesh body st.1 xEnd yStart yEnd zStart zEnd) body.x.length procIdx
          ((lxpi : PetscInt) * (lypj : PetscInt) * (lzpk : PetscInt)) st.2).bind fun s =>
      some (xEnd, s)
  | _, _, _ => none

/-- The body of the loop over `j` of the 3D specialization (lines 107-131). -/
def jBody3D (pi : PartitionInfo) (mesh : CartesianMesh) (body : Body)
    (k zStart zEnd : Nat) (j : Nat) (st : Nat × BodyInfo) : Option (Nat × BodyInfo) :=
  match pi.lyp[j]? with
  | some lypj =>
      let yEnd := st.1 + lypj
      (forLoop (iBody3D pi mesh body k zStart zEnd j st.1 yEnd) pi.m 0 (0, st.2)).bind fun r =>
      some (yEnd, r.2)
  | none => none

/-- The body of the loop over `k` of the 3D specialization (lines 103-133). -/
def kBody3D (pi : PartitionInfo) (mesh : CartesianMesh) (body : Body)
    (k : Nat) (st : Nat × BodyInfo) : Option (Nat × BodyInfo) :=
  match pi.lzp[k]? with
  | some lzpk =>
      let zEnd := st.1 + lzpk
      (forLoop (jBody3D pi mesh body k st.1 zEnd) pi.n 0 (0, st.2)).bind fun r =>
      some (zEnd, r.2)
  | none => none

/-- The three-dimensional specialization `TairaColoniusSolver<3>::generateBodyInfo`. -/
def generateBodyInfo3D (pi : PartitionInfo) (mesh : CartesianMesh) (body : Body)
    (s : BodyInfo) : Option (PetscErrorCode × BodyInfo) :=
  if pi.commSizeErr ≠ 0 then some (pi.commSizeErr, s) else
  let s1 := resizeAll pi.numProcs body.x.length s
  if pi.ownershipErr ≠ 0 then some (pi.ownershipErr, s1) else
  if pi.infoErr ≠ 0 then some (pi.infoErr, s1) else
  (forLoop (kBody3D pi mesh body) pi.p 0 (0, s1)).bind fun r =>
  some (0, r.2)

/-! ## Specification-side definitions for the body-point partition -/

/-- The prefix sum of the per-axis counts: the value of `xStart` (`yStart`,
`zStart`) when the loop reaches index `i`; at `i + 1` it is the value of `xEnd`. -/
def startIdx (counts : List Nat) (i : Nat) : Nat := (counts.take i).sum

/-- The coordinate `v` lies in the half-open interval of cell `i` of an axis. -/
def inInterval (coords : List PetscReal) (counts : List Nat) (i : Nat) (v : PetscReal) : Prop :=
  coords.getD (startIdx counts i) 0 ≤ v ∧ v < coords.getD (startIdx counts (i + 1)) 0

instance (coords : List PetscReal) (counts : List Nat) (i : Nat) (v : PetscReal) :
    Decidable (inInterval coords counts i v) := by
  unfold inInterval
  exact inferInstance

/-- Body point `l` lies in the sub-domain of process cell `(i, j)`. -/
def cellPred2D (pi : PartitionInfo) (mesh : CartesianMesh) (body : Body) (i j l : Nat) : Bool :=
  decide (inInterval mesh.x pi.lxp i (body.x.getD l 0) ∧
    inInterval mesh.y pi.lyp j (body.y.getD l 0))

/-- Body point `l` lies in the sub-domain of process cell `(i, j, k)`. -/
def cellPred3D (pi : PartitionInfo) (mesh : CartesianMesh) (body : Body) (i j k l : Nat) :
    Bool :=
  decide (inInterval mesh.x pi.lxp i (body.x.getD l 0) ∧
    inInterval mesh.y pi.lyp j (body.y.getD l 0) ∧
    inInterval mesh.z pi.lzp k (body.z.getD l 0))

/-- The ascending list of the body-point indices of process cell `(i, j)`. -/
def cellList2D (pi : PartitionInfo) (mesh : CartesianMesh) (body : Body) (i j : Nat) :
    List PetscInt :=
  ((List.range body.x.length).filter (cellPred2D pi mesh body i j)).map Int.ofNat

/-- The ascending list of the body-point indices of process cell `(i, j, k)`. -/
def cellList3D (pi : PartitionInfo) (mesh : CartesianMesh) (body : Body) (i j k : Nat) :
    List PetscInt :=
  ((List.range body.x.length).filter (cellPred3D pi mesh body i j k)).map Int.ofNat

/-- The members once the cells of rank `< k` have been processed, starting from
`b`: cell `r` has appended the list `E r`, added its length to the count, and
stored `phi r`. -/
def afterCells (E : Nat → List PetscInt) (phi : Nat → PetscInt) (b : BodyInfo) (k : Nat) :
    BodyInfo :=
  { boundaryPointIndices :=
      b.boundaryPointIndices.mapIdx fun r v => if r < k then v ++ E r else v,
    numBoundaryPointsOnProcess :=
      b.numBoundaryPointsOnProcess.mapIdx fun r c =>
        if r < k then c + ((E r).length : PetscInt) else c,
    numPhiOnProcess := b.numPhiOnProcess.mapIdx fun r c => if r < k then phi r else c,
    globalIndexMapping := b.globalIndexMapping }

/-- The list appended at rank `r` by the 2D specialization: rank `j * m + i`
belongs to cell `(i, j)`. -/
def rankList2D (pi : PartitionInfo) (mesh : CartesianMesh) (body : Body) (r : Nat) :
    List PetscInt :=
  cellList2D pi mesh body (r % pi.m) (r / pi.m)

/-- The pressure-node count stored at rank `r` by the 2D specialization. -/
def rankPhi2D (pi : PartitionInfo) (r : Nat) : PetscInt :=
  (pi.lxp.getD (r % pi.m) 0 : PetscInt) * (pi.lyp.getD (r / pi.m) 0 : PetscInt)

/-- The inputs for which every access of the 2D specialization is in range:
one rank per process cell, one count per cell along each axis, mesh vertices
up to the last owned node, and as many `y` as `x` body coordinates. -/
def Shape2D (pi : PartitionInfo) (mesh : CartesianMesh) (body : Body) : Prop :=
  pi.m * pi.n ≤ pi.numProcs ∧ pi.lxp.length = pi.m ∧ pi.lyp.length = pi.n ∧
  pi.lxp.sum < mesh.x.length ∧ pi.lyp.sum < mesh.y.length ∧
  body.y.length = body.x.length

instance (pi : PartitionInfo) (mesh : CartesianMesh) (body : Body) :
    Decidable (Shape2D pi mesh body) := by
  unfold Shape2D
  exact inferInstance

/-- The three backend queries succeed. -/
def QueriesOk (pi : PartitionInfo) : Prop :=
  pi.commSizeErr = 0 ∧ pi.ownershipErr = 0 ∧ pi.infoErr = 0

instance (pi : PartitionInfo) : Decidable (QueriesOk pi) := by
  unfold QueriesOk
  exact inferInstance

/-- The members before the loops start are usable: one slot per process in
each per-process vector, and no negative count. -/
def BaseOk (numProcs : Nat) (b : BodyInfo) : Prop :=
  b.boundaryPointIndices.length = numProcs ∧ b.numBoundaryPointsOnProcess.length = numProcs ∧
  b.numPhiOnProcess.length = numProcs ∧ ∀ c ∈ b.numBoundaryPointsOnProcess, 0 ≤ c

/-- The list appended at rank `r` by the 3D specialization: rank
`k * m * n + j * m + i` belongs to cell `(i, j, k)`. -/
def rankList3D (pi : PartitionInfo) (mesh : CartesianMesh) (body : Body) (r : Nat) :
    List PetscInt :=
  cellList3D pi mesh body (r % pi.m) (r / pi.m % pi.n) (r / pi.m / pi.n)

/-- The pressure-node count stored at rank `r` by the 3D specialization. -/
def rankPhi3D (pi : PartitionInfo) (r : Nat) : PetscInt :=
  (pi.lxp.getD (r % pi.m) 0 : PetscInt) * (pi.lyp.getD (r / pi.m % pi.n) 0 : PetscInt) *
    (pi.lzp.getD (r / pi.m / pi.n) 0 : PetscInt)

/-- The inputs for which every access of the 3D specialization is in range. -/
def Shape3D (pi : PartitionInfo) (mesh : CartesianMesh) (body : Body) : Prop :=
  pi.m * pi.n * pi.p ≤ pi.numProcs ∧
  pi.lxp.length = pi.m ∧ pi.lyp.length = pi.n ∧ pi.lzp.length = pi.p ∧
  pi.lxp.sum < mesh.x.length ∧ pi.lyp.sum < mesh.y.length ∧ pi.lzp.sum < mesh.z.length ∧
  body.y.length = body.x.length ∧ body.z.length = body.x.length

instance (pi : PartitionInfo) (mesh : CartesianMesh) (body : Body) :
    Decidable (Shape3D pi mesh body) := by
  unfold Shape3D
  exact inferInstance

/-- The hypotheses of the tiling property on one axis: strictly increasing
vertex coordinates, positive owned counts, and counts that add up to the number
of cells of the axis (one less than the number of vertices). -/
def Tiling (coords : List PetscReal) (counts : List Nat) : Prop :=
  coords.Pairwise (· < ·) ∧ (∀ c ∈ counts, 0 < c) ∧ counts.sum + 1 = coords.length

instance (coords : List PetscReal) (counts : List Nat) : Decidable (Tiling coords counts) := by
  unfold Tiling
  exact inferInstance

/-- Body point `l` lies in the half-open global domain
`[mesh.x[0], mesh.x[last]) × [mesh.y[0], mesh.y[last])`. -/
def inDomain2D (mesh : CartesianMesh) (body : Body) (l : Nat) : Prop :=
  (mesh.x.getD 0 0 ≤ body.x.getD l 0 ∧ body.x.getD l 0 < mesh.x.getD (mesh.x.length - 1) 0) ∧
  (mesh.y.getD 0 0 ≤ body.y.getD l 0 ∧ body.y.getD l 0 < mesh.y.getD (mesh.y.length - 1) 0)

/-- Body point `l` lies in the half-open global domain of a 3D mesh. -/
def inDomain3D (mesh : CartesianMesh) (body : Body) (l : Nat) : Prop :=
  (mesh.x.getD 0 0 ≤ body.x.getD l 0 ∧ body.x.getD l 0 < mesh.x.getD (mesh.x.length - 1) 0) ∧
  (mesh.y.getD 0 0 ≤ body.y.getD l 0 ∧ body.y.getD l 0 < mesh.y.getD (mesh.y.length - 1) 0) ∧
  (mesh.z.getD 0 0 ≤ body.z.getD l 0 ∧ body.z.getD l 0 < mesh.z.getD (mesh.z.length - 1) 0)

instance (mesh : CartesianMesh) (body : Body) (l : Nat) : Decidable (inDomain2D mesh body l) := by
  unfold inDomain2D
  exact inferInstance

instance (mesh : CartesianMesh) (body : Body) (l : Nat) : Decidable (inDomain3D mesh body l) := by
  unfold inDomain3D
  exact inferInstance

/-- The coordinate `v` is the boundary shared by the adjacent cells `a - 1` and
`a` of an axis: the interval of cell `a - 1` ends there, that of cell `a` starts
there. -/
def atSharedBoundary (coords : List PetscReal) (counts : List Nat) (a : Nat)
    (v : PetscReal) : Prop :=
  0 < a ∧ v = coords.getD (startIdx counts a) 0

/-- The coordinate `v` lies strictly inside the range of cell `a` of an axis. -/
def strictlyInside (coords : List PetscReal) (counts : List Nat) (a : Nat)
    (v : PetscReal) : Prop :=
  coords.getD (startIdx counts a) 0 < v ∧ v < coords.getD (startIdx counts (a + 1)) 0

instance (coords : List PetscReal) (counts : List Nat) (a : Nat) (v : PetscReal) :
    Decidable (atSharedBoundary coords counts a v) := by
  unfold atSharedBoundary
  exact inferInstance

instance (coords : List PetscReal) (counts : List Nat) (a : Nat) (v : PetscReal) :
    Decidable (strictlyInside coords counts a v) := by
  unfold strictlyInside
  exact inferInstance

/-! ## Concrete scenarios -/

/-- Two processes splitting the x axis of a 4×4 pressure grid evenly. -/
def twoProcPartition : PartitionInfo :=
  { commSizeErr := 0, numProcs := 2, ownershipErr := 0, lxp := [2, 2], lyp := [4], lzp := [],
    infoErr := 0, m := 2, n := 1, p := 1 }

/-- The vertices `0, 1, 2, 3, 4` on the x and y axes. -/
def gridMesh : CartesianMesh := { x := [0, 1, 2, 3, 4], y := [0, 1, 2, 3, 4], z := [] }

/-- Three body points: two in the left half (`x = 0`, `x = 1`), one in the right
half (`x = 3`). -/
def threePoints : Body := { x := [0, 1, 3], y := [1, 2, 3], z := [] }

/-- Two processes splitting the x axis of a 4×2×2 pressure grid evenly. -/
def twoProcPartition3D : PartitionInfo :=
  { commSizeErr := 0, numProcs := 2, ownershipErr := 0, lxp := [2, 2], lyp := [2], lzp := [2],
    infoErr := 0, m := 2, n := 1, p := 1 }

/-- The vertices `0..4` on the x axis and `0..2` on the y and z axes. -/
def gridMesh3D : CartesianMesh := { x := [0, 1, 2, 3, 4], y := [0, 1, 2], z := [0, 1, 2] }

/-- Three body points in 3D: two in the left half, one in the right half. -/
def threePoints3D : Body := { x := [0, 1, 3], y := [1, 0, 1], z := [0, 1, 1] }

/-- One body point on the x boundary shared by the two processes (`x = 2`). -/
def boundaryPoint : Body := { x := [2], y := [1], z := [] }

/-- Three body points: one inside, one on the global upper boundary (`x = 4`),
one beyond the mesh (`x = 7`). -/
def outsidePoints : Body := { x := [0, 4, 7], y := [1, 1, 1], z := [] }

/-- A backend whose calls all succeed. -/
def okBackend : Backend := { err := fun _ => 0, setValuesErr := fun _ _ _ _ => 0 }

/-- The corners of a 3×3 block of owned nodes with indices `1..3` on each axis. -/
def blockCorners : Corners := { mstart := 1, nstart := 1, pstart := 1, m := 3, n := 3, p := 1 }

/-- Global indices of a 3×3 block: `offset + 3*(j-1) + (i-1)` on the owned
nodes, `-1` on the ghost nodes around them. -/
def blockIdx (offset : PetscInt) (j i : PetscInt) : PetscReal :=
  if 1 ≤ i ∧ i ≤ 3 ∧ 1 ≤ j ∧ j ≤ 3 then ((offset + 3 * (j - 1) + (i - 1) : PetscInt) : PetscReal)
  else ((-1 : PetscInt) : PetscReal)

/-- A single-process, interior-only 3×3 2D velocity grid with uniform spacing
`h = 1`, `nu = 1`, `alpha = 1`, `dt = 1` and unit diagonals: U owns the rows
`0..8`, V the rows `9..17`. -/
def uniformSolver2D : Solver2D :=
  { dt := 1, nu := 1, alphaImplicit := 1,
    uGlobalIdx := blockIdx 0, vGlobalIdx := blockIdx 9,
    uCorners := blockCorners, vCorners := blockCorners,
    dxU := fun _ => 1, dyU := fun _ => 1, dxV := fun _ => 1, dyV := fun _ => 1,
    MHat := fun _ => 1, RInv := fun _ => 1 }

/-- A backend in which only the call on line 166 fails. -/
def diagonalScaleFails : Backend :=
  { err := fun line => if line = 166 then 1 else 0, setValuesErr := fun _ _ _ _ => 0 }

/-- A backend in which only the call on line 319 fails. -/
def diagonalScaleFails3D : Backend :=
  { err := fun line => if line = 319 then 1 else 0, setValuesErr := fun _ _ _ _ => 0 }

/-- Global indices of a 3×3 block in the plane `k = 1`:
`offset + 3*(j-1) + (i-1)` on the owned nodes, `-1` on the ghost nodes. -/
def blockIdx3D (offset : PetscInt) (k j i : PetscInt) : PetscReal :=
  if 1 ≤ i ∧ i ≤ 3 ∧ 1 ≤ j ∧ j ≤ 3 ∧ k = 1 then
    ((offset + 3 * (j - 1) + (i - 1) : PetscInt) : PetscReal)
  else ((-1 : PetscInt) : PetscReal)

/-- A 3D solver with uniform spacing `1` whose three components each own a
3×3×1 block of nodes. -/
def uniformSolver3D : Solver3D :=
  { dt := 1, nu := 1, alphaImplicit := 1,
    uGlobalIdx := blockIdx3D 0, vGlobalIdx := blockIdx3D 9, wGlobalIdx := blockIdx3D 18,
    uCorners := blockCorners, vCorners := blockCorners, wCorners := blockCorners,
    dxU := fun _ => 1, dyU := fun _ => 1, dzU := fun _ => 1,
    dxV := fun _ => 1, dyV := fun _ => 1, dzV := fun _ => 1,
    dxW := fun _ => 1, dyW := fun _ => 1, dzW := fun _ => 1,
    MHat := fun _ => 1, RInv := fun _ => 1 }

/-! ## Theorems: stencil coefficients -/

/-- C1: for non-zero spacings with non-zero `h⁻ + h⁺` on each axis,
`getCoefficients` returns per axis the neighbour-minus coefficient
`2/(h⁻(h⁻+h⁺))`, the neighbour-plus coefficient `2/(h⁺(h⁻+h⁺))`, and a centre
coefficient that is the sum over the axes of `-2/(h⁻h⁺)`; five values in 2D,
seven in 3D, and the first five outputs of the 3D overload are those of the 2D
overload except that `values[0]` has the z contribution
`-2/(dzMinus*dzPlus)` added. -/
theorem getCoefficients_formulas
    (dxMinus dxPlus dyMinus dyPlus dzMinus dzPlus : PetscReal)
    (hxm : dxMinus ≠ 0) (hxp : dxPlus ≠ 0) (hym : dyMinus ≠ 0) (hyp : dyPlus ≠ 0)
    (hzm : dzMinus ≠ 0) (hzp : dzPlus ≠ 0)
    (hx : dxMinus + dxPlus ≠ 0) (hy : dyMinus + dyPlus ≠ 0) (hz : dzMinus + dzPlus ≠ 0) :
    getCoefficients2D dxMinus dxPlus dyMinus dyPlus =
        [ -2 / (dxMinus * dxPlus) + -2 / (dyMinus * dyPlus),
          2 / (dxMinus * (dxMinus + dxPlus)),
          2 / (dxPlus * (dxMinus + dxPlus)),
          2 / (dyMinus * (dyMinus + dyPlus)),
          2 / (dyPlus * (dyMinus + dyPlus)) ] ∧
    getCoefficients3D dxMinus dxPlus dyMinus dyPlus dzMinus dzPlus =
        [ -2 / (dxMinus * dxPlus) + -2 / (dyMinus * dyPlus) + -2 / (dzMinus * dzPlus),
          2 / (dxMinus * (dxMinus + dxPlus)),
          2 / (dxPlus * (dxMinus + dxPlus)),
          2 / (dyMinus * (dyMinus + dyPlus)),
          2 / (dyPlus * (dyMinus + dyPlus)),
          2 / (dzMinus * (dzMinus + dzPlus)),
          2 / (dzPlus * (dzMinus + dzPlus)) ] ∧
    (getCoefficients2D dxMinus dxPlus dyMinus dyPlus).length = 5 ∧
    (getCoefficients3D dxMinus dxPlus dyMinus dyPlus dzMinus dzPlus).length = 7 ∧
    (getCoefficients3D dxMinus dxPlus dyMinus dyPlus dzMinus dzPlus).take 5 =
        ((getCoefficients2D dxMinus dxPlus dyMinus dyPlus).headD 0
            + -2 / (dzMinus * dzPlus)) ::
          (getCoefficients2D dxMinus dxPlus dyMinus dyPlus).tail := by
  refine ⟨?_, ?_, rfl, rfl, ?_⟩
  · simp only [getCoefficients2D, List.cons.injEq, and_true]
    refine ⟨?_, ?_, ?_, ?_, ?_⟩ <;> (field_simp; try ring)
  · simp only [getCoefficients3D, getCoefficients2D, List.cons_append, List.nil_append,
      List.cons.injEq, and_true]
    refine ⟨?_, ?_, ?_, ?_, ?_, ?_, ?_⟩ <;> (field_simp; try ring)
  · simp only [getCoefficients3D, getCoefficients2D, List.cons_append, List.nil_append,
      List.take_succ_cons, List.take_zero, List.headD_cons, List.tail_cons, List.cons.injEq,
      and_true, true_and]
    field_simp

/-- Witness for C1: spacings `1, 2` in x, `3, 4` in y, `5, 6` in z. -/
theorem getCoefficients_formulas_witness :
    getCoefficients2D 1 2 3 4 =
        [ -2 / (1 * 2) + -2 / (3 * 4), 2 / (1 * (1 + 2)), 2 / (2 * (1 + 2)),
          2 / (3 * (3 + 4)), 2 / (4 * (3 + 4)) ] :=
  (getCoefficients_formulas 1 2 3 4 5 6 (by norm_num) (by norm_num) (by norm_num)
    (by norm_num) (by norm_num) (by norm_num) (by norm_num) (by norm_num) (by norm_num)).1

/-- C10: for a non-zero uniform spacing `h`, the 2D `getCoefficients` returns
centre `-4/h²` and four neighbours `1/h²`; the 3D one returns centre `-6/h²`
and six neighbours `1/h²`. -/
theorem getCoefficients_uniform (h : PetscReal) (hh : h ≠ 0) :
    getCoefficients2D h h h h = [-4 / h ^ 2, 1 / h ^ 2, 1 / h ^ 2, 1 / h ^ 2, 1 / h ^ 2] ∧
    getCoefficients3D h h h h h h =
      [-6 / h ^ 2, 1 / h ^ 2, 1 / h ^ 2, 1 / h ^ 2, 1 / h ^ 2, 1 / h ^ 2, 1 / h ^ 2] := by
  have h2 : h + h ≠ 0 := fun e => hh (by linarith)
  constructor
  · simp only [getCoefficients2D, List.cons.injEq, and_true]
    refine ⟨?_, ?_, ?_, ?_, ?_⟩ <;> (field_simp; ring)
  · simp only [getCoefficients3D, getCoefficients2D, List.cons_append, List.nil_append,
      List.cons.injEq, and_true]
    refine ⟨?_, ?_, ?_, ?_, ?_, ?_, ?_⟩ <;> (field_simp; ring)

/-- Witness for C10 at `h = 1/2`. -/
theorem getCoefficients_uniform_witness :
    getCoefficients2D (1 / 2) (1 / 2) (1 / 2) (1 / 2) =
      [-4 / (1 / 2) ^ 2, 1 / (1 / 2) ^ 2, 1 / (1 / 2) ^ 2, 1 / (1 / 2) ^ 2, 1 / (1 / 2) ^ 2] :=
  (getCoefficients_uniform (1 / 2) (by norm_num)).1

end PetIBM

namespace PetIBM

/-! ## Lemmas: the matrix backend -/

theorem MatSetValues_cons (A : Mat) (row c : PetscInt) (cs : List PetscInt) (v : PetscReal)
    (vs : List PetscReal) :
    MatSetValues A row (c :: cs) (v :: vs) =
      MatSetValues (if row < 0 ∨ c < 0 then A else setEntry A row c v) row cs vs := rfl

theorem MatSetValues_nil_left (A : Mat) (row : PetscInt) (vs : List PetscReal) :
    MatSetValues A row [] vs = A := rfl

theorem MatSetValues_nil_right (A : Mat) (row : PetscInt) (cs : List PetscInt) :
    MatSetValues A row cs [] = A := by
  cases cs <;> rfl

/-- A call leaves alone every entry of another row, and every entry of a
column it does not name. -/
theorem MatSetValues_untouched (row r c : PetscInt) :
    ∀ (cs : List PetscInt) (vs : List PetscReal) (A : Mat),
      (r ≠ row ∨ ∀ c' ∈ cs, c' ≠ c) → MatSetValues A row cs vs r c = A r c
  | [], _, A, _ => by rw [MatSetValues_nil_left]
  | _ :: _, [], A, _ => by rw [MatSetValues_nil_right]
  | c0 :: cs, v :: vs, A, h => by
      rw [MatSetValues_cons, MatSetValues_untouched row r c cs vs _
        (h.imp id fun h' c' hc' => h' c' (List.mem_cons_of_mem _ hc'))]
      split
      · rfl
      · simp only [setEntry]
        rw [if_neg]
        rintro ⟨h1, h2⟩
        rcases h with h | h
        · exact h h1
        · exact h c0 (List.mem_cons_self _ _) h2.symm

/-- After a call with pairwise different non-negative columns, the entry at
`(row, cols[p])` is `values[p]`. -/
theorem MatSetValues_entry (row : PetscInt) (hrow : 0 ≤ row) :
    ∀ (cs : List PetscInt) (vs : List PetscReal) (A : Mat) (p : Nat),
      DistinctColumns cs → cs.length = vs.length → p < cs.length → 0 ≤ cs.getD p 0 →
      MatSetValues A row cs vs row (cs.getD p 0) = vs.getD p 0
  | [], _, _, _, _, _, hp, _ => absurd hp (by simp)
  | _ :: _, [], _, _, _, hlen, _, _ => absurd hlen (by simp)
  | c0 :: cs, v :: vs, A, 0, hd, _, _, hc => by
      have hc0 : 0 ≤ c0 := by simpa using hc
      have hne : ∀ c' ∈ cs, c' ≠ c0 := fun c' hc' e =>
        (List.pairwise_cons.mp hd).1 c' hc' hc0 e.symm
      have hnot : ¬ (row < 0 ∨ c0 < 0) := not_or.mpr ⟨not_lt.mpr hrow, not_lt.mpr hc0⟩
      rw [MatSetValues_cons]
      simp only [List.getD_cons_zero]
      rw [MatSetValues_untouched row row c0 cs vs _ (Or.inr hne), if_neg hnot]
      simp [setEntry]
  | c0 :: cs, v :: vs, A, p + 1, hd, hlen, hp, hc => by
      rw [MatSetValues_cons]
      simp only [List.getD_cons_succ]
      exact MatSetValues_entry row hrow cs vs _ p (List.pairwise_cons.mp hd).2
        (by simpa using hlen) (by simpa using hp) (by simpa using hc)

theorem foldl_applyRow_untouched (r c : PetscInt) :
    ∀ (ops : List RowOp) (A : Mat), (∀ op ∈ ops, op.row ≠ r) →
      ops.foldl applyRow A r c = A r c
  | [], _, _ => rfl
  | op :: ops, A, h => by
      rw [List.foldl_cons, foldl_applyRow_untouched r c ops _
        (fun o ho => h o (List.mem_cons_of_mem _ ho))]
      exact MatSetValues_untouched op.row r c op.cols op.values A
        (Or.inl (h op (List.mem_cons_self _ _)).symm)

/-- The entry a call stores survives all other calls when no other call
inserts the same row. -/
theorem foldl_applyRow_entry (op : RowOp) (hrow : 0 ≤ op.row)
    (hcols : DistinctColumns op.cols) (hlen : op.cols.length = op.values.length)
    (p : Nat) (hp : p < op.cols.length) (hc : 0 ≤ op.cols.getD p 0) :
    ∀ (ops : List RowOp) (A : Mat), op ∈ ops → RowsDistinct ops →
      ops.foldl applyRow A op.row (op.cols.getD p 0) = op.values.getD p 0
  | [], _, hmem, _ => absurd hmem (List.not_mem_nil _)
  | o :: ops, A, hmem, hd => by
      have hd' := List.pairwise_cons.mp hd
      rw [List.foldl_cons]
      rcases List.mem_cons.mp hmem with h | h
      · subst h
        rw [foldl_applyRow_untouched op.row _ ops _ (fun o' ho' => (hd'.1 o' ho').symm)]
        exact MatSetValues_entry op.row hrow op.cols op.values A p hcols hlen hp hc
      · exact foldl_applyRow_entry op hrow hcols hlen p hp hc ops _ h hd'.2

/-! ## Lemmas: the success path of `generateA` -/

theorem forRange_ok {σ : Type} (body : PetscInt → σ → Except PetscErrorCode σ)
    (f : σ → PetscInt → σ) (hbody : ∀ i s, body i s = Except.ok (f s i)) :
    ∀ (count : Nat) (start : PetscInt) (s : σ),
      forRange body count start s = Except.ok ((intRange count start).foldl f s)
  | 0, _, _ => rfl
  | count + 1, start, s => by
      simp only [forRange, hbody, intRange, List.foldl_cons]
      exact forRange_ok body f hbody count (start + 1) (f s start)

theorem foldl_flatMap {α β γ : Type} (f : γ → β → γ) (g : α → List β) :
    ∀ (l : List α) (s : γ),
      (l.flatMap g).foldl f s = l.foldl (fun s a => (g a).foldl f s) s
  | [], _ => rfl
  | a :: l, s => by
      rw [List.flatMap_cons, List.foldl_append, List.foldl_cons, foldl_flatMap f g l]

theorem chk_zero : chk 0 = Except.ok () := rfl

theorem insertLoop2D_ok (be : Backend) (hbe : AllOk be) (line : Nat)
    (g : PetscInt → PetscInt → PetscReal) (c : Corners) (dx dy : PetscInt → PetscReal)
    (A : Mat) :
    insertLoop2D be line g c dx dy A =
      Except.ok ((componentOps2D g c dx dy).foldl applyRow A) := by
  unfold insertLoop2D componentOps2D
  rw [foldl_flatMap]
  apply forRange_ok
  intro j B
  rw [List.foldl_map]
  apply forRange_ok
  intro i C
  rw [hbe.2, chk_zero]
  rfl

theorem insertLoop3D_ok (be : Backend) (hbe : AllOk be) (line : Nat)
    (g : PetscInt → PetscInt → PetscInt → PetscReal) (c : Corners)
    (dx dy dz : PetscInt → PetscReal) (A : Mat) :
    insertLoop3D be line g c dx dy dz A =
      Except.ok ((componentOps3D g c dx dy dz).foldl applyRow A) := by
  unfold insertLoop3D componentOps3D
  rw [foldl_flatMap]
  apply forRange_ok
  intro k B
  rw [foldl_flatMap]
  apply forRange_ok
  intro j C
  rw [List.foldl_map]
  apply forRange_ok
  intro i D
  rw [hbe.2, chk_zero]
  rfl

theorem generateA2D_ok (be : Backend) (hbe : AllOk be) (sv : Solver2D) :
    generateA2D be sv =
      Except.ok (MatDiagonalScale (preScaling sv.nu sv.alphaImplicit sv.dt (rowOps2D sv))
        sv.MHat sv.RInv) := by
  simp only [generateA2D, hbe.1, chk_zero, insertLoop2D_ok be hbe, Except.bind, if_true,
    preScaling, stencilMatrix, rowOps2D, List.foldl_append]

theorem generateA3D_ok (be : Backend) (hbe : AllOk be) (sv : Solver3D) :
    generateA3D be sv =
      Except.ok (MatDiagonalScale (preScaling sv.nu sv.alphaImplicit sv.dt (rowOps3D sv))
        sv.MHat sv.RInv) := by
  simp only [generateA3D, hbe.1, chk_zero, insertLoop3D_ok be hbe, Except.bind,
    preScaling, stencilMatrix, rowOps3D, List.foldl_append]

/-! ## Lemmas: the rows `generateA` inserts -/

theorem mem_intRange (x : PetscInt) :
    ∀ (count : Nat) (start : PetscInt),
      x ∈ intRange count start ↔ start ≤ x ∧ x < start + (count : PetscInt)
  | 0, start => by
      simp only [intRange, List.not_mem_nil, Nat.cast_zero, add_zero, false_iff, not_and,
        not_lt]
      exact fun h => h
  | count + 1, start => by
      simp only [intRange, List.mem_cons, mem_intRange x count (start + 1), Nat.cast_add,
        Nat.cast_one]
      constructor
      · rintro (h | ⟨h1, h2⟩)
        · subst h
          exact ⟨le_refl _, by linarith [Int.ofNat_nonneg count]⟩
        · exact ⟨by linarith, by linarith⟩
      · rintro ⟨h1, h2⟩
        rcases eq_or_lt_of_le h1 with h | h
        · exact Or.inl h.symm
        · exact Or.inr ⟨Int.add_one_le_of_lt h, by linarith⟩

theorem mem_componentOps2D (g : PetscInt → PetscInt → PetscReal) (c : Corners)
    (dx dy : PetscInt → PetscReal) (op : RowOp) :
    op ∈ componentOps2D g c dx dy ↔
      ∃ i j, (c.mstart ≤ i ∧ i < c.mstart + (c.m.toNat : PetscInt)) ∧
        (c.nstart ≤ j ∧ j < c.nstart + (c.n.toNat : PetscInt)) ∧ op = rowOp2D g dx dy i j := by
  simp only [componentOps2D, List.mem_flatMap, List.mem_map, mem_intRange]
  constructor
  · rintro ⟨j, hj, i, hi, rfl⟩
    exact ⟨i, j, hi, hj, rfl⟩
  · rintro ⟨i, j, hi, hj, rfl⟩
    exact ⟨j, hj, i, hi, rfl⟩

theorem mem_componentOps3D (g : PetscInt → PetscInt → PetscInt → PetscReal) (c : Corners)
    (dx dy dz : PetscInt → PetscReal) (op : RowOp) :
    op ∈ componentOps3D g c dx dy dz ↔
      ∃ i j k, (c.mstart ≤ i ∧ i < c.mstart + (c.m.toNat : PetscInt)) ∧
        (c.nstart ≤ j ∧ j < c.nstart + (c.n.toNat : PetscInt)) ∧
        (c.pstart ≤ k ∧ k < c.pstart + (c.p.toNat : PetscInt)) ∧
        op = rowOp3D g dx dy dz i j k := by
  simp only [componentOps3D, List.mem_flatMap, List.mem_map, mem_intRange]
  constructor
  · rintro ⟨k, hk, j, hj, i, hi, rfl⟩
    exact ⟨i, j, k, hi, hj, hk, rfl⟩
  · rintro ⟨i, j, k, hi, hj, hk, rfl⟩
    exact ⟨k, hk, j, hj, i, hi, rfl⟩

theorem rowShape_rowOp2D (g : PetscInt → PetscInt → PetscReal) (dx dy : PetscInt → PetscReal)
    (i j : PetscInt) : RowShape 5 (rowOp2D g dx dy i j) :=
  ⟨rfl, rfl, rfl⟩

theorem rowShape_rowOp3D (g : PetscInt → PetscInt → PetscInt → PetscReal)
    (dx dy dz : PetscInt → PetscReal) (i j k : PetscInt) :
    RowShape 7 (rowOp3D g dx dy dz i j k) :=
  ⟨rfl, rfl, rfl⟩

theorem rowShape_rowOps2D (sv : Solver2D) (op : RowOp) (h : op ∈ rowOps2D sv) :
    RowShape 5 op := by
  rcases List.mem_append.mp h with h | h
  · obtain ⟨i, j, _, _, rfl⟩ := (mem_componentOps2D _ _ _ _ op).mp h
    exact rowShape_rowOp2D _ _ _ _ _
  · obtain ⟨i, j, _, _, rfl⟩ := (mem_componentOps2D _ _ _ _ op).mp h
    exact rowShape_rowOp2D _ _ _ _ _

theorem rowShape_rowOps3D (sv : Solver3D) (op : RowOp) (h : op ∈ rowOps3D sv) :
    RowShape 7 op := by
  rcases List.mem_append.mp h with h | h
  · obtain ⟨i, j, k, _, _, _, rfl⟩ := (mem_componentOps3D _ _ _ _ _ op).mp h
    exact rowShape_rowOp3D _ _ _ _ _ _ _
  · rcases List.mem_append.mp h with h | h
    · obtain ⟨i, j, k, _, _, _, rfl⟩ := (mem_componentOps3D _ _ _ _ _ op).mp h
      exact rowShape_rowOp3D _ _ _ _ _ _ _
    · obtain ⟨i, j, k, _, _, _, rfl⟩ := (mem_componentOps3D _ _ _ _ _ op).mp h
      exact rowShape_rowOp3D _ _ _ _ _ _ _

theorem preScaling_apply (nu alphaImplicit dt : PetscReal) (ops : List RowOp)
    (r c : PetscInt) :
    preScaling nu alphaImplicit dt ops r c =
      -(nu * alphaImplicit * stencilMatrix ops r c + (if r = c then -1 / dt else 0)) := by
  simp only [preScaling, MatScale, MatShift]
  split <;> ring

theorem stencilMatrix_entry (ops : List RowOp) (op : RowOp) (width : Nat)
    (hmem : op ∈ ops) (hd : RowsDistinct ops) (hshape : RowShape width op)
    (hrow : 0 ≤ op.row) (hcols : DistinctColumns op.cols)
    (p : Nat) (hp : p < width) (hc : 0 ≤ op.cols.getD p 0) :
    stencilMatrix ops op.row (op.cols.getD p 0) = op.values.getD p 0 :=
  foldl_applyRow_entry op hrow hcols (by rw [hshape.2.1, hshape.2.2]) p
    (by rw [hshape.2.1]; exact hp) hc ops Mat.zero hmem hd

theorem distinctColumns_head_ne (cols : List PetscInt) (hcols : DistinctColumns cols)
    (p : Nat) (hp0 : 0 < p) (hp : p < cols.length) (h0 : 0 ≤ cols.getD 0 0) :
    cols.getD 0 0 ≠ cols.getD p 0 := by
  rw [List.getD_eq_getElem cols 0 hp, List.getD_eq_getElem cols 0 (by omega)] at *
  exact List.pairwise_iff_getElem.mp hcols 0 p (by omega) hp hp0 h0

/-- The entries of one inserted row before diagonal scaling. -/
theorem preScaling_row (nu alphaImplicit dt : PetscReal) (ops : List RowOp) (op : RowOp)
    (width : Nat) (hw : 0 < width) (hmem : op ∈ ops) (hd : RowsDistinct ops)
    (hshape : RowShape width op) (hrow : 0 ≤ op.row) (hcols : DistinctColumns op.cols) :
    preScaling nu alphaImplicit dt ops op.row op.row =
        1 / dt - nu * alphaImplicit * op.values.getD 0 0 ∧
    ∀ p, 0 < p → p < width → 0 ≤ op.cols.getD p 0 →
      preScaling nu alphaImplicit dt ops op.row (op.cols.getD p 0) =
        -(nu * alphaImplicit * op.values.getD p 0) := by
  have h0 : 0 ≤ op.cols.getD 0 0 := by rw [← hshape.1]; exact hrow
  constructor
  · have e := stencilMatrix_entry ops op width hmem hd hshape hrow hcols 0 hw h0
    rw [← hshape.1] at e
    rw [preScaling_apply, e, if_pos rfl]
    ring
  · intro p hp0 hp hc
    have e := stencilMatrix_entry ops op width hmem hd hshape hrow hcols p hp hc
    have hne : op.row ≠ op.cols.getD p 0 := by
      rw [hshape.1]
      exact distinctColumns_head_ne op.cols hcols p hp0 (by rw [hshape.2.1]; exact hp) h0
    rw [preScaling_apply, e, if_neg hne]
    ring

theorem toPetscInt_intCast (n : PetscInt) : toPetscInt ((n : PetscInt) : PetscReal) = n := by
  simp [toPetscInt]

/-! ## Lemmas: loops and vector updates -/

theorem forLoop_eq {σ : Type} (body : Nat → σ → Option σ) (f : Nat → σ) :
    ∀ (count i0 : Nat),
      (∀ i, i0 ≤ i → i < i0 + count → body i (f i) = some (f (i + 1))) →
      forLoop body count i0 (f i0) = some (f (i0 + count))
  | 0, i0, _ => by simp [forLoop]
  | count + 1, i0, h => by
      have h0 : body i0 (f i0) = some (f (i0 + 1)) := h i0 (Nat.le_refl _) (by omega)
      have ih := forLoop_eq body f count (i0 + 1) (fun i h1 h2 => h i (by omega) (by omega))
      simp only [forLoop, h0, Option.some_bind, ih]
      congr 2
      omega

theorem modifyAt_of_getElem? {α : Type} {v : List α} {i : Nat} {a : α} (f : α → α)
    (h : v[i]? = some a) : modifyAt v i f = some (v.set i (f a)) := by
  simp [modifyAt, h]

theorem set_self_of_getElem? {α : Type} {v : List α} {i : Nat} {a : α}
    (h : v[i]? = some a) : v.set i a = v := by
  apply List.ext_getElem?
  intro k
  rw [List.getElem?_set]
  split
  · next hk =>
      subst hk
      split
      · exact h.symm
      · next hlt => rw [List.getElem?_eq_none (by omega)]
  · rfl

theorem getElem?_set_self_of_getElem? {α : Type} {v : List α} {i : Nat} {a b : α}
    (h : v[i]? = some a) : (v.set i b)[i]? = some b := by
  have hlt : i < v.length := by
    by_contra hc
    rw [List.getElem?_eq_none (by omega)] at h
    cases h
  simp [List.getElem?_set, hlt]

theorem filter_range_succ (P : Nat → Bool) (l : Nat) :
    (List.range (l + 1)).filter P =
      (List.range l).filter P ++ (if P l then [l] else []) := by
  rw [List.range_succ, List.filter_append]
  by_cases h : P l <;> simp [h]

theorem countLoop_eq (cond : Nat → Option Bool) (P : Nat → Bool) (size procIdx : Nat)
    (num : List PetscInt) (c0 : PetscInt)
    (hcond : ∀ l, l < size → cond l = some (P l)) (hc : num[procIdx]? = some c0) :
    forLoop (countStep cond procIdx) size 0 num =
      some (num.set procIdx (c0 + (((List.range size).filter P).length : PetscInt))) := by
  have key := forLoop_eq (countStep cond procIdx)
    (fun l => num.set procIdx (c0 + (((List.range l).filter P).length : PetscInt))) size 0
    (by
      intro l _ hl
      have hget := getElem?_set_self_of_getElem?
        (b := c0 + (((List.range l).filter P).length : PetscInt)) hc
      simp only [countStep, hcond l (by omega)]
      cases hP : P l
      · simp [filter_range_succ, hP]
      · simp only [modifyAt_of_getElem? _ hget, List.set_set, filter_range_succ, hP, if_true,
          List.length_append, List.length_singleton]
        congr 2
        push_cast
        ring)
  simpa [set_self_of_getElem? hc] using key

theorem collectLoop_eq (cond : Nat → Option Bool) (P : Nat → Bool) (size procIdx : Nat)
    (lists : List (List PetscInt)) (v0 : List PetscInt)
    (hcond : ∀ l, l < size → cond l = some (P l)) (hv : lists[procIdx]? = some v0) :
    forLoop (collectStep cond procIdx) size 0 lists =
      some (lists.set procIdx
        (v0 ++ ((List.range size).filter P).map Int.ofNat)) := by
  have key := forLoop_eq (collectStep cond procIdx)
    (fun l => lists.set procIdx
      (v0 ++ ((List.range l).filter P).map Int.ofNat)) size 0
    (by
      intro l _ hl
      have hget := getElem?_set_self_of_getElem?
        (b := v0 ++ ((List.range l).filter P).map Int.ofNat) hv
      simp only [collectStep, hcond l (by omega)]
      cases hP : P l
      · simp [filter_range_succ, hP]
      · simp only [modifyAt_of_getElem? _ hget, List.set_set, filter_range_succ, hP, if_true,
          List.map_append, List.map_cons, List.map_nil, List.append_assoc]
        rfl)
  simpa [set_self_of_getElem? hv] using key

theorem mapIdx_set_step {α : Type} (v : List α) (g : Nat → α → α) (k : Nat) (a : α)
    (ha : v[k]? = some a) :
    (v.mapIdx fun r x => if r < k then g r x else x).set k (g k a) =
      v.mapIdx fun r x => if r < k + 1 then g r x else x := by
  apply List.ext_getElem?
  intro r
  rw [List.getElem?_set, List.getElem?_mapIdx, List.getElem?_mapIdx, List.length_mapIdx]
  by_cases hr : k = r
  · subst hr
    have hlt : k < v.length := by
      by_contra hc
      rw [List.getElem?_eq_none (by omega)] at ha
      cases ha
    simp [hlt, ha]
  · rw [if_neg hr]
    cases v[r]? with
    | none => rfl
    | some x =>
        simp only [Option.map_some']
        by_cases h1 : r < k
        · rw [if_pos h1, if_pos (by omega)]
        · rw [if_neg h1, if_neg (by omega)]

theorem mapIdx_snd {α : Type} (v : List α) : (v.mapIdx fun _ x => x) = v := by
  apply List.ext_getElem?
  intro r
  rw [List.getElem?_mapIdx]
  cases v[r]? <;> rfl

theorem afterCells_zero (E : Nat → List PetscInt) (phi : Nat → PetscInt) (b : BodyInfo) :
    afterCells E phi b 0 = b := by
  cases b
  simp [afterCells, mapIdx_snd]

theorem scanCell_afterCells (E : Nat → List PetscInt) (phi : Nat → PetscInt) (b : BodyInfo)
    (k size : Nat) (cond : Nat → Option Bool) (P : Nat → Bool)
    (hcond : ∀ l, l < size → cond l = some (P l))
    (hE : E k = ((List.range size).filter P).map Int.ofNat)
    (v0 : List PetscInt) (c0 p0 : PetscInt)
    (hv : b.boundaryPointIndices[k]? = some v0)
    (hc : b.numBoundaryPointsOnProcess[k]? = some c0)
    (hp : b.numPhiOnProcess[k]? = some p0)
    (hnn : 0 ≤ c0) :
    scanCell cond size k (phi k) (afterCells E phi b k) = some (afterCells E phi b (k + 1)) := by
  have hv1 : (afterCells E phi b k).boundaryPointIndices[k]? = some v0 := by
    simp [afterCells, hv]
  have hc1 : (afterCells E phi b k).numBoundaryPointsOnProcess[k]? = some c0 := by
    simp [afterCells, hc]
  have hp1 : (afterCells E phi b k).numPhiOnProcess[k]? = some p0 := by
    simp [afterCells, hp]
  have hlen : (((List.range size).filter P).length : PetscInt) = ((E k).length : PetscInt) := by
    rw [hE, List.length_map]
  have hres : reserveStep (afterCells E phi b k).boundaryPointIndices
      ((afterCells E phi b k).numBoundaryPointsOnProcess.set k
        (c0 + (((List.range size).filter P).length : PetscInt))) k = some () := by
    have h2 := getElem?_set_self_of_getElem?
      (b := c0 + (((List.range size).filter P).length : PetscInt)) hc1
    simp only [reserveStep, hv1, h2]
    rw [if_pos (by positivity)]
  simp only [scanCell, modifyAt_of_getElem? _ hp1, Option.some_bind,
    countLoop_eq cond P size k _ c0 hcond hc1, hres,
    collectLoop_eq cond P size k _ v0 hcond hv1]
  simp only [afterCells, Option.some.injEq, BodyInfo.mk.injEq, and_true]
  refine ⟨?_, ?_, ?_⟩
  · rw [← hE]
    exact mapIdx_set_step b.boundaryPointIndices (fun r v => v ++ E r) k v0 hv
  · rw [hlen]
    exact mapIdx_set_step b.numBoundaryPointsOnProcess
      (fun r c => c + ((E r).length : PetscInt)) k c0 hc
  · exact mapIdx_set_step b.numPhiOnProcess (fun r _ => phi r) k p0 hp

/-! ## Lemmas: prefix sums and the membership condition -/

theorem startIdx_succ (counts : List Nat) (i : Nat) (h : i < counts.length) :
    startIdx counts (i + 1) = startIdx counts i + counts.getD i 0 := by
  unfold startIdx
  rw [List.sum_take_succ counts i h, List.getD_eq_getElem counts 0 h]

theorem startIdx_le_sum (counts : List Nat) (i : Nat) : startIdx counts i ≤ counts.sum := by
  unfold startIdx
  have h := List.sum_take_add_sum_drop counts i
  omega

theorem startIdx_length (counts : List Nat) : startIdx counts counts.length = counts.sum := by
  simp [startIdx]

theorem startIdx_zero (counts : List Nat) : startIdx counts 0 = 0 := by
  simp [startIdx]

theorem getElem?_eq_some_getD {α : Type} (v : List α) (i : Nat) (d : α) (h : i < v.length) :
    v[i]? = some (v.getD i d) := by
  rw [List.getD_eq_getElem v d h, List.getElem?_eq_getElem h]

theorem geAt_eq (v w : List PetscReal) (l k : Nat) (hl : l < v.length) (hk : k < w.length) :
    geAt v l w k = some (decide (w.getD k 0 ≤ v.getD l 0)) := by
  simp only [geAt, getElem?_eq_some_getD v l 0 hl, getElem?_eq_some_getD w k 0 hk, ge_iff_le]

theorem ltAt_eq (v w : List PetscReal) (l k : Nat) (hl : l < v.length) (hk : k < w.length) :
    ltAt v l w k = some (decide (v.getD l 0 < w.getD k 0)) := by
  simp only [ltAt, getElem?_eq_some_getD v l 0 hl, getElem?_eq_some_getD w k 0 hk]

theorem andThen_some (a b : Bool) : andThen (some a) (some b) = some (a && b) := by
  cases a <;> rfl

theorem inCell2D_eq (pi : PartitionInfo) (mesh : CartesianMesh) (body : Body)
    (hs : Shape2D pi mesh body) (i j l : Nat) (hi : i < pi.m) (hj : j < pi.n)
    (hl : l < body.x.length) :
    inCell2D mesh body (startIdx pi.lxp i) (startIdx pi.lxp i + pi.lxp.getD i 0)
        (startIdx pi.lyp j) (startIdx pi.lyp j + pi.lyp.getD j 0) l =
      some (cellPred2D pi mesh body i j l) := by
  obtain ⟨_, hlx, hly, hmx, hmy, hby⟩ := hs
  have hx1 := startIdx_le_sum pi.lxp i
  have hx2 := startIdx_le_sum pi.lxp (i + 1)
  have hy1 := startIdx_le_sum pi.lyp j
  have hy2 := startIdx_le_sum pi.lyp (j + 1)
  rw [← startIdx_succ pi.lxp i (by omega), ← startIdx_succ pi.lyp j (by omega)]
  rw [inCell2D, geAt_eq _ _ _ _ hl (by omega), ltAt_eq _ _ _ _ hl (by omega),
    geAt_eq _ _ _ _ (by omega) (by omega), ltAt_eq _ _ _ _ (by omega) (by omega)]
  simp only [andThen_some, cellPred2D, inInterval, Option.some.injEq, Bool.decide_and,
    Bool.and_assoc]

/-! ## Lemmas: the loops of the 2D specialization -/

theorem rank2D_lt {m n i j : Nat} (hi : i < m) (hj : j < n) : j * m + i < m * n := by
  have h : (j + 1) * m ≤ n * m := Nat.mul_le_mul_right m (by omega)
  have h2 : (j + 1) * m = j * m + m := by ring
  have h3 : n * m = m * n := Nat.mul_comm n m
  omega

theorem rank2D_mod {m i : Nat} (j : Nat) (hi : i < m) : (j * m + i) % m = i := by
  rw [Nat.add_comm, Nat.add_mul_mod_self_right, Nat.mod_eq_of_lt hi]

theorem rank2D_div {m i : Nat} (j : Nat) (hi : i < m) : (j * m + i) / m = j := by
  rw [Nat.add_comm, Nat.add_mul_div_right _ _ (by omega), Nat.div_eq_of_lt hi, Nat.zero_add]

theorem length_resize {α : Type} (v : List α) (n : Nat) (d : α) : (resize v n d).length = n := by
  simp only [resize, List.length_append, List.length_take, List.length_replicate]
  omega

theorem mem_resize {α : Type} (v : List α) (n : Nat) (d : α) (a : α)
    (h : a ∈ resize v n d) : a ∈ v ∨ a = d := by
  simp only [resize, List.mem_append, List.mem_replicate] at h
  rcases h with h | h
  · exact Or.inl (List.mem_of_mem_take h)
  · exact Or.inr h.2

theorem resize_of_length {α : Type} (v : List α) (n : Nat) (d : α) (h : v.length = n) :
    resize v n d = v := by
  simp [resize, ← h]

theorem baseOk_resizeAll (numProcs size : Nat) (s : BodyInfo)
    (hnn : ∀ c ∈ s.numBoundaryPointsOnProcess, 0 ≤ c) :
    BaseOk numProcs (resizeAll numProcs size s) := by
  refine ⟨length_resize _ _ _, length_resize _ _ _, length_resize _ _ _, ?_⟩
  intro c hc
  rcases mem_resize _ _ _ _ hc with h | h
  · exact hnn c h
  · simp [h]

theorem iBody2D_step (pi : PartitionInfo) (mesh : CartesianMesh) (body : Body)
    (hs : Shape2D pi mesh body) (b : BodyInfo) (hb : BaseOk pi.numProcs b)
    (i j : Nat) (hi : i < pi.m) (hj : j < pi.n) :
    iBody2D pi mesh body j (startIdx pi.lyp j) (startIdx pi.lyp j + pi.lyp.getD j 0) i
        (startIdx pi.lxp i,
          afterCells (rankList2D pi mesh body) (rankPhi2D pi) b (j * pi.m + i)) =
      some (startIdx pi.lxp (i + 1),
          afterCells (rankList2D pi mesh body) (rankPhi2D pi) b (j * pi.m + (i + 1))) := by
  have hs' := hs
  obtain ⟨hN, hlx, hly, _, _, _⟩ := hs'
  obtain ⟨hb1, hb2, hb3, hb4⟩ := hb
  have hk : j * pi.m + i < pi.numProcs := Nat.lt_of_lt_of_le (rank2D_lt hi hj) hN
  have hphi : rankPhi2D pi (j * pi.m + i) =
      (pi.lxp.getD i 0 : PetscInt) * (pi.lyp.getD j 0 : PetscInt) := by
    simp only [rankPhi2D, rank2D_mod j hi, rank2D_div j hi]
  have hE : rankList2D pi mesh body (j * pi.m + i) =
      ((List.range body.x.length).filter (cellPred2D pi mesh body i j)).map Int.ofNat := by
    simp only [rankList2D, rank2D_mod j hi, rank2D_div j hi, cellList2D]
  have hstep := scanCell_afterCells (rankList2D pi mesh body) (rankPhi2D pi) b
    (j * pi.m + i) body.x.length
    (inCell2D mesh body (startIdx pi.lxp i) (startIdx pi.lxp i + pi.lxp.getD i 0)
      (startIdx pi.lyp j) (startIdx pi.lyp j + pi.lyp.getD j 0))
    (cellPred2D pi mesh body i j)
    (fun l hl => inCell2D_eq pi mesh body hs i j l hi hj hl) hE
    (b.boundaryPointIndices.getD (j * pi.m + i) [])
    (b.numBoundaryPointsOnProcess.getD (j * pi.m + i) 0)
    (b.numPhiOnProcess.getD (j * pi.m + i) 0)
    (getElem?_eq_some_getD _ _ _ (by omega))
    (getElem?_eq_some_getD _ _ _ (by omega))
    (getElem?_eq_some_getD _ _ _ (by omega))
    (hb4 _ (by
      rw [List.getD_eq_getElem _ 0 (by omega)]
      exact List.getElem_mem _))
  rw [hphi] at hstep
  simp only [iBody2D, getElem?_eq_some_getD pi.lxp i 0 (by omega),
    getElem?_eq_some_getD pi.lyp j 0 (by omega), hstep, Option.some_bind,
    startIdx_succ pi.lxp i (by omega)]
  rfl

theorem iLoop2D_eq (pi : PartitionInfo) (mesh : CartesianMesh) (body : Body)
    (hs : Shape2D pi mesh body) (b : BodyInfo) (hb : BaseOk pi.numProcs b)
    (j : Nat) (hj : j < pi.n) :
    forLoop (iBody2D pi mesh body j (startIdx pi.lyp j) (startIdx pi.lyp j + pi.lyp.getD j 0))
        pi.m 0 (0, afterCells (rankList2D pi mesh body) (rankPhi2D pi) b (j * pi.m)) =
      some (startIdx pi.lxp pi.m,
        afterCells (rankList2D pi mesh body) (rankPhi2D pi) b (j * pi.m + pi.m)) := by
  have key := forLoop_eq
    (iBody2D pi mesh body j (startIdx pi.lyp j) (startIdx pi.lyp j + pi.lyp.getD j 0))
    (fun i => (startIdx pi.lxp i,
      afterCells (rankList2D pi mesh body) (rankPhi2D pi) b (j * pi.m + i))) pi.m 0
    (fun i _ hi => iBody2D_step pi mesh body hs b hb i j (by omega) hj)
  simpa [startIdx_zero] using key

theorem jBody2D_step (pi : PartitionInfo) (mesh : CartesianMesh) (body : Body)
    (hs : Shape2D pi mesh body) (b : BodyInfo) (hb : BaseOk pi.numProcs b)
    (j : Nat) (hj : j < pi.n) :
    jBody2D pi mesh body j
        (startIdx pi.lyp j, afterCells (rankList2D pi mesh body) (rankPhi2D pi) b (j * pi.m)) =
      some (startIdx pi.lyp (j + 1),
        afterCells (rankList2D pi mesh body) (rankPhi2D pi) b ((j + 1) * pi.m)) := by
  have hly : pi.lyp.length = pi.n := hs.2.2.1
  have h1 : (j + 1) * pi.m = j * pi.m + pi.m := by ring
  simp only [jBody2D, getElem?_eq_some_getD pi.lyp j 0 (by omega),
    iLoop2D_eq pi mesh body hs b hb j hj, Option.some_bind,
    startIdx_succ pi.lyp j (by omega), h1]

theorem generateBodyInfo2D_eq (pi : PartitionInfo) (mesh : CartesianMesh) (body : Body)
    (hq : QueriesOk pi) (hs : Shape2D pi mesh body) (s : BodyInfo)
    (hnn : ∀ c ∈ s.numBoundaryPointsOnProcess, 0 ≤ c) :
    generateBodyInfo2D pi mesh body s =
      some (0, afterCells (rankList2D pi mesh body) (rankPhi2D pi)
        (resizeAll pi.numProcs body.x.length s) (pi.m * pi.n)) := by
  obtain ⟨hq1, hq2, hq3⟩ := hq
  have hb := baseOk_resizeAll pi.numProcs body.x.length s hnn
  have key := forLoop_eq (jBody2D pi mesh body)
    (fun j => (startIdx pi.lyp j,
      afterCells (rankList2D pi mesh body) (rankPhi2D pi)
        (resizeAll pi.numProcs body.x.length s) (j * pi.m))) pi.n 0
    (fun j _ hj => jBody2D_step pi mesh body hs _ hb j (by omega))
  simp only [startIdx_zero, Nat.zero_mul, afterCells_zero, Nat.zero_add] at key
  simp only [generateBodyInfo2D, hq1, hq2, hq3, ne_eq, not_true_eq_false, if_false, key,
    Option.some_bind, Nat.mul_comm pi.n pi.m]

/-! ## Lemmas: the loops of the 3D specialization -/

theorem rank3D_eq (m n i j k : Nat) : k * m * n + j * m + i = (k * n + j) * m + i := by ring

theorem rank3D_lt {m n p i j k : Nat} (hi : i < m) (hj : j < n) (hk : k < p) :
    k * m * n + j * m + i < m * n * p := by
  rw [rank3D_eq]
  have h1 : k * n + j < n * p := by
    have := rank2D_lt hj hk
    omega
  have h2 := rank2D_lt hi h1
  have h3 : m * (n * p) = m * n * p := by ring
  omega

theorem rank3D_mod {m i : Nat} (n j k : Nat) (hi : i < m) :
    (k * m * n + j * m + i) % m = i := by
  rw [rank3D_eq, rank2D_mod _ hi]

theorem rank3D_div_mod {m n i j : Nat} (k : Nat) (hi : i < m) (hj : j < n) :
    (k * m * n + j * m + i) / m % n = j := by
  rw [rank3D_eq, rank2D_div _ hi, rank2D_mod _ hj]

theorem rank3D_div_div {m n i j : Nat} (k : Nat) (hi : i < m) (hj : j < n) :
    (k * m * n + j * m + i) / m / n = k := by
  rw [rank3D_eq, rank2D_div _ hi, rank2D_div _ hj]

theorem rank2D_bounds {m n r : Nat} (hr : r < m * n) : r % m < m ∧ r / m < n := by
  have hm : 0 < m := by
    rcases Nat.eq_zero_or_pos m with h | h
    · subst h
      simp at hr
    · exact h
  exact ⟨Nat.mod_lt r hm, (Nat.div_lt_iff_lt_mul hm).mpr (by rw [Nat.mul_comm]; exact hr)⟩

theorem rank3D_bounds {m n p r : Nat} (hr : r < m * n * p) :
    r % m < m ∧ r / m % n < n ∧ r / m / n < p := by
  have h1 : r < m * (n * p) := by rw [← Nat.mul_assoc]; exact hr
  have h2 := rank2D_bounds h1
  have h3 := rank2D_bounds h2.2
  exact ⟨h2.1, h3.1, h3.2⟩

theorem inCell3D_eq (pi : PartitionInfo) (mesh : CartesianMesh) (body : Body)
    (hs : Shape3D pi mesh body) (i j k l : Nat) (hi : i < pi.m) (hj : j < pi.n)
    (hk : k < pi.p) (hl : l < body.x.length) :
    inCell3D mesh body (startIdx pi.lxp i) (startIdx pi.lxp i + pi.lxp.getD i 0)
        (startIdx pi.lyp j) (startIdx pi.lyp j + pi.lyp.getD j 0)
        (startIdx pi.lzp k) (startIdx pi.lzp k + pi.lzp.getD k 0) l =
      some (cellPred3D pi mesh body i j k l) := by
  obtain ⟨_, hlx, hly, hlz, hmx, hmy, hmz, hby, hbz⟩ := hs
  have hx1 := startIdx_le_sum pi.lxp i
  have hx2 := startIdx_le_sum pi.lxp (i + 1)
  have hy1 := startIdx_le_sum pi.lyp j
  have hy2 := startIdx_le_sum pi.lyp (j + 1)
  have hz1 := startIdx_le_sum pi.lzp k
  have hz2 := startIdx_le_sum pi.lzp (k + 1)
  rw [← startIdx_succ pi.lxp i (by omega), ← startIdx_succ pi.lyp j (by omega),
    ← startIdx_succ pi.lzp k (by omega)]
  rw [inCell3D, geAt_eq _ _ _ _ hl (by omega), ltAt_eq _ _ _ _ hl (by omega),
    geAt_eq _ _ _ _ (by omega) (by omega), ltAt_eq _ _ _ _ (by omega) (by omega),
    geAt_eq _ _ _ _ (by omega) (by omega), ltAt_eq _ _ _ _ (by omega) (by omega)]
  simp only [andThen_some, cellPred3D, inInterval, Option.some.injEq, Bool.decide_and,
    Bool.and_assoc]

theorem iBody3D_step (pi : PartitionInfo) (mesh : CartesianMesh) (body : Body)
    (hs : Shape3D pi mesh body) (b : BodyInfo) (hb : BaseOk pi.numProcs b)
    (i j k : Nat) (hi : i < pi.m) (hj : j < pi.n) (hk : k < pi.p) :
    iBody3D pi mesh body k (startIdx pi.lzp k) (startIdx pi.lzp k + pi.lzp.getD k 0)
        j (startIdx pi.lyp j) (startIdx pi.lyp j + pi.lyp.getD j 0) i
        (startIdx pi.lxp i,
          afterCells (rankList3D pi mesh body) (rankPhi3D pi) b
            (k * pi.m * pi.n + j * pi.m + i)) =
      some (startIdx pi.lxp (i + 1),
          afterCells (rankList3D pi mesh body) (rankPhi3D pi) b
            (k * pi.m * pi.n + j * pi.m + (i + 1))) := by
  have hs' := hs
  obtain ⟨hN, hlx, hly, hlz, _, _, _, _, _⟩ := hs'
  obtain ⟨hb1, hb2, hb3, hb4⟩ := hb
  have hr : k * pi.m * pi.n + j * pi.m + i < pi.numProcs :=
    Nat.lt_of_lt_of_le (rank3D_lt hi hj hk) hN
  have hphi : rankPhi3D pi (k * pi.m * pi.n + j * pi.m + i) =
      (pi.lxp.getD i 0 : PetscInt) * (pi.lyp.getD j 0 : PetscInt) *
        (pi.lzp.getD k 0 : PetscInt) := by
    simp only [rankPhi3D, rank3D_mod pi.n j k hi, rank3D_div_mod k hi hj,
      rank3D_div_div k hi hj]
  have hE : rankList3D pi mesh body (k * pi.m * pi.n + j * pi.m + i) =
      ((List.range body.x.length).filter (cellPred3D pi mesh body i j k)).map Int.ofNat := by
    simp only [rankList3D, rank3D_mod pi.n j k hi, rank3D_div_mod k hi hj,
      rank3D_div_div k hi hj, cellList3D]
  have hstep := scanCell_afterCells (rankList3D pi mesh body) (rankPhi3D pi) b
    (k * pi.m * pi.n + j * pi.m + i) body.x.length
    (inCell3D mesh body (startIdx pi.lxp i) (startIdx pi.lxp i + pi.lxp.getD i 0)
      (startIdx pi.lyp j) (startIdx pi.lyp j + pi.lyp.getD j 0)
      (startIdx pi.lzp k) (startIdx pi.lzp k + pi.lzp.getD k 0))
    (cellPred3D pi mesh body i j k)
    (fun l hl => inCell3D_eq pi mesh body hs i j k l hi hj hk hl) hE
    (b.boundaryPointIndices.getD (k * pi.m * pi.n + j * pi.m + i) [])
    (b.numBoundaryPointsOnProcess.getD (k * pi.m * pi.n + j * pi.m + i) 0)
    (b.numPhiOnProcess.getD (k * pi.m * pi.n + j * pi.m + i) 0)
    (getElem?_eq_some_getD _ _ _ (by omega))
    (getElem?_eq_some_getD _ _ _ (by omega))
    (getElem?_eq_some_getD _ _ _ (by omega))
    (hb4 _ (by
      rw [List.getD_eq_getElem _ 0 (by omega)]
      exact List.getElem_mem _))
  rw [hphi] at hstep
  simp only [iBody3D, getElem?_eq_some_getD pi.lxp i 0 (by omega),
    getElem?_eq_some_getD pi.lyp j 0 (by omega), getElem?_eq_some_getD pi.lzp k 0 (by omega),
    hstep, Option.some_bind, startIdx_succ pi.lxp i (by omega)]
  rfl

theorem iLoop3D_eq (pi : PartitionInfo) (mesh : CartesianMesh) (body : Body)
    (hs : Shape3D pi mesh body) (b : BodyInfo) (hb : BaseOk pi.numProcs b)
    (j k : Nat) (hj : j < pi.n) (hk : k < pi.p) :
    forLoop (iBody3D pi mesh body k (startIdx pi.lzp k) (startIdx pi.lzp k + pi.lzp.getD k 0)
        j (startIdx pi.lyp j) (startIdx pi.lyp j + pi.lyp.getD j 0))
        pi.m 0 (0, afterCells (rankList3D pi mesh body) (rankPhi3D pi) b
          (k * pi.m * pi.n + j * pi.m)) =
      some (startIdx pi.lxp pi.m,
        afterCells (rankList3D pi mesh body) (rankPhi3D pi) b
          (k * pi.m * pi.n + j * pi.m + pi.m)) := by
  have key := forLoop_eq
    (iBody3D pi mesh body k (startIdx pi.lzp k) (startIdx pi.lzp k + pi.lzp.getD k 0)
        j (startIdx pi.lyp j) (startIdx pi.lyp j + pi.lyp.getD j 0))
    (fun i => (startIdx pi.lxp i,
      afterCells (rankList3D pi mesh body) (rankPhi3D pi) b
        (k * pi.m * pi.n + j * pi.m + i))) pi.m 0
    (fun i _ hi => iBody3D_step pi mesh body hs b hb i j k (by omega) hj hk)
  simpa [startIdx_zero] using key

theorem jBody3D_step (pi : PartitionInfo) (mesh : CartesianMesh) (body : Body)
    (hs : Shape3D pi mesh body) (b : BodyInfo) (hb : BaseOk pi.numProcs b)
    (j k : Nat) (hj : j < pi.n) (hk : k < pi.p) :
    jBody3D pi mesh body k (startIdx pi.lzp k) (startIdx pi.lzp k + pi.lzp.getD k 0) j
        (startIdx pi.lyp j, afterCells (rankList3D pi mesh body) (rankPhi3D pi) b
          (k * pi.m * pi.n + j * pi.m)) =
      some (startIdx pi.lyp (j + 1),
        afterCells (rankList3D pi mesh body) (rankPhi3D pi) b
          (k * pi.m * pi.n + (j + 1) * pi.m)) := by
  have hly : pi.lyp.length = pi.n := hs.2.2.1
  have h1 : k * pi.m * pi.n + (j + 1) * pi.m = k * pi.m * pi.n + j * pi.m + pi.m := by ring
  simp only [jBody3D, getElem?_eq_some_getD pi.lyp j 0 (by omega),
    iLoop3D_eq pi mesh body hs b hb j k hj hk, Option.some_bind,
    startIdx_succ pi.lyp j (by omega), h1]

theorem jLoop3D_eq (pi : PartitionInfo) (mesh : CartesianMesh) (body : Body)
    (hs : Shape3D pi mesh body) (b : BodyInfo) (hb : BaseOk pi.numProcs b)
    (k : Nat) (hk : k < pi.p) :
    forLoop (jBody3D pi mesh body k (startIdx pi.lzp k) (startIdx pi.lzp k + pi.lzp.getD k 0))
        pi.n 0 (0, afterCells (rankList3D pi mesh body) (rankPhi3D pi) b (k * pi.m * pi.n)) =
      some (startIdx pi.lyp pi.n,
        afterCells (rankList3D pi mesh body) (rankPhi3D pi) b
          (k * pi.m * pi.n + pi.n * pi.m)) := by
  have key := forLoop_eq
    (jBody3D pi mesh body k (startIdx pi.lzp k) (startIdx pi.lzp k + pi.lzp.getD k 0))
    (fun j => (startIdx pi.lyp j,
      afterCells (rankList3D pi mesh body) (rankPhi3D pi) b
        (k * pi.m * pi.n + j * pi.m))) pi.n 0
    (fun j _ hj => jBody3D_step pi mesh body hs b hb j k (by omega) hk)
  simpa [startIdx_zero] using key

theorem kBody3D_step (pi : PartitionInfo) (mesh : CartesianMesh) (body : Body)
    (hs : Shape3D pi mesh body) (b : BodyInfo) (hb : BaseOk pi.numProcs b)
    (k : Nat) (hk : k < pi.p) :
    kBody3D pi mesh body k
        (startIdx pi.lzp k, afterCells (rankList3D pi mesh body) (rankPhi3D pi) b
          (k * (pi.m * pi.n))) =
      some (startIdx pi.lzp (k + 1),
        afterCells (rankList3D pi mesh body) (rankPhi3D pi) b ((k + 1) * (pi.m * pi.n))) := by
  have hlz : pi.lzp.length = pi.p := hs.2.2.2.1
  have h0 : k * (pi.m * pi.n) = k * pi.m * pi.n := by ring
  have h1 : (k + 1) * (pi.m * pi.n) = k * pi.m * pi.n + pi.n * pi.m := by ring
  simp only [kBody3D, getElem?_eq_some_getD pi.lzp k 0 (by omega), h0,
    jLoop3D_eq pi mesh body hs b hb k hk, Option.some_bind,
    startIdx_succ pi.lzp k (by omega), h1]

theorem generateBodyInfo3D_eq (pi : PartitionInfo) (mesh : CartesianMesh) (body : Body)
    (hq : QueriesOk pi) (hs : Shape3D pi mesh body) (s : BodyInfo)
    (hnn : ∀ c ∈ s.numBoundaryPointsOnProcess, 0 ≤ c) :
    generateBodyInfo3D pi mesh body s =
      some (0, afterCells (rankList3D pi mesh body) (rankPhi3D pi)
        (resizeAll pi.numProcs body.x.length s) (pi.m * pi.n * pi.p)) := by
  obtain ⟨hq1, hq2, hq3⟩ := hq
  have hb := baseOk_resizeAll pi.numProcs body.x.length s hnn
  have key := forLoop_eq (kBody3D pi mesh body)
    (fun k => (startIdx pi.lzp k,
      afterCells (rankList3D pi mesh body) (rankPhi3D pi)
        (resizeAll pi.numProcs body.x.length s) (k * (pi.m * pi.n)))) pi.p 0
    (fun k _ hk => kBody3D_step pi mesh body hs _ hb k (by omega))
  simp only [startIdx_zero, Nat.zero_mul, afterCells_zero, Nat.zero_add] at key
  simp only [generateBodyInfo3D, hq1, hq2, hq3, ne_eq, not_true_eq_false, if_false, key,
    Option.some_bind, Nat.mul_comm pi.p (pi.m * pi.n)]

/-! ## Lemmas: tiling of an axis by the half-open intervals -/

theorem startIdx_le_succ (counts : List Nat) (i : Nat) :
    startIdx counts i ≤ startIdx counts (i + 1) := by
  by_cases h : i < counts.length
  · rw [startIdx_succ counts i h]
    omega
  · simp only [startIdx]
    rw [List.take_of_length_le (by omega), List.take_of_length_le (by omega)]

theorem startIdx_mono (counts : List Nat) {i i' : Nat} (h : i ≤ i') :
    startIdx counts i ≤ startIdx counts i' := by
  induction i' with
  | zero =>
      have : i = 0 := by omega
      subst this
      exact Nat.le_refl _
  | succ t ih =>
      by_cases ht : i ≤ t
      · exact Nat.le_trans (ih ht) (startIdx_le_succ counts t)
      · have : i = t + 1 := by omega
        subst this
        exact Nat.le_refl _

theorem startIdx_lt_succ (counts : List Nat) (hpos : ∀ c ∈ counts, 0 < c) (i : Nat)
    (h : i < counts.length) : startIdx counts i < startIdx counts (i + 1) := by
  rw [startIdx_succ counts i h, List.getD_eq_getElem counts 0 h]
  have := hpos _ (List.getElem_mem h)
  omega

theorem getD_lt_of_pairwise (coords : List PetscReal) (hsorted : coords.Pairwise (· < ·))
    {a b : Nat} (hab : a < b) (hb : b < coords.length) :
    coords.getD a 0 < coords.getD b 0 := by
  rw [List.getD_eq_getElem coords 0 hb, List.getD_eq_getElem coords 0 (by omega)]
  exact List.pairwise_iff_getElem.mp hsorted a b (by omega) hb hab

theorem getD_le_of_pairwise (coords : List PetscReal) (hsorted : coords.Pairwise (· < ·))
    {a b : Nat} (hab : a ≤ b) (hb : b < coords.length) :
    coords.getD a 0 ≤ coords.getD b 0 := by
  rcases Nat.eq_or_lt_of_le hab with h | h
  · rw [h]
  · exact le_of_lt (getD_lt_of_pairwise coords hsorted h hb)

/-- The intervals of two different cells of an axis are disjoint. -/
theorem inInterval_unique (coords : List PetscReal) (counts : List Nat)
    (hsorted : coords.Pairwise (· < ·)) (hlen : counts.sum < coords.length)
    (v : PetscReal) (i i' : Nat)
    (h : inInterval coords counts i v) (h' : inInterval coords counts i' v) : i = i' := by
  have aux : ∀ a b : Nat, inInterval coords counts a v → inInterval coords counts b v →
      ¬ a < b := by
    intro a b ha hb hlt
    have h1 : startIdx counts (a + 1) ≤ startIdx counts b := startIdx_mono counts (by omega)
    have h2 := startIdx_le_sum counts b
    have h3 := getD_le_of_pairwise coords hsorted h1 (by omega)
    exact absurd (lt_of_lt_of_le ha.2 (le_trans h3 hb.1)) (lt_irrefl _)
  have h1 := aux i i' h h'
  have h2 := aux i' i h' h
  omega

theorem exists_cell_of_bounds (B : Nat → PetscReal) (v : PetscReal) :
    ∀ m : Nat, B 0 ≤ v → v < B m → ∃ i, i < m ∧ B i ≤ v ∧ v < B (i + 1)
  | 0, h0, hm => absurd (lt_of_le_of_lt h0 hm) (lt_irrefl _)
  | m + 1, h0, hm => by
      by_cases h : v < B m
      · obtain ⟨i, hi, h1, h2⟩ := exists_cell_of_bounds B v m h0 h
        exact ⟨i, by omega, h1, h2⟩
      · exact ⟨m, by omega, le_of_not_lt h, hm⟩

/-- A coordinate of the global half-open range of an axis lies in the
interval of one cell of that axis, and of no other. -/
theorem inInterval_exists_unique (coords : List PetscReal) (counts : List Nat)
    (hsorted : coords.Pairwise (· < ·)) (hlen : counts.sum < coords.length)
    (v : PetscReal) (h0 : coords.getD 0 0 ≤ v) (h1 : v < coords.getD counts.sum 0) :
    ∃ i0, i0 < counts.length ∧ ∀ i, inInterval coords counts i v ↔ i = i0 := by
  have hex := exists_cell_of_bounds (fun i => coords.getD (startIdx counts i) 0) v
    counts.length (by simpa [startIdx_zero] using h0) (by simpa [startIdx_length] using h1)
  obtain ⟨i0, hi0, hI⟩ := hex
  refine ⟨i0, hi0, fun i => ⟨fun h => ?_, fun h => ?_⟩⟩
  · exact inInterval_unique coords counts hsorted hlen v i i0 h hI
  · subst h
    exact hI

/-! ## Lemmas: the index list of a cell -/

theorem mem_filter_map_ofNat (P : Nat → Bool) (size l : Nat) :
    Int.ofNat l ∈ ((List.range size).filter P).map Int.ofNat ↔ l < size ∧ P l = true := by
  simp only [List.mem_map, List.mem_filter, List.mem_range]
  constructor
  · rintro ⟨a, ⟨h1, h2⟩, h3⟩
    have : a = l := Int.ofNat_inj.mp h3
    subst this
    exact ⟨h1, h2⟩
  · rintro ⟨h1, h2⟩
    exact ⟨l, ⟨h1, h2⟩, rfl⟩

theorem nodup_filter_map_ofNat (P : Nat → Bool) (size : Nat) :
    (((List.range size).filter P).map Int.ofNat).Nodup :=
  List.Nodup.map (fun _ _ h => Int.ofNat_inj.mp h) (List.Nodup.filter P (List.nodup_range size))

theorem sorted_filter_map_ofNat (P : Nat → Bool) (size : Nat) :
    (((List.range size).filter P).map Int.ofNat).Pairwise (· < ·) :=
  List.Pairwise.map Int.ofNat (fun _ _ h => Int.ofNat_lt.mpr h)
    (List.Pairwise.filter P (List.pairwise_lt_range size))

theorem count_filter_map_ofNat (P : Nat → Bool) (size l : Nat) (hl : l < size) :
    (((List.range size).filter P).map Int.ofNat).count (Int.ofNat l) =
      if P l = true then 1 else 0 := by
  by_cases h : P l = true
  · rw [if_pos h]
    exact List.count_eq_one_of_mem (nodup_filter_map_ofNat P size)
      ((mem_filter_map_ofNat P size l).mpr ⟨hl, h⟩)
  · rw [if_neg h]
    apply List.count_eq_zero_of_not_mem
    rw [mem_filter_map_ofNat]
    exact fun hc => h hc.2

/-! ## Lemmas: reading the closed form -/

theorem afterCells_lists (E : Nat → List PetscInt) (phi : Nat → PetscInt) (b : BodyInfo)
    (k r : Nat) (v : List PetscInt) (h : b.boundaryPointIndices[r]? = some v) :
    (afterCells E phi b k).boundaryPointIndices[r]? =
      some (if r < k then v ++ E r else v) := by
  simp [afterCells, h]

theorem afterCells_num (E : Nat → List PetscInt) (phi : Nat → PetscInt) (b : BodyInfo)
    (k r : Nat) (c : PetscInt) (h : b.numBoundaryPointsOnProcess[r]? = some c) :
    (afterCells E phi b k).numBoundaryPointsOnProcess[r]? =
      some (if r < k then c + ((E r).length : PetscInt) else c) := by
  simp [afterCells, h]

theorem afterCells_phi (E : Nat → List PetscInt) (phi : Nat → PetscInt) (b : BodyInfo)
    (k r : Nat) (c : PetscInt) (h : b.numPhiOnProcess[r]? = some c) :
    (afterCells E phi b k).numPhiOnProcess[r]? = some (if r < k then phi r else c) := by
  simp [afterCells, h]

theorem resizeAll_empty (numProcs size : Nat) :
    resizeAll numProcs size BodyInfo.empty =
      ⟨List.replicate numProcs [], List.replicate numProcs 0, List.replicate numProcs 0,
        List.replicate size 0⟩ := by
  simp [resizeAll, resize, BodyInfo.empty]

theorem fresh_lists (E : Nat → List PetscInt) (phi : Nat → PetscInt) (numProcs size k r : Nat)
    (hr : r < k) (hN : r < numProcs) :
    (afterCells E phi (resizeAll numProcs size BodyInfo.empty) k).boundaryPointIndices[r]? =
      some (E r) := by
  rw [afterCells_lists E phi _ k r [] (by simp [resizeAll_empty, hN]), if_pos hr]
  rfl

theorem fresh_num (E : Nat → List PetscInt) (phi : Nat → PetscInt) (numProcs size k r : Nat)
    (hr : r < k) (hN : r < numProcs) :
    (afterCells E phi (resizeAll numProcs size BodyInfo.empty)
        k).numBoundaryPointsOnProcess[r]? = some ((E r).length : PetscInt) := by
  rw [afterCells_num E phi _ k r 0 (by simp [resizeAll_empty, hN]), if_pos hr, zero_add]

theorem empty_nonneg : ∀ c ∈ BodyInfo.empty.numBoundaryPointsOnProcess, (0 : PetscInt) ≤ c := by
  intro c hc
  cases hc

/-! ## Lemmas: every point in exactly one list -/

theorem sum_indicator (N r0 : Nat) :
    ((List.range N).map fun r => if r = r0 then (1 : PetscInt) else 0).sum =
      if r0 < N then 1 else 0 := by
  induction N with
  | zero => simp
  | succ N ih =>
      rw [List.range_succ, List.map_append, List.sum_append, ih]
      by_cases h1 : r0 < N
      · have h2 : ¬ N = r0 := by omega
        simp [h1, h2, Nat.lt_succ_of_lt h1]
      · by_cases h2 : N = r0
        · subst h2
          simp
        · have h3 : ¬ r0 < N + 1 := by omega
          simp [h1, h2, h3]

theorem sum_zero_of_forall (N : Nat) (f : Nat → PetscInt) (h : ∀ r, r < N → f r = 0) :
    ((List.range N).map f).sum = 0 := by
  induction N with
  | zero => simp
  | succ N ih =>
      rw [List.range_succ, List.map_append, List.sum_append, ih (fun r hr => h r (by omega))]
      simp [h N (by omega)]

theorem sum_filter_lengths (N L : Nat) (Q : Nat → Nat → Bool) (D : Nat → Bool)
    (huniq : ∀ l, l < L →
      (D l = true → ∃ r0, r0 < N ∧ ∀ r, r < N → (Q r l = true ↔ r = r0)) ∧
      (D l = false → ∀ r, r < N → Q r l = false)) :
    ((List.range N).map fun r => (((List.range L).filter (Q r)).length : PetscInt)).sum =
      (((List.range L).filter D).length : PetscInt) := by
  induction L with
  | zero =>
      simp only [List.range_zero, List.filter_nil, List.length_nil, Nat.cast_zero]
      exact sum_zero_of_forall N _ (fun _ _ => rfl)
  | succ L ih =>
      have ih' := ih (fun l hl => huniq l (by omega))
      cases hD : D L
      · have hnone := (huniq L (by omega)).2 hD
        have hsplit : ((List.range N).map fun r =>
              (((List.range (L + 1)).filter (Q r)).length : PetscInt)) =
            (List.range N).map fun r =>
              (((List.range L).filter (Q r)).length : PetscInt) := by
          apply List.map_congr_left
          intro r hr
          rw [filter_range_succ, hnone r (List.mem_range.mp hr)]
          simp
        rw [hsplit, ih', filter_range_succ, hD]
        simp
      · obtain ⟨r0, hr0, hQ⟩ := (huniq L (by omega)).1 hD
        have hsplit : ((List.range N).map fun r =>
              (((List.range (L + 1)).filter (Q r)).length : PetscInt)) =
            (List.range N).map fun r =>
              (((List.range L).filter (Q r)).length : PetscInt) +
                (if r = r0 then (1 : PetscInt) else 0) := by
          apply List.map_congr_left
          intro r hr
          have hr' : r < N := List.mem_range.mp hr
          rw [filter_range_succ, List.length_append]
          by_cases h : Q r L = true
          · have hr0' : r = r0 := (hQ r hr').mp h
            rw [if_pos h, if_pos hr0']
            simp
          · have hr0' : ¬ r = r0 := fun e => h ((hQ r hr').mpr e)
            rw [if_neg h, if_neg hr0']
            simp
        rw [hsplit, List.sum_map_add, ih', sum_indicator, if_pos hr0, filter_range_succ, hD]
        simp

theorem fresh_lists_getD (E : Nat → List PetscInt) (phi : Nat → PetscInt)
    (numProcs size k r : Nat) (hN : r < numProcs) :
    (afterCells E phi (resizeAll numProcs size BodyInfo.empty) k).boundaryPointIndices.getD r []
      = if r < k then E r else [] := by
  rw [List.getD_eq_getElem?_getD,
    afterCells_lists E phi _ k r [] (by simp [resizeAll_empty, hN])]
  by_cases h : r < k <;> simp [h]

theorem fresh_num_eq (E : Nat → List PetscInt) (phi : Nat → PetscInt) (numProcs size k : Nat) :
    (afterCells E phi (resizeAll numProcs size BodyInfo.empty) k).numBoundaryPointsOnProcess =
      (List.range numProcs).map fun r => if r < k then ((E r).length : PetscInt) else 0 := by
  apply List.ext_getElem?
  intro r
  by_cases hr : r < numProcs
  · rw [afterCells_num E phi _ k r 0 (by simp [resizeAll_empty, hr])]
    simp [List.getElem?_map, List.getElem?_range hr]
  · rw [List.getElem?_eq_none (by simp [afterCells, resizeAll_empty]; omega),
      List.getElem?_eq_none (by simp; omega)]

/-- The core of the tiling property, for any family of cell predicates: a body
point that satisfies the predicate of exactly one cell occurs once in the list
of that cell and in no other list; and when the points marked by `D` are those
that satisfy the predicate of exactly one cell, the others satisfying none, the
counts add up to the number of marked points. -/
theorem fresh_exactly_once (E : Nat → List PetscInt) (phi : Nat → PetscInt)
    (numProcs size K : Nat) (P : Nat → Nat → Bool) (hK : K ≤ numProcs)
    (hE : ∀ r, r < K → E r = ((List.range size).filter (P r)).map Int.ofNat) :
    (∀ l, l < size → (∃ r0, r0 < K ∧ ∀ r, r < K → (P r l = true ↔ r = r0)) →
      ∃ r0, r0 < numProcs ∧ ∀ r, r < numProcs →
        ((afterCells E phi (resizeAll numProcs size BodyInfo.empty)
          K).boundaryPointIndices.getD r []).count (Int.ofNat l) = if r = r0 then 1 else 0) ∧
    (∀ D : Nat → Bool,
      (∀ l, l < size →
        (D l = true → ∃ r0, r0 < K ∧ ∀ r, r < K → (P r l = true ↔ r = r0)) ∧
        (D l = false → ∀ r, r < K → P r l = false)) →
      (afterCells E phi (resizeAll numProcs size BodyInfo.empty)
        K).numBoundaryPointsOnProcess.sum = (((List.range size).filter D).length : PetscInt)) := by
  constructor
  · rintro l hl ⟨r0, hr0, hP⟩
    refine ⟨r0, by omega, fun r hr => ?_⟩
    rw [fresh_lists_getD E phi numProcs size K r hr]
    by_cases hrK : r < K
    · rw [if_pos hrK, hE r hrK, count_filter_map_ofNat (P r) size l hl]
      by_cases h : P r l = true
      · rw [if_pos h, if_pos ((hP r hrK).mp h)]
      · rw [if_neg h, if_neg (fun e => h ((hP r hrK).mpr e))]
    · rw [if_neg hrK, if_neg (by omega)]
      rfl
  · intro D hall
    rw [fresh_num_eq]
    have hrew : ((List.range numProcs).map fun r =>
          if r < K then ((E r).length : PetscInt) else 0) =
        (List.range numProcs).map fun r =>
          (((List.range size).filter (fun l => decide (r < K) && P r l)).length : PetscInt) := by
      apply List.map_congr_left
      intro r _
      by_cases hrK : r < K
      · rw [if_pos hrK, hE r hrK, List.length_map]
        simp [hrK]
      · rw [if_neg hrK]
        simp [hrK]
    rw [hrew]
    apply sum_filter_lengths numProcs size (fun r l => decide (r < K) && P r l) D
    intro l hl
    constructor
    · intro hD
      obtain ⟨r0, hr0, hP⟩ := (hall l hl).1 hD
      refine ⟨r0, by omega, fun r _ => ?_⟩
      by_cases hrK : r < K
      · simpa [hrK] using hP r hrK
      · have : ¬ r = r0 := by omega
        simp [hrK, this]
    · intro hD r _
      by_cases hrK : r < K
      · simpa [hrK] using (hall l hl).2 hD r hrK
      · simp [hrK]

theorem filter_length_of_forall (D : Nat → Bool) (size : Nat)
    (h : ∀ l, l < size → D l = true) :
    (((List.range size).filter D).length : PetscInt) = (size : PetscInt) := by
  rw [List.filter_eq_self.mpr (fun l hl => h l (List.mem_range.mp hl)), List.length_range]

/-- A coordinate in the interval of a cell lies in the global range of the axis. -/
theorem inInterval_global (coords : List PetscReal) (counts : List Nat)
    (ht : Tiling coords counts) (i : Nat) (v : PetscReal)
    (h : inInterval coords counts i v) :
    coords.getD 0 0 ≤ v ∧ v < coords.getD (coords.length - 1) 0 := by
  obtain ⟨hsorted, _, hsum⟩ := ht
  have hlast : coords.length - 1 = counts.sum := by omega
  have h1 := startIdx_le_sum counts i
  have h2 := startIdx_le_sum counts (i + 1)
  constructor
  · have := getD_le_of_pairwise coords hsorted (Nat.zero_le (startIdx counts i)) (by omega)
    exact le_trans this h.1
  · rw [hlast]
    exact lt_of_lt_of_le h.2 (getD_le_of_pairwise coords hsorted h2 (by omega))

theorem axis_unique (coords : List PetscReal) (counts : List Nat) (ht : Tiling coords counts)
    (v : PetscReal) (h0 : coords.getD 0 0 ≤ v) (h1 : v < coords.getD (coords.length - 1) 0) :
    ∃ i0, i0 < counts.length ∧ ∀ i, inInterval coords counts i v ↔ i = i0 := by
  obtain ⟨hsorted, _, hsum⟩ := ht
  have hlast : coords.length - 1 = counts.sum := by omega
  rw [hlast] at h1
  exact inInterval_exists_unique coords counts hsorted (by omega) v h0 h1

theorem rank2D_decode {m n r i0 j0 : Nat} (hr : r < m * n) (hi0 : i0 < m) :
    (r % m = i0 ∧ r / m = j0) ↔ r = j0 * m + i0 := by
  constructor
  · rintro ⟨h1, h2⟩
    have := Nat.div_add_mod r m
    rw [h1, h2, Nat.mul_comm] at this
    exact this.symm
  · intro h
    subst h
    exact ⟨rank2D_mod j0 hi0, rank2D_div j0 hi0⟩

theorem unique_rank2D (pi : PartitionInfo) (mesh : CartesianMesh) (body : Body)
    (hs : Shape2D pi mesh body) (htx : Tiling mesh.x pi.lxp) (hty : Tiling mesh.y pi.lyp)
    (l : Nat) (hd : inDomain2D mesh body l) :
    ∃ r0, r0 < pi.m * pi.n ∧ ∀ r, r < pi.m * pi.n →
      (cellPred2D pi mesh body (r % pi.m) (r / pi.m) l = true ↔ r = r0) := by
  obtain ⟨i0, hi0, hI⟩ := axis_unique mesh.x pi.lxp htx _ hd.1.1 hd.1.2
  obtain ⟨j0, hj0, hJ⟩ := axis_unique mesh.y pi.lyp hty _ hd.2.1 hd.2.2
  rw [hs.2.1] at hi0
  rw [hs.2.2.1] at hj0
  refine ⟨j0 * pi.m + i0, rank2D_lt hi0 hj0, fun r hr => ?_⟩
  rw [← rank2D_decode hr hi0]
  simp only [cellPred2D, decide_eq_true_eq, hI, hJ]

theorem rank3D_decode {m n p r i0 j0 k0 : Nat} (hr : r < m * n * p) (hi0 : i0 < m)
    (hj0 : j0 < n) :
    (r % m = i0 ∧ r / m % n = j0 ∧ r / m / n = k0) ↔ r = k0 * m * n + j0 * m + i0 := by
  constructor
  · rintro ⟨h1, h2, h3⟩
    have e1 := Nat.div_add_mod r m
    have e2 := Nat.div_add_mod (r / m) n
    rw [h2, h3] at e2
    rw [h1, ← e2] at e1
    rw [← e1]
    ring
  · intro h
    subst h
    exact ⟨rank3D_mod n j0 k0 hi0, rank3D_div_mod k0 hi0 hj0, rank3D_div_div k0 hi0 hj0⟩

theorem unique_rank3D (pi : PartitionInfo) (mesh : CartesianMesh) (body : Body)
    (hs : Shape3D pi mesh body) (htx : Tiling mesh.x pi.lxp) (hty : Tiling mesh.y pi.lyp)
    (htz : Tiling mesh.z pi.lzp) (l : Nat) (hd : inDomain3D mesh body l) :
    ∃ r0, r0 < pi.m * pi.n * pi.p ∧ ∀ r, r < pi.m * pi.n * pi.p →
      (cellPred3D pi mesh body (r % pi.m) (r / pi.m % pi.n) (r / pi.m / pi.n) l = true ↔
        r = r0) := by
  obtain ⟨i0, hi0, hI⟩ := axis_unique mesh.x pi.lxp htx _ hd.1.1 hd.1.2
  obtain ⟨j0, hj0, hJ⟩ := axis_unique mesh.y pi.lyp hty _ hd.2.1.1 hd.2.1.2
  obtain ⟨k0, hk0, hK⟩ := axis_unique mesh.z pi.lzp htz _ hd.2.2.1 hd.2.2.2
  rw [hs.2.1] at hi0
  rw [hs.2.2.1] at hj0
  rw [hs.2.2.2.1] at hk0
  refine ⟨k0 * pi.m * pi.n + j0 * pi.m + i0, rank3D_lt hi0 hj0 hk0, fun r hr => ?_⟩
  rw [← rank3D_decode hr hi0 hj0]
  simp only [cellPred3D, decide_eq_true_eq, hI, hJ, hK]

theorem domain_split2D (pi : PartitionInfo) (mesh : CartesianMesh) (body : Body)
    (hs : Shape2D pi mesh body) (htx : Tiling mesh.x pi.lxp) (hty : Tiling mesh.y pi.lyp)
    (l : Nat) :
    (decide (inDomain2D mesh body l) = true →
      ∃ r0, r0 < pi.m * pi.n ∧ ∀ r, r < pi.m * pi.n →
        (cellPred2D pi mesh body (r % pi.m) (r / pi.m) l = true ↔ r = r0)) ∧
    (decide (inDomain2D mesh body l) = false →
      ∀ r, r < pi.m * pi.n → cellPred2D pi mesh body (r % pi.m) (r / pi.m) l = false) := by
  constructor
  · intro hd
    exact unique_rank2D pi mesh body hs htx hty l (of_decide_eq_true hd)
  · intro hd r hr
    have hnd : ¬ inDomain2D mesh body l := of_decide_eq_false hd
    by_contra hc
    have hc' : cellPred2D pi mesh body (r % pi.m) (r / pi.m) l = true := by
      cases h : cellPred2D pi mesh body (r % pi.m) (r / pi.m) l
      · exact absurd h hc
      · rfl
    simp only [cellPred2D, decide_eq_true_eq] at hc'
    exact hnd ⟨inInterval_global mesh.x pi.lxp htx _ _ hc'.1,
      inInterval_global mesh.y pi.lyp hty _ _ hc'.2⟩

theorem domain_split3D (pi : PartitionInfo) (mesh : CartesianMesh) (body : Body)
    (hs : Shape3D pi mesh body) (htx : Tiling mesh.x pi.lxp) (hty : Tiling mesh.y pi.lyp)
    (htz : Tiling mesh.z pi.lzp) (l : Nat) :
    (decide (inDomain3D mesh body l) = true →
      ∃ r0, r0 < pi.m * pi.n * pi.p ∧ ∀ r, r < pi.m * pi.n * pi.p →
        (cellPred3D pi mesh body (r % pi.m) (r / pi.m % pi.n) (r / pi.m / pi.n) l = true ↔
          r = r0)) ∧
    (decide (inDomain3D mesh body l) = false →
      ∀ r, r < pi.m * pi.n * pi.p →
        cellPred3D pi mesh body (r % pi.m) (r / pi.m % pi.n) (r / pi.m / pi.n) l = false) := by
  constructor
  · intro hd
    exact unique_rank3D pi mesh body hs htx hty htz l (of_decide_eq_true hd)
  · intro hd r hr
    have hnd : ¬ inDomain3D mesh body l := of_decide_eq_false hd
    by_contra hc
    have hc' : cellPred3D pi mesh body (r % pi.m) (r / pi.m % pi.n) (r / pi.m / pi.n) l
        = true := by
      cases h : cellPred3D pi mesh body (r % pi.m) (r / pi.m % pi.n) (r / pi.m / pi.n) l
      · exact absurd h hc
      · rfl
    simp only [cellPred3D, decide_eq_true_eq] at hc'
    exact hnd ⟨inInterval_global mesh.x pi.lxp htx _ _ hc'.1,
      inInterval_global mesh.y pi.lyp hty _ _ hc'.2.1,
      inInterval_global mesh.z pi.lzp htz _ _ hc'.2.2⟩

/-! ## Lemmas: a second run -/

theorem afterCells_nonneg (E : Nat → List PetscInt) (phi : Nat → PetscInt) (b : BodyInfo)
    (k : Nat) (hnn : ∀ c ∈ b.numBoundaryPointsOnProcess, 0 ≤ c) :
    ∀ c ∈ (afterCells E phi b k).numBoundaryPointsOnProcess, 0 ≤ c := by
  intro c hc
  obtain ⟨r, hr⟩ := List.mem_iff_getElem?.mp hc
  simp only [afterCells, List.getElem?_mapIdx] at hr
  cases hx : b.numBoundaryPointsOnProcess[r]? with
  | none => simp [hx] at hr
  | some x =>
      have hx0 : 0 ≤ x := hnn x (List.mem_iff_getElem?.mpr ⟨r, hx⟩)
      simp only [hx, Option.map_some', Option.some.injEq] at hr
      subst hr
      split
      · positivity
      · exact hx0

theorem resizeAll_of_length (numProcs size : Nat) (b : BodyInfo)
    (h1 : b.boundaryPointIndices.length = numProcs)
    (h2 : b.numBoundaryPointsOnProcess.length = numProcs)
    (h3 : b.numPhiOnProcess.length = numProcs) (h4 : b.globalIndexMapping.length = size) :
    resizeAll numProcs size b = b := by
  cases b
  simp only [resizeAll, BodyInfo.mk.injEq]
  exact ⟨resize_of_length _ _ _ h1, resize_of_length _ _ _ h2, resize_of_length _ _ _ h3,
    resize_of_length _ _ _ h4⟩

theorem resizeAll_afterCells (E : Nat → List PetscInt) (phi : Nat → PetscInt)
    (numProcs size k : Nat) (s : BodyInfo) :
    resizeAll numProcs size (afterCells E phi (resizeAll numProcs size s) k) =
      afterCells E phi (resizeAll numProcs size s) k := by
  apply resizeAll_of_length
  · simp [afterCells, resizeAll, length_resize]
  · simp [afterCells, resizeAll, length_resize]
  · simp [afterCells, resizeAll, length_resize]
  · simp [afterCells, resizeAll, length_resize]

theorem afterCells_phi_idem (E : Nat → List PetscInt) (phi : Nat → PetscInt) (b : BodyInfo)
    (k : Nat) :
    (afterCells E phi (afterCells E phi b k) k).numPhiOnProcess =
      (afterCells E phi b k).numPhiOnProcess := by
  apply List.ext_getElem?
  intro r
  simp only [afterCells, List.getElem?_mapIdx]
  cases b.numPhiOnProcess[r]? with
  | none => rfl
  | some x => by_cases h : r < k <;> simp [h]

/-- What a second run does, for any family of cell lists: the pressure-node
counts and the index mapping are unchanged, and each processed rank has its
cell list appended again and its length added again. -/
theorem second_run (E : Nat → List PetscInt) (phi : Nat → PetscInt)
    (numProcs size K : Nat) (s0 : BodyInfo) (r : Nat) (hr : r < K) (hN : r < numProcs) :
    (afterCells E phi (afterCells E phi (resizeAll numProcs size s0) K) K).numPhiOnProcess =
      (afterCells E phi (resizeAll numProcs size s0) K).numPhiOnProcess ∧
    ∃ v c,
      (afterCells E phi (resizeAll numProcs size s0) K).boundaryPointIndices[r]? = some v ∧
      (afterCells E phi (resizeAll numProcs size s0) K).numBoundaryPointsOnProcess[r]? =
        some c ∧
      (afterCells E phi (afterCells E phi (resizeAll numProcs size s0) K)
        K).boundaryPointIndices[r]? = some (v ++ E r) ∧
      (afterCells E phi (afterCells E phi (resizeAll numProcs size s0) K)
        K).numBoundaryPointsOnProcess[r]? = some (c + ((E r).length : PetscInt)) ∧
      (s0 = BodyInfo.empty → v = E r ∧ c = ((E r).length : PetscInt)) := by
  refine ⟨afterCells_phi_idem E phi _ K, ?_⟩
  have h1 : r < (afterCells E phi (resizeAll numProcs size s0) K).boundaryPointIndices.length := by
    simp [afterCells, resizeAll, length_resize, hN]
  have h2 : r < (afterCells E phi (resizeAll numProcs size s0)
      K).numBoundaryPointsOnProcess.length := by
    simp [afterCells, resizeAll, length_resize, hN]
  refine ⟨_, _, List.getElem?_eq_getElem h1, List.getElem?_eq_getElem h2, ?_, ?_, ?_⟩
  · rw [afterCells_lists E phi _ K r _ (List.getElem?_eq_getElem h1), if_pos hr]
  · rw [afterCells_num E phi _ K r _ (List.getElem?_eq_getElem h2), if_pos hr]
  · intro he
    subst he
    have e1 := fresh_lists E phi numProcs size K r hr hN
    have e2 := fresh_num E phi numProcs size K r hr hN
    rw [List.getElem?_eq_getElem h1] at e1
    rw [List.getElem?_eq_getElem h2] at e2
    exact ⟨Option.some.inj e1, Option.some.inj e2⟩

/-! ## Lemmas: the rank of a point with known cell -/

theorem inInterval_of_strictlyInside (coords : List PetscReal) (counts : List Nat) (a : Nat)
    (v : PetscReal) (h : strictlyInside coords counts a v) : inInterval coords counts a v :=
  ⟨le_of_lt h.1, h.2⟩

theorem inInterval_of_atSharedBoundary (coords : List PetscReal) (counts : List Nat)
    (ht : Tiling coords counts) (a : Nat) (ha : a < counts.length) (v : PetscReal)
    (h : atSharedBoundary coords counts a v) : inInterval coords counts a v := by
  obtain ⟨hsorted, hpos, hsum⟩ := ht
  refine ⟨le_of_eq h.2.symm, ?_⟩
  rw [h.2]
  have h1 := startIdx_lt_succ counts hpos a ha
  have h2 := startIdx_le_sum counts (a + 1)
  exact getD_lt_of_pairwise coords hsorted h1 (by omega)

theorem unique_rank2D_of_cell (pi : PartitionInfo) (mesh : CartesianMesh) (body : Body)
    (hs : Shape2D pi mesh body) (hsx : mesh.x.Pairwise (· < ·)) (hsy : mesh.y.Pairwise (· < ·))
    (l a b : Nat) (ha : a < pi.m)
    (hx : inInterval mesh.x pi.lxp a (body.x.getD l 0))
    (hy : inInterval mesh.y pi.lyp b (body.y.getD l 0)) :
    ∀ r, r < pi.m * pi.n →
      (cellPred2D pi mesh body (r % pi.m) (r / pi.m) l = true ↔ r = b * pi.m + a) := by
  intro r hr
  rw [← rank2D_decode hr ha]
  simp only [cellPred2D, decide_eq_true_eq]
  constructor
  · rintro ⟨h1, h2⟩
    exact ⟨inInterval_unique mesh.x pi.lxp hsx hs.2.2.2.1 _ _ _ h1 hx,
      inInterval_unique mesh.y pi.lyp hsy hs.2.2.2.2.1 _ _ _ h2 hy⟩
  · rintro ⟨h1, h2⟩
    rw [h1, h2]
    exact ⟨hx, hy⟩

theorem unique_rank3D_of_cell (pi : PartitionInfo) (mesh : CartesianMesh) (body : Body)
    (hs : Shape3D pi mesh body) (hsx : mesh.x.Pairwise (· < ·)) (hsy : mesh.y.Pairwise (· < ·))
    (hsz : mesh.z.Pairwise (· < ·)) (l a b c : Nat) (ha : a < pi.m) (hb : b < pi.n)
    (hx : inInterval mesh.x pi.lxp a (body.x.getD l 0))
    (hy : inInterval mesh.y pi.lyp b (body.y.getD l 0))
    (hz : inInterval mesh.z pi.lzp c (body.z.getD l 0)) :
    ∀ r, r < pi.m * pi.n * pi.p →
      (cellPred3D pi mesh body (r % pi.m) (r / pi.m % pi.n) (r / pi.m / pi.n) l = true ↔
        r = c * pi.m * pi.n + b * pi.m + a) := by
  intro r hr
  rw [← rank3D_decode hr ha hb]
  simp only [cellPred3D, decide_eq_true_eq]
  constructor
  · rintro ⟨h1, h2, h3⟩
    exact ⟨inInterval_unique mesh.x pi.lxp hsx hs.2.2.2.2.1 _ _ _ h1 hx,
      inInterval_unique mesh.y pi.lyp hsy hs.2.2.2.2.2.1 _ _ _ h2 hy,
      inInterval_unique mesh.z pi.lzp hsz hs.2.2.2.2.2.2.1 _ _ _ h3 hz⟩
  · rintro ⟨h1, h2, h3⟩
    rw [h1, h2, h3]
    exact ⟨hx, hy, hz⟩

/-- A body point whose cell is `(a, b)` is listed once at rank `b*m+a` and
nowhere else. -/
theorem point_rank2D (pi : PartitionInfo) (mesh : CartesianMesh) (body : Body)
    (hq : QueriesOk pi) (hs : Shape2D pi mesh body)
    (hsx : mesh.x.Pairwise (· < ·)) (hsy : mesh.y.Pairwise (· < ·))
    (l a b : Nat) (hl : l < body.x.length) (ha : a < pi.m) (hb : b < pi.n)
    (hx : inInterval mesh.x pi.lxp a (body.x.getD l 0))
    (hy : inInterval mesh.y pi.lyp b (body.y.getD l 0)) :
    ∃ s, generateBodyInfo2D pi mesh body BodyInfo.empty = some (0, s) ∧
      ∀ r, r < pi.numProcs →
        (s.boundaryPointIndices.getD r []).count (Int.ofNat l) =
          if r = b * pi.m + a then 1 else 0 := by
  refine ⟨_, generateBodyInfo2D_eq pi mesh body hq hs _ empty_nonneg, ?_⟩
  have core := (fresh_exactly_once (rankList2D pi mesh body) (rankPhi2D pi) pi.numProcs
    body.x.length (pi.m * pi.n)
    (fun r l => cellPred2D pi mesh body (r % pi.m) (r / pi.m) l) hs.1 (fun r _ => rfl)).1 l hl
    ⟨b * pi.m + a, rank2D_lt ha hb,
      unique_rank2D_of_cell pi mesh body hs hsx hsy l a b ha hx hy⟩
  obtain ⟨r0, hr0, hcount⟩ := core
  have hself : b * pi.m + a < pi.numProcs := Nat.lt_of_lt_of_le (rank2D_lt ha hb) hs.1
  have hmem : Int.ofNat l ∈ rankList2D pi mesh body (b * pi.m + a) := by
    simp only [rankList2D, rank2D_mod b ha, rank2D_div b ha, cellList2D]
    rw [mem_filter_map_ofNat]
    exact ⟨hl, by simp only [cellPred2D, decide_eq_true_eq]; exact ⟨hx, hy⟩⟩
  have h1 := hcount (b * pi.m + a) hself
  rw [fresh_lists_getD _ _ _ _ _ _ hself, if_pos (rank2D_lt ha hb)] at h1
  have hr0' : b * pi.m + a = r0 := by
    by_contra hne
    rw [if_neg hne] at h1
    exact absurd (List.count_pos_iff.mpr hmem) (by omega)
  subst hr0'
  exact hcount

/-- A body point whose cell is `(a, b, c)` is listed once at rank
`c*m*n+b*m+a` and nowhere else. -/
theorem point_rank3D (pi : PartitionInfo) (mesh : CartesianMesh) (body : Body)
    (hq : QueriesOk pi) (hs : Shape3D pi mesh body)
    (hsx : mesh.x.Pairwise (· < ·)) (hsy : mesh.y.Pairwise (· < ·))
    (hsz : mesh.z.Pairwise (· < ·))
    (l a b c : Nat) (hl : l < body.x.length) (ha : a < pi.m) (hb : b < pi.n) (hc : c < pi.p)
    (hx : inInterval mesh.x pi.lxp a (body.x.getD l 0))
    (hy : inInterval mesh.y pi.lyp b (body.y.getD l 0))
    (hz : inInterval mesh.z pi.lzp c (body.z.getD l 0)) :
    ∃ s, generateBodyInfo3D pi mesh body BodyInfo.empty = some (0, s) ∧
      ∀ r, r < pi.numProcs →
        (s.boundaryPointIndices.getD r []).count (Int.ofNat l) =
          if r = c * pi.m * pi.n + b * pi.m + a then 1 else 0 := by
  refine ⟨_, generateBodyInfo3D_eq pi mesh body hq hs _ empty_nonneg, ?_⟩
  have core := (fresh_exactly_once (rankList3D pi mesh body) (rankPhi3D pi) pi.numProcs
    body.x.length (pi.m * pi.n * pi.p)
    (fun r l => cellPred3D pi mesh body (r % pi.m) (r / pi.m % pi.n) (r / pi.m / pi.n) l)
    hs.1 (fun r _ => rfl)).1 l hl
    ⟨c * pi.m * pi.n + b * pi.m + a, rank3D_lt ha hb hc,
      unique_rank3D_of_cell pi mesh body hs hsx hsy hsz l a b c ha hb hx hy hz⟩
  obtain ⟨r0, hr0, hcount⟩ := core
  have hself : c * pi.m * pi.n + b * pi.m + a < pi.numProcs :=
    Nat.lt_of_lt_of_le (rank3D_lt ha hb hc) hs.1
  have hmem : Int.ofNat l ∈ rankList3D pi mesh body (c * pi.m * pi.n + b * pi.m + a) := by
    simp only [rankList3D, rank3D_mod pi.n b c ha, rank3D_div_mod c ha hb,
      rank3D_div_div c ha hb, cellList3D]
    rw [mem_filter_map_ofNat]
    exact ⟨hl, by simp only [cellPred3D, decide_eq_true_eq]; exact ⟨hx, hy, hz⟩⟩
  have h1 := hcount (c * pi.m * pi.n + b * pi.m + a) hself
  rw [fresh_lists_getD _ _ _ _ _ _ hself, if_pos (rank3D_lt ha hb hc)] at h1
  have hr0' : c * pi.m * pi.n + b * pi.m + a = r0 := by
    by_contra hne
    rw [if_neg hne] at h1
    exact absurd (List.count_pos_iff.mpr hmem) (by omega)
  subst hr0'
  exact hcount

/-! ## Lemmas: the returned code and points outside every cell -/

theorem generateBodyInfo2D_code (pi : PartitionInfo) (mesh : CartesianMesh) (body : Body)
    (s0 s : BodyInfo) (code : PetscErrorCode)
    (h : generateBodyInfo2D pi mesh body s0 = some (code, s)) (hc : code ≠ 0) :
    ¬ QueriesOk pi := by
  rintro ⟨h1, h2, h3⟩
  simp only [generateBodyInfo2D, h1, h2, h3, ne_eq, not_true_eq_false, if_false] at h
  cases hloop : forLoop (jBody2D pi mesh body) pi.n 0
      (0, resizeAll pi.numProcs body.x.length s0) with
  | none => simp [hloop] at h
  | some r =>
      simp only [hloop, Option.some_bind, Option.some.injEq, Prod.mk.injEq] at h
      exact hc h.1.symm

theorem generateBodyInfo3D_code (pi : PartitionInfo) (mesh : CartesianMesh) (body : Body)
    (s0 s : BodyInfo) (code : PetscErrorCode)
    (h : generateBodyInfo3D pi mesh body s0 = some (code, s)) (hc : code ≠ 0) :
    ¬ QueriesOk pi := by
  rintro ⟨h1, h2, h3⟩
  simp only [generateBodyInfo3D, h1, h2, h3, ne_eq, not_true_eq_false, if_false] at h
  cases hloop : forLoop (kBody3D pi mesh body) pi.p 0
      (0, resizeAll pi.numProcs body.x.length s0) with
  | none => simp [hloop] at h
  | some r =>
      simp only [hloop, Option.some_bind, Option.some.injEq, Prod.mk.injEq] at h
      exact hc h.1.symm

theorem fresh_not_mem (E : Nat → List PetscInt) (phi : Nat → PetscInt)
    (numProcs size K : Nat) (P : Nat → Nat → Bool)
    (hE : ∀ r, r < K → E r = ((List.range size).filter (P r)).map Int.ofNat)
    (l : Nat) (hout : ∀ r, r < K → P r l = false) (r : Nat) (hr : r < numProcs) :
    Int.ofNat l ∉ (afterCells E phi (resizeAll numProcs size BodyInfo.empty)
      K).boundaryPointIndices.getD r [] := by
  rw [fresh_lists_getD E phi numProcs size K r hr]
  by_cases hrK : r < K
  · rw [if_pos hrK, hE r hrK, mem_filter_map_ofNat]
    rintro ⟨_, h⟩
    rw [hout r hrK] at h
    cases h
  · rw [if_neg hrK]
    exact List.not_mem_nil _

/-! ## Theorems: body-point partition -/

/-- C4: run from empty members, `generateBodyInfo` returns with, at rank
`j*m+i` (2D) or `k*m*n+j*m+i` (3D), `boundaryPointIndices` equal to the ascending
list of the body-point indices `l` whose coordinates satisfy
`mesh.x[xStart_i] <= x[l] < mesh.x[xEnd_i]` and the same on the other axes, the
bounds being prefix sums of the owned counts, and `numBoundaryPointsOnProcess`
equal to the length of that list.  For two processes splitting the x axis
evenly and three body points, two on the left and one on the right, the counts
are `[2, 1]`. -/
theorem generateBodyInfo_cell_lists (pi : PartitionInfo) (mesh : CartesianMesh) (body : Body)
    (hq : QueriesOk pi) :
    (Shape2D pi mesh body →
      ∃ s, generateBodyInfo2D pi mesh body BodyInfo.empty = some (0, s) ∧
        ∀ i j, i < pi.m → j < pi.n →
          s.boundaryPointIndices[j * pi.m + i]? = some (cellList2D pi mesh body i j) ∧
          s.numBoundaryPointsOnProcess[j * pi.m + i]? =
            some ((cellList2D pi mesh body i j).length : PetscInt)) ∧
    (Shape3D pi mesh body →
      ∃ s, generateBodyInfo3D pi mesh body BodyInfo.empty = some (0, s) ∧
        ∀ i j k, i < pi.m → j < pi.n → k < pi.p →
          s.boundaryPointIndices[k * pi.m * pi.n + j * pi.m + i]? =
            some (cellList3D pi mesh body i j k) ∧
          s.numBoundaryPointsOnProcess[k * pi.m * pi.n + j * pi.m + i]? =
            some ((cellList3D pi mesh body i j k).length : PetscInt)) ∧
    (∀ i j, (cellList2D pi mesh body i j).Pairwise (· < ·) ∧
      ∀ l : Nat, Int.ofNat l ∈ cellList2D pi mesh body i j ↔
        l < body.x.length ∧
        (mesh.x.getD (startIdx pi.lxp i) 0 ≤ body.x.getD l 0 ∧
          body.x.getD l 0 < mesh.x.getD (startIdx pi.lxp (i + 1)) 0) ∧
        (mesh.y.getD (startIdx pi.lyp j) 0 ≤ body.y.getD l 0 ∧
          body.y.getD l 0 < mesh.y.getD (startIdx pi.lyp (j + 1)) 0)) ∧
    (∀ i j k, (cellList3D pi mesh body i j k).Pairwise (· < ·) ∧
      ∀ l : Nat, Int.ofNat l ∈ cellList3D pi mesh body i j k ↔
        l < body.x.length ∧
        (mesh.x.getD (startIdx pi.lxp i) 0 ≤ body.x.getD l 0 ∧
          body.x.getD l 0 < mesh.x.getD (startIdx pi.lxp (i + 1)) 0) ∧
        (mesh.y.getD (startIdx pi.lyp j) 0 ≤ body.y.getD l 0 ∧
          body.y.getD l 0 < mesh.y.getD (startIdx pi.lyp (j + 1)) 0) ∧
        (mesh.z.getD (startIdx pi.lzp k) 0 ≤ body.z.getD l 0 ∧
          body.z.getD l 0 < mesh.z.getD (startIdx pi.lzp (k + 1)) 0)) ∧
    (generateBodyInfo2D twoProcPartition gridMesh threePoints BodyInfo.empty).map
        (fun r => r.2.numBoundaryPointsOnProcess) = some [2, 1] := by
  refine ⟨fun hs => ?_, fun hs => ?_, fun i j => ⟨?_, fun l => ?_⟩,
    fun i j k => ⟨?_, fun l => ?_⟩, by decide⟩
  · refine ⟨_, generateBodyInfo2D_eq pi mesh body hq hs _ empty_nonneg, fun i j hi hj => ?_⟩
    have hlt := rank2D_lt hi hj
    have hN : j * pi.m + i < pi.numProcs := Nat.lt_of_lt_of_le hlt hs.1
    have hE : rankList2D pi mesh body (j * pi.m + i) = cellList2D pi mesh body i j := by
      simp only [rankList2D, rank2D_mod j hi, rank2D_div j hi]
    rw [fresh_lists _ _ _ _ _ _ hlt hN, fresh_num _ _ _ _ _ _ hlt hN, hE]
    exact ⟨rfl, rfl⟩
  · refine ⟨_, generateBodyInfo3D_eq pi mesh body hq hs _ empty_nonneg,
      fun i j k hi hj hk => ?_⟩
    have hlt := rank3D_lt hi hj hk
    have hN : k * pi.m * pi.n + j * pi.m + i < pi.numProcs := Nat.lt_of_lt_of_le hlt hs.1
    have hE : rankList3D pi mesh body (k * pi.m * pi.n + j * pi.m + i) =
        cellList3D pi mesh body i j k := by
      simp only [rankList3D, rank3D_mod pi.n j k hi, rank3D_div_mod k hi hj,
        rank3D_div_div k hi hj]
    rw [fresh_lists _ _ _ _ _ _ hlt hN, fresh_num _ _ _ _ _ _ hlt hN, hE]
    exact ⟨rfl, rfl⟩
  · exact sorted_filter_map_ofNat _ _
  · rw [cellList2D, mem_filter_map_ofNat]
    simp only [cellPred2D, inInterval, decide_eq_true_eq]
  · exact sorted_filter_map_ofNat _ _
  · rw [cellList3D, mem_filter_map_ofNat]
    simp only [cellPred3D, inInterval, decide_eq_true_eq]

/-- Witness for C4: the two-process scenarios in 2D and in 3D. -/
theorem generateBodyInfo_cell_lists_witness :
    (∃ s, generateBodyInfo2D twoProcPartition gridMesh threePoints BodyInfo.empty =
        some (0, s) ∧
      ∀ i j, i < 2 → j < 1 →
        s.boundaryPointIndices[j * 2 + i]? =
          some (cellList2D twoProcPartition gridMesh threePoints i j) ∧
        s.numBoundaryPointsOnProcess[j * 2 + i]? =
          some ((cellList2D twoProcPartition gridMesh threePoints i j).length : PetscInt)) ∧
    (∃ s, generateBodyInfo3D twoProcPartition3D gridMesh3D threePoints3D BodyInfo.empty =
        some (0, s) ∧
      ∀ i j k, i < 2 → j < 1 → k < 1 →
        s.boundaryPointIndices[k * 2 * 1 + j * 2 + i]? =
          some (cellList3D twoProcPartition3D gridMesh3D threePoints3D i j k) ∧
        s.numBoundaryPointsOnProcess[k * 2 * 1 + j * 2 + i]? =
          some ((cellList3D twoProcPartition3D gridMesh3D threePoints3D i j k).length :
            PetscInt)) :=
  ⟨(generateBodyInfo_cell_lists twoProcPartition gridMesh threePoints (by decide)).1
      (by decide),
   (generateBodyInfo_cell_lists twoProcPartition3D gridMesh3D threePoints3D (by decide)).2.1
      (by decide)⟩

/-- C6, counterexample: in the two-process scenario the first run from empty
members yields the lists `[[0, 1], [2]]` and the counts `[2, 1]`; a second run on
the unchanged inputs yields `[[0, 1, 0, 1], [2, 2]]` and `[4, 2]`. -/
theorem generateBodyInfo_rerun_counterexample :
    generateBodyInfo2D twoProcPartition gridMesh threePoints BodyInfo.empty =
      some (0, ⟨[[0, 1], [2]], [2, 1], [8, 8], [0, 0, 0]⟩) ∧
    generateBodyInfo2D twoProcPartition gridMesh threePoints
        ⟨[[0, 1], [2]], [2, 1], [8, 8], [0, 0, 0]⟩ =
      some (0, ⟨[[0, 1, 0, 1], [2, 2]], [4, 2], [8, 8], [0, 0, 0]⟩) ∧
    ([[0, 1, 0, 1], [2, 2]] : List (List PetscInt)) ≠ [[0, 1], [2]] ∧
    ([4, 2] : List PetscInt) ≠ [2, 1] := by
  decide

/-- C6, amended: a second run of `generateBodyInfo` on unchanged inputs returns
with `numPhiOnProcess` and `globalIndexMapping` unchanged, while at the rank of
every process cell the cell's index list is appended once more to
`boundaryPointIndices` and its length added once more to
`numBoundaryPointsOnProcess`; after a first run from empty members the second
run therefore leaves each list repeated twice and each count doubled. -/
theorem generateBodyInfo_rerun_appends (pi : PartitionInfo) (mesh : CartesianMesh)
    (body : Body) (hq : QueriesOk pi) (s0 : BodyInfo)
    (hnn : ∀ c ∈ s0.numBoundaryPointsOnProcess, 0 ≤ c) :
    (Shape2D pi mesh body →
      ∃ s1 s2, generateBodyInfo2D pi mesh body s0 = some (0, s1) ∧
        generateBodyInfo2D pi mesh body s1 = some (0, s2) ∧
        s2.numPhiOnProcess = s1.numPhiOnProcess ∧
        s2.globalIndexMapping = s1.globalIndexMapping ∧
        ∀ i j, i < pi.m → j < pi.n → ∃ v c,
          s1.boundaryPointIndices[j * pi.m + i]? = some v ∧
          s1.numBoundaryPointsOnProcess[j * pi.m + i]? = some c ∧
          s2.boundaryPointIndices[j * pi.m + i]? = some (v ++ cellList2D pi mesh body i j) ∧
          s2.numBoundaryPointsOnProcess[j * pi.m + i]? =
            some (c + ((cellList2D pi mesh body i j).length : PetscInt)) ∧
          (s0 = BodyInfo.empty →
            v = cellList2D pi mesh body i j ∧
            c = ((cellList2D pi mesh body i j).length : PetscInt))) ∧
    (Shape3D pi mesh body →
      ∃ s1 s2, generateBodyInfo3D pi mesh body s0 = some (0, s1) ∧
        generateBodyInfo3D pi mesh body s1 = some (0, s2) ∧
        s2.numPhiOnProcess = s1.numPhiOnProcess ∧
        s2.globalIndexMapping = s1.globalIndexMapping ∧
        ∀ i j k, i < pi.m → j < pi.n → k < pi.p → ∃ v c,
          s1.boundaryPointIndices[k * pi.m * pi.n + j * pi.m + i]? = some v ∧
          s1.numBoundaryPointsOnProcess[k * pi.m * pi.n + j * pi.m + i]? = some c ∧
          s2.boundaryPointIndices[k * pi.m * pi.n + j * pi.m + i]? =
            some (v ++ cellList3D pi mesh body i j k) ∧
          s2.numBoundaryPointsOnProcess[k * pi.m * pi.n + j * pi.m + i]? =
            some (c + ((cellList3D pi mesh body i j k).length : PetscInt)) ∧
          (s0 = BodyInfo.empty →
            v = cellList3D pi mesh body i j k ∧
            c = ((cellList3D pi mesh body i j k).length : PetscInt))) := by
  have hb := baseOk_resizeAll pi.numProcs body.x.length s0 hnn
  constructor
  · intro hs
    have hnn1 := afterCells_nonneg (rankList2D pi mesh body) (rankPhi2D pi)
      (resizeAll pi.numProcs body.x.length s0) (pi.m * pi.n) hb.2.2.2
    have e2 := generateBodyInfo2D_eq pi mesh body hq hs _ hnn1
    rw [resizeAll_afterCells] at e2
    refine ⟨_, _, generateBodyInfo2D_eq pi mesh body hq hs s0 hnn, e2, ?_, rfl, ?_⟩
    · exact afterCells_phi_idem _ _ _ _
    · intro i j hi hj
      have hlt := rank2D_lt hi hj
      have hE : rankList2D pi mesh body (j * pi.m + i) = cellList2D pi mesh body i j := by
        simp only [rankList2D, rank2D_mod j hi, rank2D_div j hi]
      have key := (second_run (rankList2D pi mesh body) (rankPhi2D pi) pi.numProcs
        body.x.length (pi.m * pi.n) s0 (j * pi.m + i) hlt (Nat.lt_of_lt_of_le hlt hs.1)).2
      rw [hE] at key
      exact key
  · intro hs
    have hnn1 := afterCells_nonneg (rankList3D pi mesh body) (rankPhi3D pi)
      (resizeAll pi.numProcs body.x.length s0) (pi.m * pi.n * pi.p) hb.2.2.2
    have e2 := generateBodyInfo3D_eq pi mesh body hq hs _ hnn1
    rw [resizeAll_afterCells] at e2
    refine ⟨_, _, generateBodyInfo3D_eq pi mesh body hq hs s0 hnn, e2, ?_, rfl, ?_⟩
    · exact afterCells_phi_idem _ _ _ _
    · intro i j k hi hj hk
      have hlt := rank3D_lt hi hj hk
      have hE : rankList3D pi mesh body (k * pi.m * pi.n + j * pi.m + i) =
          cellList3D pi mesh body i j k := by
        simp only [rankList3D, rank3D_mod pi.n j k hi, rank3D_div_mod k hi hj,
          rank3D_div_div k hi hj]
      have key := (second_run (rankList3D pi mesh body) (rankPhi3D pi) pi.numProcs
        body.x.length (pi.m * pi.n * pi.p) s0 (k * pi.m * pi.n + j * pi.m + i) hlt
        (Nat.lt_of_lt_of_le hlt hs.1)).2
      rw [hE] at key
      exact key

/-- Witness for the amended C6: the two-process scenarios, from empty members. -/
theorem generateBodyInfo_rerun_appends_witness :
    (∃ s1 s2, generateBodyInfo2D twoProcPartition gridMesh threePoints BodyInfo.empty =
        some (0, s1) ∧
      generateBodyInfo2D twoProcPartition gridMesh threePoints s1 = some (0, s2) ∧
      s2.numPhiOnProcess = s1.numPhiOnProcess ∧
      s2.globalIndexMapping = s1.globalIndexMapping ∧
      ∀ i j, i < 2 → j < 1 → ∃ v c,
        s1.boundaryPointIndices[j * 2 + i]? = some v ∧
        s1.numBoundaryPointsOnProcess[j * 2 + i]? = some c ∧
        s2.boundaryPointIndices[j * 2 + i]? =
          some (v ++ cellList2D twoProcPartition gridMesh threePoints i j) ∧
        s2.numBoundaryPointsOnProcess[j * 2 + i]? =
          some (c + ((cellList2D twoProcPartition gridMesh threePoints i j).length :
            PetscInt)) ∧
        (BodyInfo.empty = BodyInfo.empty →
          v = cellList2D twoProcPartition gridMesh threePoints i j ∧
          c = ((cellList2D twoProcPartition gridMesh threePoints i j).length : PetscInt))) ∧
    (∃ s1 s2, generateBodyInfo3D twoProcPartition3D gridMesh3D threePoints3D BodyInfo.empty =
        some (0, s1) ∧
      generateBodyInfo3D twoProcPartition3D gridMesh3D threePoints3D s1 = some (0, s2) ∧
      s2.numPhiOnProcess = s1.numPhiOnProcess) :=
  ⟨(generateBodyInfo_rerun_appends twoProcPartition gridMesh threePoints (by decide)
      BodyInfo.empty empty_nonneg).1 (by decide),
   by
    obtain ⟨s1, s2, h1, h2, h3, _⟩ :=
      (generateBodyInfo_rerun_appends twoProcPartition3D gridMesh3D threePoints3D (by decide)
        BodyInfo.empty empty_nonneg).2 (by decide)
    exact ⟨s1, s2, h1, h2, h3⟩⟩

/-- C7, counterexample: with a body point exactly on the global upper boundary
(`x = 4 = mesh.x[last]`) and one beyond the mesh (`x = 7`), both outside every
process's sub-domain, `generateBodyInfo` returns the code `0`, and neither
point is in any list. -/
theorem generateBodyInfo_outside_counterexample :
    generateBodyInfo2D twoProcPartition gridMesh outsidePoints BodyInfo.empty =
      some (0, ⟨[[0], []], [1, 0], [8, 8], [0, 0, 0]⟩) ∧
    (∀ i, i < 2 → ∀ j, j < 1 →
      cellPred2D twoProcPartition gridMesh outsidePoints i j 1 = false ∧
      cellPred2D twoProcPartition gridMesh outsidePoints i j 2 = false) := by
  decide

/-- C7, amended: `generateBodyInfo` does not report a body point that lies
outside every process's sub-domain.  Its returned code is non-zero only when
one of the three backend queries fails; when they succeed it returns `0`, and
such a point is absent from every process's index list. -/
theorem generateBodyInfo_outside_point_dropped (pi : PartitionInfo) (mesh : CartesianMesh)
    (body : Body) :
    (∀ s0 code s, generateBodyInfo2D pi mesh body s0 = some (code, s) → code ≠ 0 →
      ¬ QueriesOk pi) ∧
    (∀ s0 code s, generateBodyInfo3D pi mesh body s0 = some (code, s) → code ≠ 0 →
      ¬ QueriesOk pi) ∧
    (QueriesOk pi → Shape2D pi mesh body →
      ∃ s, generateBodyInfo2D pi mesh body BodyInfo.empty = some (0, s) ∧
        ∀ l, l < body.x.length →
          (∀ i j, i < pi.m → j < pi.n → cellPred2D pi mesh body i j l = false) →
          ∀ r, r < pi.numProcs → Int.ofNat l ∉ s.boundaryPointIndices.getD r []) ∧
    (QueriesOk pi → Shape3D pi mesh body →
      ∃ s, generateBodyInfo3D pi mesh body BodyInfo.empty = some (0, s) ∧
        ∀ l, l < body.x.length →
          (∀ i j k, i < pi.m → j < pi.n → k < pi.p →
            cellPred3D pi mesh body i j k l = false) →
          ∀ r, r < pi.numProcs → Int.ofNat l ∉ s.boundaryPointIndices.getD r []) := by
  refine ⟨fun s0 code s h hc => generateBodyInfo2D_code pi mesh body s0 s code h hc,
    fun s0 code s h hc => generateBodyInfo3D_code pi mesh body s0 s code h hc,
    fun hq hs => ?_, fun hq hs => ?_⟩
  · refine ⟨_, generateBodyInfo2D_eq pi mesh body hq hs _ empty_nonneg,
      fun l _ hout r hr => ?_⟩
    exact fresh_not_mem (rankList2D pi mesh body) (rankPhi2D pi) pi.numProcs body.x.length
      (pi.m * pi.n) (fun r l => cellPred2D pi mesh body (r % pi.m) (r / pi.m) l)
      (fun r _ => rfl) l
      (fun r hr => hout _ _ (rank2D_bounds hr).1 (rank2D_bounds hr).2) r hr
  · refine ⟨_, generateBodyInfo3D_eq pi mesh body hq hs _ empty_nonneg,
      fun l _ hout r hr => ?_⟩
    exact fresh_not_mem (rankList3D pi mesh body) (rankPhi3D pi) pi.numProcs body.x.length
      (pi.m * pi.n * pi.p)
      (fun r l => cellPred3D pi mesh body (r % pi.m) (r / pi.m % pi.n) (r / pi.m / pi.n) l)
      (fun r _ => rfl) l
      (fun r hr => hout _ _ _ (rank3D_bounds hr).1 (rank3D_bounds hr).2.1
        (rank3D_bounds hr).2.2) r hr

/-- Witness for the amended C7: the scenario with points on and beyond the
global upper boundary; point `1` (`x = 4`) is in no list. -/
theorem generateBodyInfo_outside_point_dropped_witness :
    ∃ s, generateBodyInfo2D twoProcPartition gridMesh outsidePoints BodyInfo.empty =
        some (0, s) ∧
      ∀ r, r < 2 → Int.ofNat 1 ∉ s.boundaryPointIndices.getD r [] :=
  match (generateBodyInfo_outside_point_dropped twoProcPartition gridMesh outsidePoints).2.2.1
      (by decide) (by decide) with
  | ⟨s, hs, hout⟩ =>
      ⟨s, hs, hout 1 (by decide) (fun i j hi hj =>
        (by decide : ∀ i, i < 2 → ∀ j, j < 1 →
          cellPred2D twoProcPartition gridMesh outsidePoints i j 1 = false) i hi j hj)⟩

/-- C8, counterexample: the body point with `x = 2`, the boundary shared by
process 0 (interval `[0, 2)`) and process 1 (interval `[2, 4)`), and `y = 1`
strictly inside the common y range, is listed by process 1, whose interval
starts at that coordinate, and not by process 0, whose interval ends there. -/
theorem generateBodyInfo_boundary_counterexample :
    generateBodyInfo2D twoProcPartition gridMesh boundaryPoint BodyInfo.empty =
      some (0, ⟨[[], [0]], [0, 1], [8, 8], [0]⟩) ∧
    atSharedBoundary gridMesh.x twoProcPartition.lxp 1 (boundaryPoint.x.getD 0 0) ∧
    strictlyInside gridMesh.y twoProcPartition.lyp 0 (boundaryPoint.y.getD 0 0) := by
  decide

/-- C8, amended: a body point whose coordinate on one axis equals the boundary
coordinate shared by two adjacent processes on that axis, and which lies
strictly inside the range of a cell on the other axes, is assigned to the
process whose half-open interval starts at that coordinate (the
higher-coordinate neighbour), exactly once, and to no other process. -/
theorem generateBodyInfo_boundary_point (pi : PartitionInfo) (mesh : CartesianMesh)
    (body : Body) (hq : QueriesOk pi) (htx : Tiling mesh.x pi.lxp)
    (hty : Tiling mesh.y pi.lyp) (l a b : Nat) (hl : l < body.x.length)
    (ha : a < pi.m) (hb : b < pi.n) :
    (Shape2D pi mesh body →
      (atSharedBoundary mesh.x pi.lxp a (body.x.getD l 0) ∧
          strictlyInside mesh.y pi.lyp b (body.y.getD l 0)) ∨
        (strictlyInside mesh.x pi.lxp a (body.x.getD l 0) ∧
          atSharedBoundary mesh.y pi.lyp b (body.y.getD l 0)) →
      ∃ s, generateBodyInfo2D pi mesh body BodyInfo.empty = some (0, s) ∧
        ∀ r, r < pi.numProcs →
          (s.boundaryPointIndices.getD r []).count (Int.ofNat l) =
            if r = b * pi.m + a then 1 else 0) ∧
    (Shape3D pi mesh body → Tiling mesh.z pi.lzp → ∀ c, c < pi.p →
      (atSharedBoundary mesh.x pi.lxp a (body.x.getD l 0) ∧
          strictlyInside mesh.y pi.lyp b (body.y.getD l 0) ∧
          strictlyInside mesh.z pi.lzp c (body.z.getD l 0)) ∨
        (strictlyInside mesh.x pi.lxp a (body.x.getD l 0) ∧
          atSharedBoundary mesh.y pi.lyp b (body.y.getD l 0) ∧
          strictlyInside mesh.z pi.lzp c (body.z.getD l 0)) ∨
        (strictlyInside mesh.x pi.lxp a (body.x.getD l 0) ∧
          strictlyInside mesh.y pi.lyp b (body.y.getD l 0) ∧
          atSharedBoundary mesh.z pi.lzp c (body.z.getD l 0)) →
      ∃ s, generateBodyInfo3D pi mesh body BodyInfo.empty = some (0, s) ∧
        ∀ r, r < pi.numProcs →
          (s.boundaryPointIndices.getD r []).count (Int.ofNat l) =
            if r = c * pi.m * pi.n + b * pi.m + a then 1 else 0) := by
  constructor
  · intro hs hcase
    have hax : a < pi.lxp.length := by rw [hs.2.1]; exact ha
    have hbx : b < pi.lyp.length := by rw [hs.2.2.1]; exact hb
    have hx : inInterval mesh.x pi.lxp a (body.x.getD l 0) := by
      rcases hcase with h | h
      · exact inInterval_of_atSharedBoundary _ _ htx a hax _ h.1
      · exact inInterval_of_strictlyInside _ _ _ _ h.1
    have hy : inInterval mesh.y pi.lyp b (body.y.getD l 0) := by
      rcases hcase with h | h
      · exact inInterval_of_strictlyInside _ _ _ _ h.2
      · exact inInterval_of_atSharedBoundary _ _ hty b hbx _ h.2
    exact point_rank2D pi mesh body hq hs htx.1 hty.1 l a b hl ha hb hx hy
  · intro hs htz c hc hcase
    have hax : a < pi.lxp.length := by rw [hs.2.1]; exact ha
    have hbx : b < pi.lyp.length := by rw [hs.2.2.1]; exact hb
    have hcx : c < pi.lzp.length := by rw [hs.2.2.2.1]; exact hc
    have hx : inInterval mesh.x pi.lxp a (body.x.getD l 0) := by
      rcases hcase with h | h | h
      · exact inInterval_of_atSharedBoundary _ _ htx a hax _ h.1
      · exact inInterval_of_strictlyInside _ _ _ _ h.1
      · exact inInterval_of_strictlyInside _ _ _ _ h.1
    have hy : inInterval mesh.y pi.lyp b (body.y.getD l 0) := by
      rcases hcase with h | h | h
      · exact inInterval_of_strictlyInside _ _ _ _ h.2.1
      · exact inInterval_of_atSharedBoundary _ _ hty b hbx _ h.2.1
      · exact inInterval_of_strictlyInside _ _ _ _ h.2.1
    have hz : inInterval mesh.z pi.lzp c (body.z.getD l 0) := by
      rcases hcase with h | h | h
      · exact inInterval_of_strictlyInside _ _ _ _ h.2.2
      · exact inInterval_of_strictlyInside _ _ _ _ h.2.2
      · exact inInterval_of_atSharedBoundary _ _ htz c hcx _ h.2.2
    exact point_rank3D pi mesh body hq hs htx.1 hty.1 htz.1 l a b c hl ha hb hc hx hy hz

/-- Witness for the amended C8: the point `x = 2` on the boundary shared by the
two processes goes to rank 1. -/
theorem generateBodyInfo_boundary_point_witness :
    ∃ s, generateBodyInfo2D twoProcPartition gridMesh boundaryPoint BodyInfo.empty =
        some (0, s) ∧
      ∀ r, r < 2 →
        (s.boundaryPointIndices.getD r []).count (Int.ofNat 0) =
          if r = 0 * 2 + 1 then 1 else 0 :=
  (generateBodyInfo_boundary_point twoProcPartition gridMesh boundaryPoint (by decide)
    (by decide) (by decide) 0 1 0 (by decide) (by decide) (by decide)).1 (by decide)
    (Or.inl (by decide))


/-! ## Theorems: implicit operator -/

/-- C2: when every backend call succeeds, `generateA` returns the matrix whose
entry at `(r, c)` is `MHat[r]` times the pre-scaling entry times `RInv[c]`, where
the pre-scaling matrix is obtained from the inserted stencil rows by scaling
with `nu * alpha`, then adding `-1/dt` on the diagonal, then negating.  In every
inserted row the pre-scaling diagonal entry is `1/dt - nu*alpha*(centre
coefficient)` and the entry at a neighbour's column is `-nu*alpha*(that
neighbour's coefficient)`; for uniform spacing `1` in 2D with `nu = alpha = dt
= 1` every pre-scaling diagonal entry is `5`. -/
theorem generateA_post_assembly (be : Backend) (hbe : AllOk be) :
    (∀ sv : Solver2D,
      generateA2D be sv = Except.ok (fun r c =>
        sv.MHat r * preScaling sv.nu sv.alphaImplicit sv.dt (rowOps2D sv) r c * sv.RInv c)) ∧
    (∀ sv : Solver3D,
      generateA3D be sv = Except.ok (fun r c =>
        sv.MHat r * preScaling sv.nu sv.alphaImplicit sv.dt (rowOps3D sv) r c * sv.RInv c)) ∧
    (∀ (nu alphaImplicit dt : PetscReal) (ops : List RowOp) (r c : PetscInt),
      preScaling nu alphaImplicit dt ops r c =
        -(nu * alphaImplicit * stencilMatrix ops r c + (if r = c then -1 / dt else 0))) ∧
    (∀ (sv : Solver2D) (op : RowOp), op ∈ rowOps2D sv → RowsDistinct (rowOps2D sv) →
      0 ≤ op.row → DistinctColumns op.cols →
      preScaling sv.nu sv.alphaImplicit sv.dt (rowOps2D sv) op.row op.row =
          1 / sv.dt - sv.nu * sv.alphaImplicit * op.values.getD 0 0 ∧
      ∀ p, 0 < p → p < 5 → 0 ≤ op.cols.getD p 0 →
        preScaling sv.nu sv.alphaImplicit sv.dt (rowOps2D sv) op.row (op.cols.getD p 0) =
          -(sv.nu * sv.alphaImplicit * op.values.getD p 0)) ∧
    (∀ (sv : Solver3D) (op : RowOp), op ∈ rowOps3D sv → RowsDistinct (rowOps3D sv) →
      0 ≤ op.row → DistinctColumns op.cols →
      preScaling sv.nu sv.alphaImplicit sv.dt (rowOps3D sv) op.row op.row =
          1 / sv.dt - sv.nu * sv.alphaImplicit * op.values.getD 0 0 ∧
      ∀ p, 0 < p → p < 7 → 0 ≤ op.cols.getD p 0 →
        preScaling sv.nu sv.alphaImplicit sv.dt (rowOps3D sv) op.row (op.cols.getD p 0) =
          -(sv.nu * sv.alphaImplicit * op.values.getD p 0)) ∧
    (∀ (sv : Solver2D) (op : RowOp), op ∈ rowOps2D sv → RowsDistinct (rowOps2D sv) →
      0 ≤ op.row → DistinctColumns op.cols →
      sv.nu = 1 → sv.alphaImplicit = 1 → sv.dt = 1 →
      (∀ i, sv.dxU i = 1) → (∀ j, sv.dyU j = 1) → (∀ i, sv.dxV i = 1) → (∀ j, sv.dyV j = 1) →
      preScaling sv.nu sv.alphaImplicit sv.dt (rowOps2D sv) op.row op.row = 5) := by
  refine ⟨fun sv => generateA2D_ok be hbe sv, fun sv => generateA3D_ok be hbe sv,
    preScaling_apply, ?_, ?_, ?_⟩
  · intro sv op hmem hd hrow hcols
    exact preScaling_row _ _ _ _ op 5 (by decide) hmem hd (rowShape_rowOps2D sv op hmem)
      hrow hcols
  · intro sv op hmem hd hrow hcols
    exact preScaling_row _ _ _ _ op 7 (by decide) hmem hd (rowShape_rowOps3D sv op hmem)
      hrow hcols
  · intro sv op hmem hd hrow hcols hnu ha hdt hxu hyu hxv hyv
    have key := (preScaling_row sv.nu sv.alphaImplicit sv.dt _ op 5 (by decide) hmem hd
      (rowShape_rowOps2D sv op hmem) hrow hcols).1
    have hval : op.values.getD 0 0 = -4 := by
      rcases List.mem_append.mp hmem with h | h
      · obtain ⟨i, j, _, _, rfl⟩ := (mem_componentOps2D _ _ _ _ op).mp h
        simp only [rowOp2D, getCoefficients2D, List.getD_cons_zero, hxu, hyu]
        norm_num
      · obtain ⟨i, j, _, _, rfl⟩ := (mem_componentOps2D _ _ _ _ op).mp h
        simp only [rowOp2D, getCoefficients2D, List.getD_cons_zero, hxv, hyv]
        norm_num
    rw [key, hval, hnu, ha, hdt]
    norm_num

theorem okBackend_allOk : AllOk okBackend := ⟨fun _ => rfl, fun _ _ _ _ => rfl⟩

theorem centre_mem_uniform :
    rowOp2D uniformSolver2D.uGlobalIdx uniformSolver2D.dxU uniformSolver2D.dyU 2 2 ∈
      rowOps2D uniformSolver2D :=
  List.mem_append_left _
    ((mem_componentOps2D _ _ _ _ _).mpr ⟨2, 2, by decide, by decide, rfl⟩)

/-- Witness for C2: the centre row (row `4`) of the uniform 3×3 grid. -/
theorem generateA_post_assembly_witness :
    generateA2D okBackend uniformSolver2D = Except.ok (fun r c =>
      uniformSolver2D.MHat r *
        preScaling uniformSolver2D.nu uniformSolver2D.alphaImplicit uniformSolver2D.dt
          (rowOps2D uniformSolver2D) r c * uniformSolver2D.RInv c) ∧
    preScaling uniformSolver2D.nu uniformSolver2D.alphaImplicit uniformSolver2D.dt
      (rowOps2D uniformSolver2D)
      (rowOp2D uniformSolver2D.uGlobalIdx uniformSolver2D.dxU uniformSolver2D.dyU 2 2).row
      (rowOp2D uniformSolver2D.uGlobalIdx uniformSolver2D.dxU uniformSolver2D.dyU 2 2).row
        = 5 :=
  ⟨(generateA_post_assembly okBackend okBackend_allOk).1 uniformSolver2D,
   (generateA_post_assembly okBackend okBackend_allOk).2.2.2.2.2 uniformSolver2D _
      centre_mem_uniform (by decide) (by decide) (by decide) rfl rfl rfl
      (fun _ => rfl) (fun _ => rfl) (fun _ => rfl) (fun _ => rfl)⟩

theorem uniform_centre_entry : stencilMatrix (rowOps2D uniformSolver2D) 4 4 = -4 := by
  have e := stencilMatrix_entry (rowOps2D uniformSolver2D)
    (rowOp2D uniformSolver2D.uGlobalIdx uniformSolver2D.dxU uniformSolver2D.dyU 2 2) 5
    centre_mem_uniform (by decide) (rowShape_rowOp2D _ _ _ _ _) (by decide) (by decide) 0
    (by decide) (by decide)
  have hrow : (rowOp2D uniformSolver2D.uGlobalIdx uniformSolver2D.dxU
      uniformSolver2D.dyU 2 2).row = 4 := by decide
  have hcol : (rowOp2D uniformSolver2D.uGlobalIdx uniformSolver2D.dxU
      uniformSolver2D.dyU 2 2).cols.getD 0 0 = 4 := by decide
  have hval : (rowOp2D uniformSolver2D.uGlobalIdx uniformSolver2D.dxU
      uniformSolver2D.dyU 2 2).values.getD 0 0 = -4 := by
    simp only [rowOp2D, getCoefficients2D, List.getD_cons_zero, uniformSolver2D]
    norm_num
  rw [hrow, hcol, hval] at e
  exact e

/-- C3, counterexample: on the uniform 3×3 grid with `nu = alpha = dt = 1` and
unit diagonals, the centre row `4` has the stencil entry `L(4,4) = -4`, so
`nu*alpha*L - (1/dt)*I` has the diagonal entry `-5`, but the matrix `generateA`
returns has the diagonal entry `5`. -/
theorem generateA_sign_counterexample :
    ∃ A, generateA2D okBackend uniformSolver2D = Except.ok A ∧
      (∀ r, uniformSolver2D.MHat r = 1) ∧ (∀ c, uniformSolver2D.RInv c = 1) ∧
      uniformSolver2D.nu * uniformSolver2D.alphaImplicit *
          stencilMatrix (rowOps2D uniformSolver2D) 4 4 - 1 / uniformSolver2D.dt = -5 ∧
      A 4 4 = 5 := by
  refine ⟨_, generateA2D_ok okBackend okBackend_allOk uniformSolver2D, fun _ => rfl,
    fun _ => rfl, ?_, ?_⟩
  · rw [uniform_centre_entry]
    simp only [uniformSolver2D]
    norm_num
  · simp only [MatDiagonalScale, preScaling_apply, uniform_centre_entry]
    simp only [uniformSolver2D]
    norm_num

/-- C3, amended: with the mass and inverse-metric diagonals both equal to one,
the matrix `generateA` returns is `(1/dt)*I - nu*alpha*L`, where `L` is the matrix
of inserted stencil rows: in every inserted row the diagonal entry is
`1/dt - nu*alpha*(centre coefficient)` and the entry at a neighbour's column is
`-nu*alpha*(that neighbour's coefficient)`. -/
theorem generateA_unit_diagonals (be : Backend) (hbe : AllOk be) :
    (∀ sv : Solver2D, (∀ r, sv.MHat r = 1) → (∀ c, sv.RInv c = 1) →
      ∃ A, generateA2D be sv = Except.ok A ∧
        (∀ r c, A r c = (if r = c then 1 / sv.dt else 0) -
          sv.nu * sv.alphaImplicit * stencilMatrix (rowOps2D sv) r c) ∧
        ∀ op, op ∈ rowOps2D sv → RowsDistinct (rowOps2D sv) → 0 ≤ op.row →
          DistinctColumns op.cols →
          A op.row op.row = 1 / sv.dt - sv.nu * sv.alphaImplicit * op.values.getD 0 0 ∧
          ∀ p, 0 < p → p < 5 → 0 ≤ op.cols.getD p 0 →
            A op.row (op.cols.getD p 0) = -(sv.nu * sv.alphaImplicit * op.values.getD p 0)) ∧
    (∀ sv : Solver3D, (∀ r, sv.MHat r = 1) → (∀ c, sv.RInv c = 1) →
      ∃ A, generateA3D be sv = Except.ok A ∧
        (∀ r c, A r c = (if r = c then 1 / sv.dt else 0) -
          sv.nu * sv.alphaImplicit * stencilMatrix (rowOps3D sv) r c) ∧
        ∀ op, op ∈ rowOps3D sv → RowsDistinct (rowOps3D sv) → 0 ≤ op.row →
          DistinctColumns op.cols →
          A op.row op.row = 1 / sv.dt - sv.nu * sv.alphaImplicit * op.values.getD 0 0 ∧
          ∀ p, 0 < p → p < 7 → 0 ≤ op.cols.getD p 0 →
            A op.row (op.cols.getD p 0) =
              -(sv.nu * sv.alphaImplicit * op.values.getD p 0)) := by
  have hunit : ∀ (M R : PetscInt → PetscReal) (B : Mat), (∀ r, M r = 1) → (∀ c, R c = 1) →
      ∀ r c, MatDiagonalScale B M R r c = B r c := by
    intro M R B hM hR r c
    simp only [MatDiagonalScale, hM, hR, one_mul, mul_one]
  constructor
  · intro sv hM hR
    refine ⟨_, generateA2D_ok be hbe sv, fun r c => ?_, fun op hmem hd hrow hcols => ?_⟩
    · rw [hunit _ _ _ hM hR, preScaling_apply]
      split <;> ring
    · have key := preScaling_row sv.nu sv.alphaImplicit sv.dt _ op 5 (by decide) hmem hd
        (rowShape_rowOps2D sv op hmem) hrow hcols
      refine ⟨by rw [hunit _ _ _ hM hR]; exact key.1, fun p hp0 hp hc => ?_⟩
      rw [hunit _ _ _ hM hR]
      exact key.2 p hp0 hp hc
  · intro sv hM hR
    refine ⟨_, generateA3D_ok be hbe sv, fun r c => ?_, fun op hmem hd hrow hcols => ?_⟩
    · rw [hunit _ _ _ hM hR, preScaling_apply]
      split <;> ring
    · have key := preScaling_row sv.nu sv.alphaImplicit sv.dt _ op 7 (by decide) hmem hd
        (rowShape_rowOps3D sv op hmem) hrow hcols
      refine ⟨by rw [hunit _ _ _ hM hR]; exact key.1, fun p hp0 hp hc => ?_⟩
      rw [hunit _ _ _ hM hR]
      exact key.2 p hp0 hp hc

/-- Witness for the amended C3: the uniform 3×3 grid. -/
theorem generateA_unit_diagonals_witness :
    ∃ A, generateA2D okBackend uniformSolver2D = Except.ok A ∧
      (∀ r c, A r c = (if r = c then 1 / uniformSolver2D.dt else 0) -
        uniformSolver2D.nu * uniformSolver2D.alphaImplicit *
          stencilMatrix (rowOps2D uniformSolver2D) r c) ∧
      ∀ op, op ∈ rowOps2D uniformSolver2D → RowsDistinct (rowOps2D uniformSolver2D) →
        0 ≤ op.row → DistinctColumns op.cols →
        A op.row op.row = 1 / uniformSolver2D.dt -
          uniformSolver2D.nu * uniformSolver2D.alphaImplicit * op.values.getD 0 0 ∧
        ∀ p, 0 < p → p < 5 → 0 ≤ op.cols.getD p 0 →
          A op.row (op.cols.getD p 0) =
            -(uniformSolver2D.nu * uniformSolver2D.alphaImplicit * op.values.getD p 0) :=
  (generateA_unit_diagonals okBackend okBackend_allOk).1 uniformSolver2D
    (fun _ => rfl) (fun _ => rfl)

/-- C9: `getColumns` returns the global indices of node `(i, j[, k])` in the
order centre, x-minus, x-plus, y-minus, y-plus[, z-minus, z-plus]; every row
`generateA` inserts is the `MatSetValues` call of a node of one component, with
row index `cols[0]`, and at each position the coefficient is the one
`getCoefficients` computes from the spacings of that neighbour's axis and
side: `d[i]` backward and `d[i+1]` forward. -/
theorem getColumns_matches_getCoefficients (be : Backend) (hbe : AllOk be) :
    (∀ (g : PetscInt → PetscInt → PetscReal) (i j : PetscInt),
      getColumns2D g i j =
        [toPetscInt (g j i), toPetscInt (g j (i - 1)), toPetscInt (g j (i + 1)),
          toPetscInt (g (j - 1) i), toPetscInt (g (j + 1) i)]) ∧
    (∀ (g : PetscInt → PetscInt → PetscInt → PetscReal) (i j k : PetscInt),
      getColumns3D g i j k =
        [toPetscInt (g k j i), toPetscInt (g k j (i - 1)), toPetscInt (g k j (i + 1)),
          toPetscInt (g k (j - 1) i), toPetscInt (g k (j + 1) i),
          toPetscInt (g (k - 1) j i), toPetscInt (g (k + 1) j i)]) ∧
    (∀ (g : PetscInt → PetscInt → PetscReal) (dx dy : PetscInt → PetscReal)
        (i j : PetscInt) (A : Mat),
      insertRow2D g dx dy i j A =
        MatSetValues A (toPetscInt (g j i))
          [toPetscInt (g j i), toPetscInt (g j (i - 1)), toPetscInt (g j (i + 1)),
            toPetscInt (g (j - 1) i), toPetscInt (g (j + 1) i)]
          [-(2 / (dx i * dx (i + 1)) + 2 / (dy j * dy (j + 1))),
            2 / (dx i * (dx i + dx (i + 1))),
            2 / (dx (i + 1) * (dx i + dx (i + 1))),
            2 / (dy j * (dy j + dy (j + 1))),
            2 / (dy (j + 1) * (dy j + dy (j + 1)))]) ∧
    (∀ (g : PetscInt → PetscInt → PetscInt → PetscReal) (dx dy dz : PetscInt → PetscReal)
        (i j k : PetscInt) (A : Mat),
      insertRow3D g dx dy dz i j k A =
        MatSetValues A (toPetscInt (g k j i))
          [toPetscInt (g k j i), toPetscInt (g k j (i - 1)), toPetscInt (g k j (i + 1)),
            toPetscInt (g k (j - 1) i), toPetscInt (g k (j + 1) i),
            toPetscInt (g (k - 1) j i), toPetscInt (g (k + 1) j i)]
          [-(2 / (dx i * dx (i + 1)) + 2 / (dy j * dy (j + 1))) +
              -2 / (dz k * dz (k + 1)),
            2 / (dx i * (dx i + dx (i + 1))),
            2 / (dx (i + 1) * (dx i + dx (i + 1))),
            2 / (dy j * (dy j + dy (j + 1))),
            2 / (dy (j + 1) * (dy j + dy (j + 1))),
            2 / (dz k * (dz k + dz (k + 1))),
            2 / (dz (k + 1) * (dz k + dz (k + 1)))]) ∧
    (∀ sv : Solver2D,
      generateA2D be sv = Except.ok (MatDiagonalScale
        (MatScale (MatShift (MatScale ((rowOps2D sv).foldl applyRow Mat.zero)
          (sv.nu * sv.alphaImplicit)) (-1 / sv.dt)) (-1)) sv.MHat sv.RInv) ∧
      ∀ op, op ∈ rowOps2D sv → ∃ i j, ∀ A,
        (applyRow A op = insertRow2D sv.uGlobalIdx sv.dxU sv.dyU i j A ∨
          applyRow A op = insertRow2D sv.vGlobalIdx sv.dxV sv.dyV i j A) ∧
        op.row = op.cols.getD 0 0) ∧
    (∀ sv : Solver3D,
      generateA3D be sv = Except.ok (MatDiagonalScale
        (MatScale (MatShift (MatScale ((rowOps3D sv).foldl applyRow Mat.zero)
          (sv.nu * sv.alphaImplicit)) (-1 / sv.dt)) (-1)) sv.MHat sv.RInv) ∧
      ∀ op, op ∈ rowOps3D sv → ∃ i j k, ∀ A,
        (applyRow A op = insertRow3D sv.uGlobalIdx sv.dxU sv.dyU sv.dzU i j k A ∨
          applyRow A op = insertRow3D sv.vGlobalIdx sv.dxV sv.dyV sv.dzV i j k A ∨
          applyRow A op = insertRow3D sv.wGlobalIdx sv.dxW sv.dyW sv.dzW i j k A) ∧
        op.row = op.cols.getD 0 0) := by
  refine ⟨fun _ _ _ => rfl, fun _ _ _ _ => rfl, ?_, ?_, fun sv => ⟨?_, ?_⟩,
    fun sv => ⟨?_, ?_⟩⟩
  · intro g dx dy i j A
    simp only [insertRow2D, getColumns2D, getCoefficients2D, List.headD_cons, div_div]
  · intro g dx dy dz i j k A
    simp only [insertRow3D, getColumns3D, getCoefficients3D, getCoefficients2D,
      List.headD_cons, div_div, List.cons_append, List.nil_append]
  · exact generateA2D_ok be hbe sv
  · intro op hmem
    rcases List.mem_append.mp hmem with h | h
    · obtain ⟨i, j, _, _, rfl⟩ := (mem_componentOps2D _ _ _ _ op).mp h
      exact ⟨i, j, fun A => ⟨Or.inl rfl, rfl⟩⟩
    · obtain ⟨i, j, _, _, rfl⟩ := (mem_componentOps2D _ _ _ _ op).mp h
      exact ⟨i, j, fun A => ⟨Or.inr rfl, rfl⟩⟩
  · exact generateA3D_ok be hbe sv
  · intro op hmem
    rcases List.mem_append.mp hmem with h | h
    · obtain ⟨i, j, k, _, _, _, rfl⟩ := (mem_componentOps3D _ _ _ _ _ op).mp h
      exact ⟨i, j, k, fun A => ⟨Or.inl rfl, rfl⟩⟩
    · rcases List.mem_append.mp h with h | h
      · obtain ⟨i, j, k, _, _, _, rfl⟩ := (mem_componentOps3D _ _ _ _ _ op).mp h
        exact ⟨i, j, k, fun A => ⟨Or.inr (Or.inl rfl), rfl⟩⟩
      · obtain ⟨i, j, k, _, _, _, rfl⟩ := (mem_componentOps3D _ _ _ _ _ op).mp h
        exact ⟨i, j, k, fun A => ⟨Or.inr (Or.inr rfl), rfl⟩⟩

/-- Witness for C9: the uniform 3×3 grid with a backend whose calls succeed. -/
theorem getColumns_matches_getCoefficients_witness :
    generateA2D okBackend uniformSolver2D = Except.ok (MatDiagonalScale
        (MatScale (MatShift (MatScale ((rowOps2D uniformSolver2D).foldl applyRow Mat.zero)
          (uniformSolver2D.nu * uniformSolver2D.alphaImplicit)) (-1 / uniformSolver2D.dt))
          (-1)) uniformSolver2D.MHat uniformSolver2D.RInv) :=
  ((getColumns_matches_getCoefficients okBackend okBackend_allOk).2.2.2.2.1
    uniformSolver2D).1

/-! ## Lemmas: sums and signs of the stencil coefficients -/

theorem getCoefficients2D_sum (a b c d : PetscReal) (ha : a ≠ 0) (hb : b ≠ 0) (hc : c ≠ 0)
    (hd : d ≠ 0) (hab : a + b ≠ 0) (hcd : c + d ≠ 0) :
    (getCoefficients2D a b c d).sum = 0 := by
  simp only [getCoefficients2D, List.sum_cons, List.sum_nil]
  field_simp
  ring

theorem getCoefficients3D_sum (a b c d e f : PetscReal) (ha : a ≠ 0) (hb : b ≠ 0) (hc : c ≠ 0)
    (hd : d ≠ 0) (he : e ≠ 0) (hf : f ≠ 0) (hab : a + b ≠ 0) (hcd : c + d ≠ 0)
    (hef : e + f ≠ 0) :
    (getCoefficients3D a b c d e f).sum = 0 := by
  simp only [getCoefficients3D, getCoefficients2D, List.cons_append, List.nil_append,
    List.sum_cons, List.sum_nil]
  field_simp
  ring

theorem getCoefficients2D_signs (a b c d : PetscReal) (ha : 0 < a) (hb : 0 < b) (hc : 0 < c)
    (hd : 0 < d) :
    (getCoefficients2D a b c d).getD 0 0 < 0 ∧
    ∀ p, 0 < p → p < 5 → 0 < (getCoefficients2D a b c d).getD p 0 := by
  have hab : 0 < a + b := by linarith
  have hcd : 0 < c + d := by linarith
  constructor
  · simp only [getCoefficients2D, List.getD_cons_zero]
    have h1 : 0 < 2 / a / b := by positivity
    have h2 : 0 < 2 / c / d := by positivity
    linarith
  · intro p hp0 hp
    have hcases : p = 1 ∨ p = 2 ∨ p = 3 ∨ p = 4 := by omega
    rcases hcases with h | h | h | h <;> subst h <;>
      simp only [getCoefficients2D, List.getD_cons_succ, List.getD_cons_zero] <;> positivity

theorem getCoefficients3D_signs (a b c d e f : PetscReal) (ha : 0 < a) (hb : 0 < b)
    (hc : 0 < c) (hd : 0 < d) (he : 0 < e) (hf : 0 < f) :
    (getCoefficients3D a b c d e f).getD 0 0 < 0 ∧
    ∀ p, 0 < p → p < 7 → 0 < (getCoefficients3D a b c d e f).getD p 0 := by
  have hab : 0 < a + b := by linarith
  have hcd : 0 < c + d := by linarith
  have hef : 0 < e + f := by linarith
  constructor
  · simp only [getCoefficients3D, getCoefficients2D, List.cons_append, List.nil_append,
      List.getD_cons_zero]
    have h1 : 0 < 2 / a / b := by positivity
    have h2 : 0 < 2 / c / d := by positivity
    have h3 : 0 < 2 / e / f := by positivity
    have h4 : -2 / e / f = -(2 / e / f) := by ring
    linarith
  · intro p hp0 hp
    have hcases : p = 1 ∨ p = 2 ∨ p = 3 ∨ p = 4 ∨ p = 5 ∨ p = 6 := by omega
    rcases hcases with h | h | h | h | h | h <;> subst h <;>
      simp only [getCoefficients3D, getCoefficients2D, List.cons_append, List.nil_append,
        List.getD_cons_succ, List.getD_cons_zero] <;> positivity

/-! ## Theorems: sum of the stencil coefficients -/

/-- C11: for non-zero spacings `hx`, `hy` with `dxMinus = dxPlus = hx` and
`dyMinus = dyPlus = hy`, the five values returned by the 2D `getCoefficients`
sum to zero. -/
theorem getCoefficients2D_sum_zero_symmetric (hx hy : PetscReal) (hhx : hx ≠ 0)
    (hhy : hy ≠ 0) :
    (getCoefficients2D hx hx hy hy).length = 5 ∧ (getCoefficients2D hx hx hy hy).sum = 0 :=
  ⟨rfl, getCoefficients2D_sum hx hx hy hy hhx hhx hhy hhy
    (fun e => hhx (by linarith)) (fun e => hhy (by linarith))⟩

/-- Witness for C11 at `hx = 2`, `hy = 3`. -/
theorem getCoefficients2D_sum_zero_symmetric_witness :
    (getCoefficients2D 2 2 3 3).length = 5 ∧ (getCoefficients2D 2 2 3 3).sum = 0 :=
  getCoefficients2D_sum_zero_symmetric 2 3 (by norm_num) (by norm_num)

/-! ## Lemmas: error codes of `generateA` -/

/-- The loops succeed as soon as every `MatSetValues` call does. -/
theorem insertLoop2D_ok_of_setValues (be : Backend)
    (hset : ∀ line i j k, be.setValuesErr line i j k = 0) (line : Nat)
    (g : PetscInt → PetscInt → PetscReal) (c : Corners) (dx dy : PetscInt → PetscReal)
    (A : Mat) :
    insertLoop2D be line g c dx dy A =
      Except.ok ((componentOps2D g c dx dy).foldl applyRow A) :=
  insertLoop2D_ok ⟨fun _ => 0, be.setValuesErr⟩ ⟨fun _ => rfl, hset⟩ line g c dx dy A

theorem insertLoop3D_ok_of_setValues (be : Backend)
    (hset : ∀ line i j k, be.setValuesErr line i j k = 0) (line : Nat)
    (g : PetscInt → PetscInt → PetscInt → PetscReal) (c : Corners)
    (dx dy dz : PetscInt → PetscReal) (A : Mat) :
    insertLoop3D be line g c dx dy dz A =
      Except.ok ((componentOps3D g c dx dy dz).foldl applyRow A) :=
  insertLoop3D_ok ⟨fun _ => 0, be.setValuesErr⟩ ⟨fun _ => rfl, hset⟩ line g c dx dy dz A

theorem goodErr_ok {α : Type} (a : α) : GoodErr (Except.ok a : Except PetscErrorCode α) := by
  intro e h
  cases h

theorem goodErr_chk_bind {α : Type} (e : PetscErrorCode) (f : Unit → Except PetscErrorCode α)
    (h : GoodErr (f ())) : GoodErr ((chk e).bind f) := by
  intro e' he'
  by_cases he : e = 0
  · subst he
    exact h e' he'
  · simp only [chk, if_neg he, Except.bind] at he'
    cases he'
    exact he

theorem goodErr_bind {α β : Type} (x : Except PetscErrorCode α)
    (f : α → Except PetscErrorCode β) (hx : GoodErr x) (hf : ∀ a, GoodErr (f a)) :
    GoodErr (x.bind f) := by
  intro e he
  cases x with
  | error e0 =>
      simp only [Except.bind] at he
      cases he
      exact hx _ rfl
  | ok a => exact hf a e he

theorem goodErr_forRange {σ : Type} (body : PetscInt → σ → Except PetscErrorCode σ)
    (hbody : ∀ i s, GoodErr (body i s)) :
    ∀ (count : Nat) (start : PetscInt) (s : σ), GoodErr (forRange body count start s)
  | 0, _, s => goodErr_ok s
  | count + 1, start, s =>
      goodErr_bind _ _ (hbody start s) (fun a => goodErr_forRange body hbody count (start + 1) a)

theorem returnCode_eq_zero {α : Type} (x : Except PetscErrorCode α) (hx : GoodErr x)
    (h : returnCode x = 0) : ∃ a, x = Except.ok a := by
  cases x with
  | error e => exact absurd h (hx e rfl)
  | ok a => exact ⟨a, rfl⟩

theorem chk_bind_eq_ok {α : Type} (e : PetscErrorCode) (f : Unit → Except PetscErrorCode α)
    (a : α) : (chk e).bind f = Except.ok a ↔ e = 0 ∧ f () = Except.ok a := by
  by_cases he : e = 0
  · subst he
    simp [chk, Except.bind]
  · simp [chk, he, Except.bind]

theorem bind_eq_ok {α β : Type} (x : Except PetscErrorCode α)
    (f : α → Except PetscErrorCode β) (b : β) :
    x.bind f = Except.ok b ↔ ∃ a, x = Except.ok a ∧ f a = Except.ok b := by
  cases x with
  | error e => simp [Except.bind]
  | ok a => simp [Except.bind]

/-- A loop that returns normally has returned normally from every iteration. -/
theorem forRange_ok_inv {σ : Type} (body : PetscInt → σ → Except PetscErrorCode σ)
    (P : PetscInt → Prop) (hbody : ∀ i s s', body i s = Except.ok s' → P i) :
    ∀ (count : Nat) (start : PetscInt) (s s' : σ),
      forRange body count start s = Except.ok s' → ∀ i ∈ intRange count start, P i
  | 0, _, _, _, _ => by
      intro i hi
      cases hi
  | count + 1, start, s, s', h => by
      intro i hi
      simp only [forRange] at h
      obtain ⟨s1, h1, h2⟩ := (bind_eq_ok _ _ _).mp h
      simp only [intRange, List.mem_cons] at hi
      rcases hi with hi | hi
      · rw [hi]
        exact hbody start s s1 h1
      · exact forRange_ok_inv body P hbody count (start + 1) s1 s' h2 i hi

theorem insertLoop2D_ok_inv (be : Backend) (line : Nat)
    (g : PetscInt → PetscInt → PetscReal) (c : Corners) (dx dy : PetscInt → PetscReal)
    (A A' : Mat) (h : insertLoop2D be line g c dx dy A = Except.ok A') :
    ∀ i j, Visited2D c i j → be.setValuesErr line i j 0 = 0 := by
  intro i j hv
  have hj := forRange_ok_inv _ (fun j => ∀ i ∈ intRange c.m.toNat c.mstart,
      be.setValuesErr line i j 0 = 0)
    (fun j B B' hB => forRange_ok_inv _ (fun i => be.setValuesErr line i j 0 = 0)
      (fun i C C' hC => ((chk_bind_eq_ok _ _ _).mp hC).1) _ _ B B' hB)
    _ _ A A' h
  exact hj j hv.2 i hv.1

theorem insertLoop3D_ok_inv (be : Backend) (line : Nat)
    (g : PetscInt → PetscInt → PetscInt → PetscReal) (c : Corners)
    (dx dy dz : PetscInt → PetscReal) (A A' : Mat)
    (h : insertLoop3D be line g c dx dy dz A = Except.ok A') :
    ∀ i j k, Visited3D c i j k → be.setValuesErr line i j k = 0 := by
  intro i j k hv
  have hk := forRange_ok_inv _ (fun k => ∀ j ∈ intRange c.n.toNat c.nstart,
      ∀ i ∈ intRange c.m.toNat c.mstart, be.setValuesErr line i j k = 0)
    (fun k B B' hB => forRange_ok_inv _ (fun j => ∀ i ∈ intRange c.m.toNat c.mstart,
        be.setValuesErr line i j k = 0)
      (fun j C C' hC => forRange_ok_inv _ (fun i => be.setValuesErr line i j k = 0)
        (fun i D D' hD => ((chk_bind_eq_ok _ _ _).mp hD).1) _ _ C C' hC) _ _ B B' hB)
    _ _ A A' h
  exact hk k hv.2.2 j hv.2.1 i hv.1

theorem goodErr_insertLoop2D (be : Backend) (line : Nat)
    (g : PetscInt → PetscInt → PetscReal) (c : Corners) (dx dy : PetscInt → PetscReal)
    (A : Mat) : GoodErr (insertLoop2D be line g c dx dy A) := by
  unfold insertLoop2D
  apply goodErr_forRange
  intro j B
  apply goodErr_forRange
  intro i C
  apply goodErr_chk_bind
  exact goodErr_ok _

theorem insertLoop2D_bind_eq_ok {β : Type} (be : Backend) (line : Nat)
    (g : PetscInt → PetscInt → PetscReal) (c : Corners) (dx dy : PetscInt → PetscReal)
    (A : Mat) (f : Mat → Except PetscErrorCode β) (b : β) :
    (insertLoop2D be line g c dx dy A).bind f = Except.ok b ↔
      ∃ a, insertLoop2D be line g c dx dy A = Except.ok a ∧ f a = Except.ok b :=
  bind_eq_ok _ _ _

theorem goodErr_insertLoop3D (be : Backend) (line : Nat)
    (g : PetscInt → PetscInt → PetscInt → PetscReal) (c : Corners)
    (dx dy dz : PetscInt → PetscReal) (A : Mat) :
    GoodErr (insertLoop3D be line g c dx dy dz A) := by
  unfold insertLoop3D
  apply goodErr_forRange
  intro k B
  apply goodErr_forRange
  intro j C
  apply goodErr_forRange
  intro i D
  apply goodErr_chk_bind
  exact goodErr_ok _

theorem insertLoop3D_bind_eq_ok {β : Type} (be : Backend) (line : Nat)
    (g : PetscInt → PetscInt → PetscInt → PetscReal) (c : Corners)
    (dx dy dz : PetscInt → PetscReal) (A : Mat) (f : Mat → Except PetscErrorCode β) (b : β) :
    (insertLoop3D be line g c dx dy dz A).bind f = Except.ok b ↔
      ∃ a, insertLoop3D be line g c dx dy dz A = Except.ok a ∧ f a = Except.ok b :=
  bind_eq_ok _ _ _

theorem goodErr_generateA2D (be : Backend) (sv : Solver2D) : GoodErr (generateA2D be sv) := by
  unfold generateA2D
  repeat' first
    | exact goodErr_ok _
    | apply goodErr_chk_bind
    | (apply goodErr_bind _ _ (goodErr_insertLoop2D _ _ _ _ _ _ _); intro _)

theorem goodErr_generateA3D (be : Backend) (sv : Solver3D) : GoodErr (generateA3D be sv) := by
  unfold generateA3D
  repeat' first
    | exact goodErr_ok _
    | apply goodErr_chk_bind
    | (apply goodErr_bind _ _ (goodErr_insertLoop3D _ _ _ _ _ _ _ _); intro _)

/-- Every checked call of the 2D specialization propagates: a run that returns
`0` has seen the code `0` from every checked call it made. -/
theorem generateA2D_propagates (be : Backend) (sv : Solver2D)
    (h : returnCode (generateA2D be sv) = 0) :
    (∀ line ∈ checkedLines2D, be.err line = 0) ∧
    (∀ i j, Visited2D sv.uCorners i j → be.setValuesErr 142 i j 0 = 0) ∧
    (∀ i j, Visited2D sv.vCorners i j → be.setValuesErr 155 i j 0 = 0) := by
  obtain ⟨A, hA⟩ := returnCode_eq_zero _ (goodErr_generateA2D be sv) h
  simp only [generateA2D, chk_bind_eq_ok, insertLoop2D_bind_eq_ok] at hA
  obtain ⟨h78, h84, h85, h94, h95, h105, h108, h109, h119, h122, h123, h124, h125, h126,
    h129, h130, h134, h135, A1, hU, h145, h147, h148, A2, hV, h158, h160, h161, h163, h164,
    h165, _⟩ := hA
  refine ⟨?_, insertLoop2D_ok_inv be 142 _ _ _ _ _ _ hU,
    insertLoop2D_ok_inv be 155 _ _ _ _ _ _ hV⟩
  intro line hline
  simp only [checkedLines2D, List.mem_cons, List.mem_singleton, List.not_mem_nil,
    or_false] at hline
  rcases hline with h | h | h | h | h | h | h | h | h | h | h | h | h | h | h | h | h | h |
    h | h | h | h | h | h | h | h | h <;> subst h <;> assumption

/-- Every backend call of the 3D specialization propagates. -/
theorem generateA3D_propagates (be : Backend) (sv : Solver3D)
    (h : returnCode (generateA3D be sv) = 0) :
    (∀ line ∈ checkedLines3D, be.err line = 0) ∧
    (∀ i j k, Visited3D sv.uCorners i j k → be.setValuesErr 275 i j k = 0) ∧
    (∀ i j k, Visited3D sv.vCorners i j k → be.setValuesErr 291 i j k = 0) ∧
    (∀ i j k, Visited3D sv.wCorners i j k → be.setValuesErr 307 i j k = 0) := by
  obtain ⟨A, hA⟩ := returnCode_eq_zero _ (goodErr_generateA3D be sv) h
  simp only [generateA3D, chk_bind_eq_ok, insertLoop3D_bind_eq_ok] at hA
  obtain ⟨h187, h192, h193, h202, h203, h216, h219, h220, h233, h236, h237, h250, h253, h254,
    h255, h256, h257, h260, h261, h265, h266, A1, hU, h279, h281, h282, A2, hV, h295, h297,
    h298, A3, hW, h311, h313, h314, h316, h317, h318, h319, _⟩ := hA
  refine ⟨?_, insertLoop3D_ok_inv be 275 _ _ _ _ _ _ _ hU,
    insertLoop3D_ok_inv be 291 _ _ _ _ _ _ _ hV, insertLoop3D_ok_inv be 307 _ _ _ _ _ _ _ hW⟩
  intro line hline
  simp only [checkedLines3D, List.mem_cons, List.mem_singleton, List.not_mem_nil,
    or_false] at hline
  rcases hline with h | h | h | h | h | h | h | h | h | h | h | h | h | h | h | h | h | h |
    h | h | h | h | h | h | h | h | h | h | h | h | h | h | h | h <;> subst h <;> assumption

/-- In 2D the code of `MatDiagonalScale` (line 166) has no effect on the
returned code. -/
theorem generateA2D_ignores_line166 (be : Backend) (sv : Solver2D)
    (hset : ∀ line i j k, be.setValuesErr line i j k = 0)
    (herr : ∀ line, line ≠ 166 → be.err line = 0) :
    returnCode (generateA2D be sv) = 0 := by
  have hz : ∀ line, line ≠ 166 → chk (be.err line) = Except.ok () := by
    intro line hl
    rw [herr line hl]
    rfl
  simp only [generateA2D, hz 78 (by decide), hz 84 (by decide), hz 85 (by decide), hz 94 (by decide), hz 95 (by decide), hz 105 (by decide), hz 108 (by decide), hz 109 (by decide), hz 119 (by decide), hz 122 (by decide), hz 123 (by decide), hz 124 (by decide), hz 125 (by decide), hz 126 (by decide), hz 129 (by decide), hz 130 (by decide), hz 134 (by decide), hz 135 (by decide), hz 145 (by decide), hz 147 (by decide), hz 148 (by decide), hz 158 (by decide), hz 160 (by decide), hz 161 (by decide), hz 163 (by decide), hz 164 (by decide), hz 165 (by decide), insertLoop2D_ok_of_setValues be hset, Except.bind, returnCode]

/-! ## Theorems: error codes of `generateA` -/

/-- C12, failing input: with a backend in which every call succeeds except
`MatDiagonalScale`, the 2D `generateA` (line 166, no `CHKERRQ`) returns `0`, while
the 3D `generateA` (line 319, with `CHKERRQ`) returns the code `1` of the failed
call. -/
theorem generateA2D_drops_diagonalScale_error :
    diagonalScaleFails.err 166 = 1 ∧
    returnCode (generateA2D diagonalScaleFails uniformSolver2D) = 0 ∧
    diagonalScaleFails3D.err 319 = 1 ∧
    returnCode (generateA3D diagonalScaleFails3D uniformSolver3D) = 1 := by
  refine ⟨rfl, ?_, rfl, ?_⟩
  · exact generateA2D_ignores_line166 diagonalScaleFails uniformSolver2D
      (fun _ _ _ _ => rfl) (fun line hl => by simp [diagonalScaleFails, hl])
  · have hset : ∀ line i j k, diagonalScaleFails3D.setValuesErr line i j k = 0 :=
      fun _ _ _ _ => rfl
    simp only [generateA3D, insertLoop3D_ok_of_setValues diagonalScaleFails3D hset]
    rfl

/-! ## Lemmas: pressure-node counts -/

theorem sum_grid2D (a b : Nat → PetscInt) (m : Nat) :
    ∀ n : Nat, ((List.range (m * n)).map fun r => a (r % m) * b (r / m)).sum =
      ((List.range m).map a).sum * ((List.range n).map b).sum
  | 0 => by simp
  | n + 1 => by
      have hsplit : m * (n + 1) = m * n + m := by ring
      have hpart : ((List.range m).map fun i => a ((m * n + i) % m) * b ((m * n + i) / m)) =
          (List.range m).map fun i => a i * b n := by
        apply List.map_congr_left
        intro i hi
        have hi' : i < m := List.mem_range.mp hi
        rw [Nat.mul_add_mod, Nat.mod_eq_of_lt hi', Nat.mul_add_div (Nat.lt_of_le_of_lt (Nat.zero_le _) hi'),
          Nat.div_eq_of_lt hi', Nat.add_zero]
      rw [hsplit, List.range_add, List.map_append, List.sum_append, sum_grid2D a b m n,
        List.map_map]
      simp only [Function.comp_def]
      rw [hpart, List.sum_map_mul_right, List.range_succ, List.map_append, List.sum_append]
      simp only [List.map_cons, List.map_nil, List.sum_cons, List.sum_nil, add_zero]
      ring

theorem sum_grid3D (a b c : Nat → PetscInt) (m n : Nat) :
    ∀ p : Nat,
      ((List.range (m * n * p)).map fun r => a (r % m) * b (r / m % n) * c (r / m / n)).sum =
        ((List.range m).map a).sum * ((List.range n).map b).sum * ((List.range p).map c).sum
  | 0 => by simp
  | p + 1 => by
      have hsplit : m * n * (p + 1) = m * n * p + m * n := by ring
      have hpart : ((List.range (m * n)).map fun q =>
            a ((m * n * p + q) % m) * b ((m * n * p + q) / m % n) *
              c ((m * n * p + q) / m / n)) =
          (List.range (m * n)).map fun q => a (q % m) * b (q / m) * c p := by
        apply List.map_congr_left
        intro q hq
        have hq' : q < m * n := List.mem_range.mp hq
        have hb := rank2D_bounds hq'
        have hm : 0 < m := Nat.lt_of_le_of_lt (Nat.zero_le _) hb.1
        have hn : 0 < n := Nat.lt_of_le_of_lt (Nat.zero_le _) hb.2
        have e1 : (m * n * p + q) % m = q % m := by
          rw [Nat.mul_assoc, Nat.mul_add_mod]
        have e2 : (m * n * p + q) / m = n * p + q / m := by
          rw [Nat.mul_assoc, Nat.mul_add_div hm]
        have e3 : (n * p + q / m) % n = q / m := by
          rw [Nat.mul_add_mod, Nat.mod_eq_of_lt hb.2]
        have e4 : (n * p + q / m) / n = p := by
          rw [Nat.mul_add_div hn, Nat.div_eq_of_lt hb.2, Nat.add_zero]
        rw [e1, e2, e3, e4]
      rw [hsplit, List.range_add, List.map_append, List.sum_append, sum_grid3D a b c m n p,
        List.map_map]
      simp only [Function.comp_def]
      rw [hpart, List.sum_map_mul_right, sum_grid2D a b m n, List.range_succ, List.map_append,
        List.sum_append]
      simp only [List.map_cons, List.map_nil, List.sum_cons, List.sum_nil, add_zero]
      ring

theorem sum_getD_range (l : List Nat) :
    ((List.range l.length).map fun i => (l.getD i 0 : PetscInt)).sum = (l.sum : PetscInt) := by
  induction l using List.reverseRecOn with
  | nil => simp
  | append_singleton l x ih =>
      rw [List.length_append, List.length_singleton, List.range_succ, List.map_append,
        List.sum_append, List.sum_append]
      have hcongr : ((List.range l.length).map fun i => ((l ++ [x]).getD i 0 : PetscInt)) =
          (List.range l.length).map fun i => (l.getD i 0 : PetscInt) := by
        apply List.map_congr_left
        intro i hi
        have hi' : i < l.length := List.mem_range.mp hi
        rw [List.getD_eq_getElem _ 0 (by simp; omega), List.getD_eq_getElem _ 0 hi',
          List.getElem_append_left hi']
      rw [hcongr, ih]
      simp [List.getD_eq_getElem?_getD]

theorem afterCells_phi_eq (E : Nat → List PetscInt) (phi : Nat → PetscInt)
    (numProcs size : Nat) (s0 : BodyInfo) :
    (afterCells E phi (resizeAll numProcs size s0) numProcs).numPhiOnProcess =
      (List.range numProcs).map phi := by
  apply List.ext_getElem?
  intro r
  by_cases hr : r < numProcs
  · have hlen : r < (resizeAll numProcs size s0).numPhiOnProcess.length := by
      simp [resizeAll, length_resize, hr]
    rw [afterCells_phi E phi _ numProcs r _ (List.getElem?_eq_getElem hlen), if_pos hr]
    simp [List.getElem?_map, List.getElem?_range hr]
  · rw [List.getElem?_eq_none (by simp [afterCells, resizeAll, length_resize]; omega),
      List.getElem?_eq_none (by simp; omega)]

theorem afterCells_phi_rank (E : Nat → List PetscInt) (phi : Nat → PetscInt)
    (numProcs size K : Nat) (s0 : BodyInfo) (r : Nat) (hr : r < K) (hN : r < numProcs) :
    (afterCells E phi (resizeAll numProcs size s0) K).numPhiOnProcess[r]? = some (phi r) := by
  have hlen : r < (resizeAll numProcs size s0).numPhiOnProcess.length := by
    simp [resizeAll, length_resize, hN]
  rw [afterCells_phi E phi _ K r _ (List.getElem?_eq_getElem hlen), if_pos hr]

theorem rank2D_unique {m n r : Nat} (hr : r < m * n) :
    ∃ i j, i < m ∧ j < n ∧ r = j * m + i ∧
      ∀ i' j', i' < m → j' < n → r = j' * m + i' → i' = i ∧ j' = j := by
  have hb := rank2D_bounds hr
  refine ⟨r % m, r / m, hb.1, hb.2, ((rank2D_decode hr hb.1).mp ⟨rfl, rfl⟩), ?_⟩
  intro i' j' hi' _ h
  have := (rank2D_decode hr hi').mpr h
  exact ⟨this.1.symm, this.2.symm⟩

theorem rank3D_unique {m n p r : Nat} (hr : r < m * n * p) :
    ∃ i j k, i < m ∧ j < n ∧ k < p ∧ r = k * m * n + j * m + i ∧
      ∀ i' j' k', i' < m → j' < n → k' < p → r = k' * m * n + j' * m + i' →
        i' = i ∧ j' = j ∧ k' = k := by
  have hb := rank3D_bounds hr
  refine ⟨r % m, r / m % n, r / m / n, hb.1, hb.2.1, hb.2.2,
    ((rank3D_decode hr hb.1 hb.2.1).mp ⟨rfl, rfl, rfl⟩), ?_⟩
  intro i' j' k' hi' hj' _ h
  have := (rank3D_decode hr hi' hj').mpr h
  exact ⟨this.1.symm, this.2.1.symm, this.2.2.symm⟩

/-! ## Theorems: pressure-node counts -/

/-- C13: `generateBodyInfo` returns with `numPhiOnProcess[j*m+i] = lxp[i]*lyp[j]` in
2D and `numPhiOnProcess[k*m*n+j*m+i] = lxp[i]*lyp[j]*lzp[k]` in 3D, every written
index being in range; when the process count equals `m*n` (`m*n*p`) every index
of `numPhiOnProcess` is the rank of exactly one process cell, so it is written
exactly once, and the entries add up to `(sum of lxp) * (sum of lyp)
[* (sum of lzp)]`. -/
theorem generateBodyInfo_numPhi (pi : PartitionInfo) (mesh : CartesianMesh) (body : Body)
    (hq : QueriesOk pi) (s0 : BodyInfo) (hnn : ∀ c ∈ s0.numBoundaryPointsOnProcess, 0 ≤ c) :
    (Shape2D pi mesh body →
      ∃ s, generateBodyInfo2D pi mesh body s0 = some (0, s) ∧
        (∀ i j, i < pi.m → j < pi.n →
          j * pi.m + i < pi.numProcs ∧
          s.numPhiOnProcess[j * pi.m + i]? =
            some ((pi.lxp.getD i 0 : PetscInt) * (pi.lyp.getD j 0 : PetscInt))) ∧
        (pi.numProcs = pi.m * pi.n →
          s.numPhiOnProcess.length = pi.numProcs ∧
          (∀ r, r < pi.numProcs → ∃ i j, i < pi.m ∧ j < pi.n ∧ r = j * pi.m + i ∧
            ∀ i' j', i' < pi.m → j' < pi.n → r = j' * pi.m + i' → i' = i ∧ j' = j) ∧
          s.numPhiOnProcess.sum = (pi.lxp.sum : PetscInt) * (pi.lyp.sum : PetscInt))) ∧
    (Shape3D pi mesh body →
      ∃ s, generateBodyInfo3D pi mesh body s0 = some (0, s) ∧
        (∀ i j k, i < pi.m → j < pi.n → k < pi.p →
          k * pi.m * pi.n + j * pi.m + i < pi.numProcs ∧
          s.numPhiOnProcess[k * pi.m * pi.n + j * pi.m + i]? =
            some ((pi.lxp.getD i 0 : PetscInt) * (pi.lyp.getD j 0 : PetscInt) *
              (pi.lzp.getD k 0 : PetscInt))) ∧
        (pi.numProcs = pi.m * pi.n * pi.p →
          s.numPhiOnProcess.length = pi.numProcs ∧
          (∀ r, r < pi.numProcs → ∃ i j k, i < pi.m ∧ j < pi.n ∧ k < pi.p ∧
            r = k * pi.m * pi.n + j * pi.m + i ∧
            ∀ i' j' k', i' < pi.m → j' < pi.n → k' < pi.p →
              r = k' * pi.m * pi.n + j' * pi.m + i' → i' = i ∧ j' = j ∧ k' = k) ∧
          s.numPhiOnProcess.sum =
            (pi.lxp.sum : PetscInt) * (pi.lyp.sum : PetscInt) * (pi.lzp.sum : PetscInt))) := by
  constructor
  · intro hs
    refine ⟨_, generateBodyInfo2D_eq pi mesh body hq hs s0 hnn, ?_, ?_⟩
    · intro i j hi hj
      have hlt := rank2D_lt hi hj
      have hN : j * pi.m + i < pi.numProcs := Nat.lt_of_lt_of_le hlt hs.1
      refine ⟨hN, ?_⟩
      rw [afterCells_phi_rank _ _ _ _ _ _ _ hlt hN]
      simp only [rankPhi2D, rank2D_mod j hi, rank2D_div j hi]
    · intro hN
      refine ⟨?_, fun r hr => rank2D_unique (by rw [← hN]; exact hr), ?_⟩
      · simp [afterCells, resizeAll, length_resize]
      · rw [← hN, afterCells_phi_eq, hN]
        have h := sum_grid2D (fun i => (pi.lxp.getD i 0 : PetscInt))
          (fun j => (pi.lyp.getD j 0 : PetscInt)) pi.m pi.n
        have hx : ((List.range pi.m).map fun i => (pi.lxp.getD i 0 : PetscInt)).sum =
            (pi.lxp.sum : PetscInt) := by rw [← hs.2.1]; exact sum_getD_range _
        have hy : ((List.range pi.n).map fun j => (pi.lyp.getD j 0 : PetscInt)).sum =
            (pi.lyp.sum : PetscInt) := by rw [← hs.2.2.1]; exact sum_getD_range _
        rw [hx, hy] at h
        exact h
  · intro hs
    refine ⟨_, generateBodyInfo3D_eq pi mesh body hq hs s0 hnn, ?_, ?_⟩
    · intro i j k hi hj hk
      have hlt := rank3D_lt hi hj hk
      have hN : k * pi.m * pi.n + j * pi.m + i < pi.numProcs := Nat.lt_of_lt_of_le hlt hs.1
      refine ⟨hN, ?_⟩
      rw [afterCells_phi_rank _ _ _ _ _ _ _ hlt hN]
      simp only [rankPhi3D, rank3D_mod pi.n j k hi, rank3D_div_mod k hi hj,
        rank3D_div_div k hi hj]
    · intro hN
      refine ⟨?_, fun r hr => rank3D_unique (by rw [← hN]; exact hr), ?_⟩
      · simp [afterCells, resizeAll, length_resize]
      · rw [← hN, afterCells_phi_eq, hN]
        have h := sum_grid3D (fun i => (pi.lxp.getD i 0 : PetscInt))
          (fun j => (pi.lyp.getD j 0 : PetscInt)) (fun k => (pi.lzp.getD k 0 : PetscInt))
          pi.m pi.n pi.p
        have hx : ((List.range pi.m).map fun i => (pi.lxp.getD i 0 : PetscInt)).sum =
            (pi.lxp.sum : PetscInt) := by rw [← hs.2.1]; exact sum_getD_range _
        have hy : ((List.range pi.n).map fun j => (pi.lyp.getD j 0 : PetscInt)).sum =
            (pi.lyp.sum : PetscInt) := by rw [← hs.2.2.1]; exact sum_getD_range _
        have hz : ((List.range pi.p).map fun k => (pi.lzp.getD k 0 : PetscInt)).sum =
            (pi.lzp.sum : PetscInt) := by rw [← hs.2.2.2.1]; exact sum_getD_range _
        rw [hx, hy, hz] at h
        exact h

/-- Witness for C13: the two-process scenarios in 2D (`4 * 4` pressure nodes)
and in 3D (`4 * 2 * 2` pressure nodes). -/
theorem generateBodyInfo_numPhi_witness :
    (∃ s, generateBodyInfo2D twoProcPartition gridMesh threePoints BodyInfo.empty =
        some (0, s) ∧
      s.numPhiOnProcess.length = 2 ∧
      s.numPhiOnProcess.sum = ((4 : Nat) : PetscInt) * ((4 : Nat) : PetscInt)) ∧
    (∃ s, generateBodyInfo3D twoProcPartition3D gridMesh3D threePoints3D BodyInfo.empty =
        some (0, s) ∧
      s.numPhiOnProcess.length = 2 ∧
      s.numPhiOnProcess.sum =
        ((4 : Nat) : PetscInt) * ((2 : Nat) : PetscInt) * ((2 : Nat) : PetscInt)) :=
  ⟨match (generateBodyInfo_numPhi twoProcPartition gridMesh threePoints (by decide)
      BodyInfo.empty empty_nonneg).1 (by decide) with
    | ⟨s, hs, _, h⟩ => ⟨s, hs, (h (by decide)).1, (h (by decide)).2.2⟩,
   match (generateBodyInfo_numPhi twoProcPartition3D gridMesh3D threePoints3D (by decide)
      BodyInfo.empty empty_nonneg).2 (by decide) with
    | ⟨s, hs, _, h⟩ => ⟨s, hs, (h (by decide)).1, (h (by decide)).2.2⟩⟩

/-! ## Lemmas: whole rows of the implicit operator -/

theorem MatSetValues_untouched_neg (row r c : PetscInt) :
    ∀ (cs : List PetscInt) (vs : List PetscReal) (A : Mat),
      (∀ c' ∈ cs, c' ≠ c ∨ c' < 0) → MatSetValues A row cs vs r c = A r c
  | [], _, A, _ => by rw [MatSetValues_nil_left]
  | _ :: _, [], A, _ => by rw [MatSetValues_nil_right]
  | c0 :: cs, v :: vs, A, h => by
      rw [MatSetValues_cons, MatSetValues_untouched_neg row r c cs vs _
        (fun c' hc' => h c' (List.mem_cons_of_mem _ hc'))]
      split
      · rfl
      · next hnot =>
          simp only [setEntry]
          rw [if_neg]
          rintro ⟨_, h2⟩
          rcases h c0 (List.mem_cons_self _ _) with h0 | h0
          · exact h0 h2.symm
          · exact hnot (Or.inr h0)

theorem foldl_applyRow_col_untouched (r c : PetscInt) :
    ∀ (ops : List RowOp) (A : Mat),
      (∀ op ∈ ops, op.row ≠ r ∨ ∀ c' ∈ op.cols, c' ≠ c ∨ c' < 0) →
      ops.foldl applyRow A r c = A r c
  | [], _, _ => rfl
  | op :: ops, A, h => by
      rw [List.foldl_cons, foldl_applyRow_col_untouched r c ops _
        (fun o ho => h o (List.mem_cons_of_mem _ ho))]
      rcases h op (List.mem_cons_self _ _) with h1 | h1
      · exact MatSetValues_untouched op.row r c op.cols op.values A (Or.inl h1.symm)
      · exact MatSetValues_untouched_neg op.row r c op.cols op.values A h1

theorem rowsDistinct_eq (ops : List RowOp) (hd : RowsDistinct ops) (op o : RowOp)
    (hop : op ∈ ops) (ho : o ∈ ops) (hrow : o.row = op.row) : o = op := by
  by_contra hne
  exact List.Pairwise.forall (fun _ _ h => Ne.symm h) hd ho hop hne hrow

/-- A row has no entry outside the non-negative columns its call names. -/
theorem stencilMatrix_zero (ops : List RowOp) (op : RowOp) (hmem : op ∈ ops)
    (hd : RowsDistinct ops) (c : PetscInt) (hc : ∀ c' ∈ op.cols, c' ≠ c ∨ c' < 0) :
    stencilMatrix ops op.row c = 0 := by
  unfold stencilMatrix
  rw [foldl_applyRow_col_untouched op.row c ops Mat.zero]
  · rfl
  · intro o ho
    by_cases hrow : o.row = op.row
    · rw [rowsDistinct_eq ops hd op o hmem ho hrow]
      exact Or.inr hc
    · exact Or.inl hrow

theorem preScaling_zero (nu alphaImplicit dt : PetscReal) (ops : List RowOp) (op : RowOp)
    (hmem : op ∈ ops) (hd : RowsDistinct ops) (c : PetscInt)
    (hc : ∀ c' ∈ op.cols, c' ≠ c ∨ c' < 0) (hne : op.row ≠ c) :
    preScaling nu alphaImplicit dt ops op.row c = 0 := by
  rw [preScaling_apply, stencilMatrix_zero ops op hmem hd c hc, if_neg hne]
  ring

theorem map_eq_of_getD {α β : Type} (cs : List α) (vs : List β) (d : α) (e : β)
    (f : α → PetscReal) (g : β → PetscReal) (hlen : cs.length = vs.length)
    (h : ∀ p, p < cs.length → f (cs.getD p d) = g (vs.getD p e)) :
    cs.map f = vs.map g := by
  apply List.ext_getElem
  · simp [hlen]
  · intro p h1 h2
    have hp : p < cs.length := by simpa using h1
    have hq : p < vs.length := by simpa using h2
    have := h p hp
    rw [List.getD_eq_getElem cs d hp, List.getD_eq_getElem vs e hq] at this
    simpa using this

/-- The invariants of an inserted row all of whose columns are unknowns of the
system: non-negative and pairwise different. -/
theorem preScaling_row_invariants (nu alphaImplicit dt : PetscReal) (ops : List RowOp)
    (op : RowOp) (width : Nat) (hw : 0 < width) (hmem : op ∈ ops) (hd : RowsDistinct ops)
    (hshape : RowShape width op) (hcols : DistinctColumns op.cols)
    (hnonneg : ∀ c ∈ op.cols, 0 ≤ c) (hsum : op.values.sum = 0)
    (hcentre : op.values.getD 0 0 < 0)
    (hneigh : ∀ p, 0 < p → p < width → 0 < op.values.getD p 0)
    (hna : 0 ≤ nu * alphaImplicit) (hdt : 0 < dt) :
    (op.cols.map (preScaling nu alphaImplicit dt ops op.row)).sum = 1 / dt ∧
    (∀ c, c ∉ op.cols → preScaling nu alphaImplicit dt ops op.row c = 0) ∧
    0 < preScaling nu alphaImplicit dt ops op.row op.row ∧
    (∀ p, 0 < p → p < width →
      preScaling nu alphaImplicit dt ops op.row (op.cols.getD p 0) ≤ 0) ∧
    preScaling nu alphaImplicit dt ops op.row op.row -
      (op.cols.tail.map fun c => |preScaling nu alphaImplicit dt ops op.row c|).sum =
        1 / dt := by
  obtain ⟨row, cols, values⟩ := op
  obtain ⟨hhead, hlc, hlv⟩ := hshape
  simp only at hhead hlc hlv hcols hnonneg hsum hcentre hneigh ⊢
  cases cols with
  | nil => simp at hlc; omega
  | cons c0 cs =>
  cases values with
  | nil => simp at hlv; omega
  | cons v0 vs =>
  simp only [List.getD_cons_zero] at hhead hcentre
  subst hhead
  have hrow : 0 ≤ row := hnonneg row (List.mem_cons_self _ _)
  have key := preScaling_row nu alphaImplicit dt ops ⟨row, row :: cs, v0 :: vs⟩ width hw hmem hd
    ⟨rfl, hlc, hlv⟩ hrow hcols
  simp only [List.getD_cons_zero] at key
  have hlen : cs.length = vs.length := by
    simp only [List.length_cons] at hlc hlv
    omega
  have htail : ∀ p, p < cs.length →
      preScaling nu alphaImplicit dt ops row (cs.getD p 0) =
        -(nu * alphaImplicit * vs.getD p 0) := by
    intro p hp
    have hc : 0 ≤ cs.getD p 0 := by
      rw [List.getD_eq_getElem cs 0 hp]
      exact hnonneg _ (List.mem_cons_of_mem _ (List.getElem_mem hp))
    have := key.2 (p + 1) (by omega) (by simp only [List.length_cons] at hlc; omega)
      (by simpa using hc)
    simpa using this
  have hvpos : ∀ p, p < vs.length → 0 < vs.getD p 0 := by
    intro p hp
    have := hneigh (p + 1) (by omega) (by simp only [List.length_cons] at hlv; omega)
    simpa using this
  have hmap : cs.map (preScaling nu alphaImplicit dt ops row) =
      vs.map (fun v => -(nu * alphaImplicit) * v) :=
    map_eq_of_getD cs vs 0 0 _ _ hlen (fun p hp => by rw [htail p hp]; ring)
  have hmapabs : cs.map (fun c => |preScaling nu alphaImplicit dt ops row c|) =
      vs.map (fun v => nu * alphaImplicit * v) :=
    map_eq_of_getD cs vs 0 0 _ _ hlen (fun p hp => by
      rw [htail p hp, abs_neg, abs_of_nonneg]
      exact mul_nonneg hna (le_of_lt (hvpos p (by omega))))
  have hvsum : vs.sum = -v0 := by
    simp only [List.sum_cons] at hsum
    linarith
  refine ⟨?_, ?_, ?_, ?_, ?_⟩
  · rw [List.map_cons, List.sum_cons, key.1, hmap, List.sum_map_mul_left, List.map_id', hvsum]
    ring
  · intro c hc
    have hne : row ≠ c := fun e => hc (by rw [← e]; exact List.mem_cons_self _ _)
    exact preScaling_zero nu alphaImplicit dt ops ⟨row, row :: cs, v0 :: vs⟩ hmem hd c
      (fun c' hc' => Or.inl (fun e => hc (by rw [← e]; exact hc'))) hne
  · rw [key.1]
    have h1 : 0 < 1 / dt := by positivity
    have h2 : nu * alphaImplicit * v0 ≤ 0 :=
      mul_nonpos_of_nonneg_of_nonpos hna (le_of_lt hcentre)
    linarith
  · intro p hp0 hp
    obtain ⟨q, rfl⟩ : ∃ q, p = q + 1 := ⟨p - 1, by omega⟩
    simp only [List.getD_cons_succ]
    have hq : q < cs.length := by simp only [List.length_cons] at hlc; omega
    rw [htail q hq]
    have := mul_nonneg hna (le_of_lt (hvpos q (by omega)))
    linarith
  · rw [List.tail_cons, hmapabs, key.1, List.sum_map_mul_left, List.map_id', hvsum]
    ring

theorem rowOp2D_values (g : PetscInt → PetscInt → PetscReal) (dx dy : PetscInt → PetscReal)
    (hx : ∀ i, 0 < dx i) (hy : ∀ j, 0 < dy j) (i j : PetscInt) :
    (rowOp2D g dx dy i j).values.sum = 0 ∧ (rowOp2D g dx dy i j).values.getD 0 0 < 0 ∧
    ∀ p, 0 < p → p < 5 → 0 < (rowOp2D g dx dy i j).values.getD p 0 := by
  have h1 := hx i
  have h2 := hx (i + 1)
  have h3 := hy j
  have h4 := hy (j + 1)
  have hs := getCoefficients2D_signs (dx i) (dx (i + 1)) (dy j) (dy (j + 1)) h1 h2 h3 h4
  exact ⟨getCoefficients2D_sum _ _ _ _ (ne_of_gt h1) (ne_of_gt h2) (ne_of_gt h3) (ne_of_gt h4)
    (ne_of_gt (by linarith)) (ne_of_gt (by linarith)), hs.1, hs.2⟩

theorem rowOp3D_values (g : PetscInt → PetscInt → PetscInt → PetscReal)
    (dx dy dz : PetscInt → PetscReal)
    (hx : ∀ i, 0 < dx i) (hy : ∀ j, 0 < dy j) (hz : ∀ k, 0 < dz k) (i j k : PetscInt) :
    (rowOp3D g dx dy dz i j k).values.sum = 0 ∧
    (rowOp3D g dx dy dz i j k).values.getD 0 0 < 0 ∧
    ∀ p, 0 < p → p < 7 → 0 < (rowOp3D g dx dy dz i j k).values.getD p 0 := by
  have h1 := hx i
  have h2 := hx (i + 1)
  have h3 := hy j
  have h4 := hy (j + 1)
  have h5 := hz k
  have h6 := hz (k + 1)
  have hs := getCoefficients3D_signs (dx i) (dx (i + 1)) (dy j) (dy (j + 1)) (dz k)
    (dz (k + 1)) h1 h2 h3 h4 h5 h6
  exact ⟨getCoefficients3D_sum _ _ _ _ _ _ (ne_of_gt h1) (ne_of_gt h2) (ne_of_gt h3)
    (ne_of_gt h4) (ne_of_gt h5) (ne_of_gt h6) (ne_of_gt (by linarith)) (ne_of_gt (by linarith))
    (ne_of_gt (by linarith)), hs.1, hs.2⟩

theorem rowOps2D_values (sv : Solver2D) (hp : PositiveSpacings2D sv) (op : RowOp)
    (h : op ∈ rowOps2D sv) :
    op.values.sum = 0 ∧ op.values.getD 0 0 < 0 ∧
    ∀ p, 0 < p → p < 5 → 0 < op.values.getD p 0 := by
  obtain ⟨hxu, hyu, hxv, hyv⟩ := hp
  rcases List.mem_append.mp h with h | h
  · obtain ⟨i, j, _, _, rfl⟩ := (mem_componentOps2D _ _ _ _ op).mp h
    exact rowOp2D_values _ _ _ hxu hyu i j
  · obtain ⟨i, j, _, _, rfl⟩ := (mem_componentOps2D _ _ _ _ op).mp h
    exact rowOp2D_values _ _ _ hxv hyv i j

theorem rowOps3D_values (sv : Solver3D) (hp : PositiveSpacings3D sv) (op : RowOp)
    (h : op ∈ rowOps3D sv) :
    op.values.sum = 0 ∧ op.values.getD 0 0 < 0 ∧
    ∀ p, 0 < p → p < 7 → 0 < op.values.getD p 0 := by
  obtain ⟨hxu, hyu, hzu, hxv, hyv, hzv, hxw, hyw, hzw⟩ := hp
  rcases List.mem_append.mp h with h | h
  · obtain ⟨i, j, k, _, _, _, rfl⟩ := (mem_componentOps3D _ _ _ _ _ op).mp h
    exact rowOp3D_values _ _ _ _ hxu hyu hzu i j k
  · rcases List.mem_append.mp h with h | h
    · obtain ⟨i, j, k, _, _, _, rfl⟩ := (mem_componentOps3D _ _ _ _ _ op).mp h
      exact rowOp3D_values _ _ _ _ hxv hyv hzv i j k
    · obtain ⟨i, j, k, _, _, _, rfl⟩ := (mem_componentOps3D _ _ _ _ _ op).mp h
      exact rowOp3D_values _ _ _ _ hxw hyw hzw i j k

/-- The signs in any inserted row: a positive diagonal entry and non-positive
entries at the neighbour columns that are stored. -/
theorem preScaling_row_signs (nu alphaImplicit dt : PetscReal) (ops : List RowOp)
    (op : RowOp) (width : Nat) (hw : 0 < width) (hmem : op ∈ ops) (hd : RowsDistinct ops)
    (hshape : RowShape width op) (hrow : 0 ≤ op.row) (hcols : DistinctColumns op.cols)
    (hcentre : op.values.getD 0 0 < 0)
    (hneigh : ∀ p, 0 < p → p < width → 0 < op.values.getD p 0)
    (hna : 0 ≤ nu * alphaImplicit) (hdt : 0 < dt) :
    0 < preScaling nu alphaImplicit dt ops op.row op.row ∧
    ∀ p, 0 < p → p < width → 0 ≤ op.cols.getD p 0 →
      preScaling nu alphaImplicit dt ops op.row (op.cols.getD p 0) ≤ 0 := by
  have key := preScaling_row nu alphaImplicit dt ops op width hw hmem hd hshape hrow hcols
  constructor
  · rw [key.1]
    have h1 : 0 < 1 / dt := by positivity
    have h2 : nu * alphaImplicit * op.values.getD 0 0 ≤ 0 :=
      mul_nonpos_of_nonneg_of_nonpos hna (le_of_lt hcentre)
    linarith
  · intro p hp0 hp hc
    rw [key.2 p hp0 hp hc]
    have := mul_nonneg hna (le_of_lt (hneigh p hp0 hp))
    linarith

/-- The stored part of a sum is bounded by the whole when every term is
non-negative. -/
theorem sum_filter_nonneg_le (f : PetscInt → PetscReal) (g : PetscReal → PetscReal) :
    ∀ (cs : List PetscInt) (vs : List PetscReal), cs.length = vs.length →
      (∀ p, p < cs.length → 0 ≤ cs.getD p 0 → f (cs.getD p 0) = g (vs.getD p 0)) →
      (∀ p, p < vs.length → 0 ≤ g (vs.getD p 0)) →
      ((cs.filter fun c => decide (0 ≤ c)).map f).sum ≤ (vs.map g).sum
  | [], [], _, _, _ => by simp
  | [], _ :: _, hlen, _, _ => by simp at hlen
  | _ :: _, [], hlen, _, _ => by simp at hlen
  | c :: cs, v :: vs, hlen, hf, hg => by
      have hlen' : cs.length = vs.length := by simpa using hlen
      have ih := sum_filter_nonneg_le f g cs vs hlen'
        (fun p hp hc => by
          have := hf (p + 1) (by simp only [List.length_cons]; omega) (by simpa using hc)
          simpa using this)
        (fun p hp => by
          have := hg (p + 1) (by simp only [List.length_cons]; omega)
          simpa using this)
      have hv : 0 ≤ g v := by
        have := hg 0 (by simp)
        simpa using this
      by_cases hc : 0 ≤ c
      · have hfc : f c = g v := by
          have := hf 0 (by simp) (by simpa using hc)
          simpa using this
        simp only [List.filter_cons, hc, decide_True, if_true, List.map_cons, List.sum_cons, hfc]
        linarith
      · simp only [List.filter_cons, hc, decide_False, List.map_cons, List.sum_cons]
        simp only [Bool.false_eq_true, if_false]
        linarith

/-- The non-negative members of a list of distinct columns have no duplicate. -/
theorem distinctColumns_filter_nodup (cs : List PetscInt) (h : DistinctColumns cs) :
    (cs.filter fun c => decide (0 ≤ c)).Nodup := by
  have h1 : (cs.filter fun c => decide (0 ≤ c)).Pairwise fun a b => 0 ≤ a → a ≠ b :=
    List.Pairwise.filter _ h
  exact List.Pairwise.imp_of_mem
    (fun {a b} ha _ hab => hab (of_decide_eq_true (List.mem_filter.mp ha).2)) h1

/-- A finite sum of absolute values of entries that vanish outside a duplicate-free
list is bounded by the sum over the list. -/
theorem finset_sum_abs_le_list (f : PetscInt → PetscReal) (T : List PetscInt) (hT : T.Nodup)
    (S : Finset PetscInt) (hz : ∀ c ∈ S, c ∉ T → f c = 0) :
    (S.sum fun c => |f c|) ≤ (T.map fun c => |f c|).sum := by
  rw [← List.sum_toFinset _ hT]
  have h1 : (S.filter fun c => c ∈ T).sum (fun c => |f c|) = S.sum fun c => |f c| := by
    apply Finset.sum_filter_of_ne
    intro c hc hne
    by_contra hcT
    exact hne (by rw [hz c hc hcT, abs_zero])
  rw [← h1]
  apply Finset.sum_le_sum_of_subset_of_nonneg
  · intro c hc
    exact List.mem_toFinset.mpr (Finset.mem_filter.mp hc).2
  · intro c _ _
    exact abs_nonneg _

/-- A finite sum is bounded below by minus the sum of the absolute values. -/
theorem finset_sum_ge_neg_abs (f : PetscInt → PetscReal) (S : Finset PetscInt) :
    -(S.sum fun c => |f c|) ≤ S.sum f := by
  rw [← Finset.sum_neg_distrib]
  exact Finset.sum_le_sum fun c _ => neg_abs_le (f c)

/-- Strict diagonal dominance of any inserted row, ghost neighbours included:
every off-diagonal entry is non-positive, the diagonal entry exceeds the sum of
the absolute values of any finite family of off-diagonal entries by at least
`1/dt > 0`, and the entries of any finite family of columns containing the
diagonal sum to at least `1/dt`. -/
theorem preScaling_row_dominant (nu alphaImplicit dt : PetscReal) (ops : List RowOp)
    (op : RowOp) (width : Nat) (hw : 0 < width) (hmem : op ∈ ops) (hd : RowsDistinct ops)
    (hshape : RowShape width op) (hrow : 0 ≤ op.row) (hcols : DistinctColumns op.cols)
    (hsum : op.values.sum = 0) (hcentre : op.values.getD 0 0 < 0)
    (hneigh : ∀ p, 0 < p → p < width → 0 < op.values.getD p 0)
    (hna : 0 ≤ nu * alphaImplicit) (hdt : 0 < dt) :
    (∀ c, c ≠ op.row → preScaling nu alphaImplicit dt ops op.row c ≤ 0) ∧
    0 < 1 / dt ∧
    (∀ S : Finset PetscInt, op.row ∉ S →
      1 / dt ≤ preScaling nu alphaImplicit dt ops op.row op.row -
        S.sum fun c => |preScaling nu alphaImplicit dt ops op.row c|) ∧
    (∀ S : Finset PetscInt, op.row ∈ S →
      1 / dt ≤ S.sum (preScaling nu alphaImplicit dt ops op.row)) := by
  have hzero : ∀ c, c ≠ op.row → (∀ c' ∈ op.cols, c' ≠ c ∨ c' < 0) →
      preScaling nu alphaImplicit dt ops op.row c = 0 :=
    fun c hne hc => preScaling_zero nu alphaImplicit dt ops op hmem hd c hc (Ne.symm hne)
  obtain ⟨row, cols, values⟩ := op
  obtain ⟨hhead, hlc, hlv⟩ := hshape
  simp only at hhead hlc hlv hcols hrow hsum hcentre hneigh hzero ⊢
  cases cols with
  | nil => simp at hlc; omega
  | cons c0 cs =>
  cases values with
  | nil => simp at hlv; omega
  | cons v0 vs =>
  simp only [List.getD_cons_zero] at hhead hcentre
  subst hhead
  have key := preScaling_row nu alphaImplicit dt ops ⟨row, row :: cs, v0 :: vs⟩ width hw hmem hd
    ⟨rfl, hlc, hlv⟩ hrow hcols
  simp only [List.getD_cons_zero] at key
  have hlen : cs.length = vs.length := by
    simp only [List.length_cons] at hlc hlv
    omega
  have htail : ∀ p, p < cs.length → 0 ≤ cs.getD p 0 →
      preScaling nu alphaImplicit dt ops row (cs.getD p 0) =
        -(nu * alphaImplicit * vs.getD p 0) := by
    intro p hp hc
    have := key.2 (p + 1) (by omega) (by simp only [List.length_cons] at hlc; omega)
      (by simpa using hc)
    simpa using this
  have hvpos : ∀ p, p < vs.length → 0 < vs.getD p 0 := by
    intro p hp
    have := hneigh (p + 1) (by omega) (by simp only [List.length_cons] at hlv; omega)
    simpa using this
  have hvsum : vs.sum = -v0 := by
    simp only [List.sum_cons] at hsum
    linarith
  have hbound := sum_filter_nonneg_le
    (fun c => |preScaling nu alphaImplicit dt ops row c|) (fun v => nu * alphaImplicit * v)
    cs vs hlen
    (fun p hp hc => by
      simp only
      rw [htail p hp hc, abs_neg, abs_of_nonneg]
      exact mul_nonneg hna (le_of_lt (hvpos p (by omega))))
    (fun p hp => mul_nonneg hna (le_of_lt (hvpos p hp)))
  rw [List.sum_map_mul_left, List.map_id', hvsum] at hbound
  have hstored : ∀ c ∈ cs.filter (fun c => decide (0 ≤ c)),
      preScaling nu alphaImplicit dt ops row c ≤ 0 := by
    intro c hc
    obtain ⟨hcmem, hc0⟩ := List.mem_filter.mp hc
    have hc0' : 0 ≤ c := of_decide_eq_true hc0
    obtain ⟨p, hp, rfl⟩ := List.mem_iff_getElem.mp hcmem
    have := htail p hp (by rw [List.getD_eq_getElem cs 0 hp]; exact hc0')
    rw [List.getD_eq_getElem cs 0 hp] at this
    rw [this]
    have := mul_nonneg hna (le_of_lt (hvpos p (by omega)))
    linarith
  have hout : ∀ c, c ≠ row → c ∉ cs.filter (fun c => decide (0 ≤ c)) →
      preScaling nu alphaImplicit dt ops row c = 0 := by
    intro c hne hc
    apply hzero c hne
    intro c' hc'
    rcases List.mem_cons.mp hc' with h | h
    · exact Or.inl (by rw [h]; exact Ne.symm hne)
    · by_cases hcc : c' = c
      · refine Or.inr (lt_of_not_le fun h0 => hc ?_)
        rw [← hcc]
        exact List.mem_filter.mpr ⟨h, decide_eq_true h0⟩
      · exact Or.inl hcc
  have h1 : 0 < 1 / dt := by positivity
  have hnodup := distinctColumns_filter_nodup cs (List.Pairwise.of_cons hcols)
  have hdom : ∀ S : Finset PetscInt, row ∉ S →
      1 / dt ≤ preScaling nu alphaImplicit dt ops row row -
        S.sum fun c => |preScaling nu alphaImplicit dt ops row c| := by
    intro S hS
    have := finset_sum_abs_le_list (preScaling nu alphaImplicit dt ops row) _ hnodup S
      (fun c hc hcT => hout c (fun e => hS (e ▸ hc)) hcT)
    rw [key.1]
    linarith
  refine ⟨?_, h1, hdom, ?_⟩
  · intro c hne
    by_cases hc : c ∈ cs.filter (fun c => decide (0 ≤ c))
    · exact hstored c hc
    · exact le_of_eq (hout c hne hc)
  · intro S hS
    have h2 := hdom (S.erase row) (Finset.not_mem_erase row S)
    have h3 := finset_sum_ge_neg_abs (preScaling nu alphaImplicit dt ops row) (S.erase row)
    rw [← Finset.add_sum_erase S _ hS]
    linarith

theorem uniform_positive : PositiveSpacings2D uniformSolver2D := by
  refine ⟨fun _ => ?_, fun _ => ?_, fun _ => ?_, fun _ => ?_⟩ <;>
    simp only [uniformSolver2D] <;> norm_num

theorem uniform_nu_alpha : 0 ≤ uniformSolver2D.nu * uniformSolver2D.alphaImplicit := by
  simp only [uniformSolver2D]
  norm_num

theorem uniform_dt : 0 < uniformSolver2D.dt := by
  simp only [uniformSolver2D]
  norm_num

theorem corner_mem_uniform :
    rowOp2D uniformSolver2D.uGlobalIdx uniformSolver2D.dxU uniformSolver2D.dyU 1 1 ∈
      rowOps2D uniformSolver2D :=
  List.mem_append_left _
    ((mem_componentOps2D _ _ _ _ _).mpr ⟨1, 1, by decide, by decide, rfl⟩)

/-! ## Theorems: row invariants of the implicit operator -/

/-- C14, counterexample: on the uniform 3×3 grid with positive spacings,
`nu * alpha = 1 >= 0` and `dt = 1 > 0`, the corner node `(1, 1)` has the columns
`[0, -1, 1, -1, 3]`; the two ghost columns are ignored, so before diagonal
scaling row `0` has the entries `5`, `-1`, `-1` and zero elsewhere: they sum to
`3`, and the diagonal minus the absolute off-diagonal entries is `3`, not
`1/dt = 1`. -/
theorem generateA_row_sum_counterexample :
    PositiveSpacings2D uniformSolver2D ∧
    0 ≤ uniformSolver2D.nu * uniformSolver2D.alphaImplicit ∧ 0 < uniformSolver2D.dt ∧
    generateA2D okBackend uniformSolver2D = Except.ok (MatDiagonalScale
      (preScaling uniformSolver2D.nu uniformSolver2D.alphaImplicit uniformSolver2D.dt
        (rowOps2D uniformSolver2D)) uniformSolver2D.MHat uniformSolver2D.RInv) ∧
    (rowOp2D uniformSolver2D.uGlobalIdx uniformSolver2D.dxU uniformSolver2D.dyU 1 1).cols =
      [0, -1, 1, -1, 3] ∧
    preScaling uniformSolver2D.nu uniformSolver2D.alphaImplicit uniformSolver2D.dt
      (rowOps2D uniformSolver2D) 0 0 = 5 ∧
    preScaling uniformSolver2D.nu uniformSolver2D.alphaImplicit uniformSolver2D.dt
      (rowOps2D uniformSolver2D) 0 1 = -1 ∧
    preScaling uniformSolver2D.nu uniformSolver2D.alphaImplicit uniformSolver2D.dt
      (rowOps2D uniformSolver2D) 0 3 = -1 ∧
    (∀ c : PetscInt, c ≠ 0 → c ≠ 1 → c ≠ 3 →
      preScaling uniformSolver2D.nu uniformSolver2D.alphaImplicit uniformSolver2D.dt
        (rowOps2D uniformSolver2D) 0 c = 0) ∧
    (5 : PetscReal) + -1 + -1 ≠ 1 / uniformSolver2D.dt ∧
    (5 : PetscReal) - (|(-1 : PetscReal)| + |(-1 : PetscReal)|) ≠ 1 / uniformSolver2D.dt := by
  have hrow : (rowOp2D uniformSolver2D.uGlobalIdx uniformSolver2D.dxU
      uniformSolver2D.dyU 1 1).row = 0 := by decide
  have hcols : (rowOp2D uniformSolver2D.uGlobalIdx uniformSolver2D.dxU
      uniformSolver2D.dyU 1 1).cols = [0, -1, 1, -1, 3] := by decide
  have hvals : (rowOp2D uniformSolver2D.uGlobalIdx uniformSolver2D.dxU
      uniformSolver2D.dyU 1 1).values = [-4, 1, 1, 1, 1] := by
    simp only [rowOp2D, getCoefficients2D, uniformSolver2D]
    norm_num
  have key := preScaling_row uniformSolver2D.nu uniformSolver2D.alphaImplicit
    uniformSolver2D.dt (rowOps2D uniformSolver2D) _ 5 (by decide) corner_mem_uniform
    (by decide) (rowShape_rowOp2D _ _ _ _ _) (by decide) (by decide)
  rw [hrow, hcols, hvals] at key
  have hzero := fun c hc hne => preScaling_zero uniformSolver2D.nu
    uniformSolver2D.alphaImplicit uniformSolver2D.dt (rowOps2D uniformSolver2D) _
    corner_mem_uniform (by decide) c hc hne
  rw [hrow, hcols] at hzero
  have hdt : uniformSolver2D.dt = 1 := rfl
  have hnu : uniformSolver2D.nu = 1 := rfl
  have hal : uniformSolver2D.alphaImplicit = 1 := rfl
  refine ⟨uniform_positive, uniform_nu_alpha, uniform_dt,
    generateA2D_ok okBackend okBackend_allOk uniformSolver2D, hcols, ?_, ?_, ?_, ?_, ?_, ?_⟩
  · rw [key.1, hdt, hnu, hal]
    norm_num
  · have := key.2 2 (by decide) (by decide) (by decide)
    simp only [List.getD_cons_succ, List.getD_cons_zero] at this
    rw [this, hnu, hal]
    norm_num
  · have := key.2 4 (by decide) (by decide) (by decide)
    simp only [List.getD_cons_succ, List.getD_cons_zero] at this
    rw [this, hnu, hal]
    norm_num
  · intro c h0 h1 h3
    apply hzero c _ (fun e => h0 e.symm)
    intro c' hc'
    simp only [List.mem_cons, List.mem_singleton, List.not_mem_nil, or_false] at hc'
    rcases hc' with h | h | h | h | h
    · exact Or.inl (by rw [h]; exact fun e => h0 e.symm)
    · exact Or.inr (by rw [h]; decide)
    · exact Or.inl (by rw [h]; exact fun e => h1 e.symm)
    · exact Or.inr (by rw [h]; decide)
    · exact Or.inl (by rw [h]; exact fun e => h3 e.symm)
  · rw [hdt]
    norm_num
  · rw [hdt]
    norm_num

/-- C14, amended: for all positive spacings the values returned by
`getCoefficients` sum to zero with a negative centre and positive neighbours, in
2D and in 3D; hence, for `nu * alpha >= 0` and `dt > 0`, when the rows
`generateA` inserts have pairwise different row indices, every inserted row
with a non-negative row index whose non-negative column indices are pairwise
different has, before diagonal scaling, a positive diagonal entry and
non-positive off-diagonal entries and is strictly diagonally dominant: the
diagonal minus the sum of the absolute values of any finite family of
off-diagonal entries is at least `1/dt > 0`, and the entries of any finite
family of columns containing the diagonal sum to at least `1/dt`. When in
addition all column indices of the row are non-negative, the entries sum to
exactly `1/dt` and the diagonal minus the sum of the absolute off-diagonal
entries equals `1/dt`. -/
theorem generateA_row_invariants (be : Backend) (hbe : AllOk be) :
    (∀ a b c d : PetscReal, 0 < a → 0 < b → 0 < c → 0 < d →
      (getCoefficients2D a b c d).sum = 0 ∧ (getCoefficients2D a b c d).getD 0 0 < 0 ∧
      ∀ p, 0 < p → p < 5 → 0 < (getCoefficients2D a b c d).getD p 0) ∧
    (∀ a b c d e f : PetscReal, 0 < a → 0 < b → 0 < c → 0 < d → 0 < e → 0 < f →
      (getCoefficients3D a b c d e f).sum = 0 ∧ (getCoefficients3D a b c d e f).getD 0 0 < 0 ∧
      ∀ p, 0 < p → p < 7 → 0 < (getCoefficients3D a b c d e f).getD p 0) ∧
    (∀ sv : Solver2D, 0 ≤ sv.nu * sv.alphaImplicit → 0 < sv.dt → PositiveSpacings2D sv →
      generateA2D be sv = Except.ok (MatDiagonalScale
        (preScaling sv.nu sv.alphaImplicit sv.dt (rowOps2D sv)) sv.MHat sv.RInv) ∧
      ∀ op, op ∈ rowOps2D sv → RowsDistinct (rowOps2D sv) → DistinctColumns op.cols →
        (0 ≤ op.row →
          0 < preScaling sv.nu sv.alphaImplicit sv.dt (rowOps2D sv) op.row op.row ∧
          (∀ p, 0 < p → p < 5 → 0 ≤ op.cols.getD p 0 →
            preScaling sv.nu sv.alphaImplicit sv.dt (rowOps2D sv) op.row
              (op.cols.getD p 0) ≤ 0) ∧
          (∀ c, c ≠ op.row →
            preScaling sv.nu sv.alphaImplicit sv.dt (rowOps2D sv) op.row c ≤ 0) ∧
          0 < 1 / sv.dt ∧
          (∀ S : Finset PetscInt, op.row ∉ S →
            1 / sv.dt ≤ preScaling sv.nu sv.alphaImplicit sv.dt (rowOps2D sv) op.row op.row -
              S.sum fun c => |preScaling sv.nu sv.alphaImplicit sv.dt (rowOps2D sv) op.row c|) ∧
          (∀ S : Finset PetscInt, op.row ∈ S →
            1 / sv.dt ≤ S.sum (preScaling sv.nu sv.alphaImplicit sv.dt (rowOps2D sv) op.row))) ∧
        ((∀ c ∈ op.cols, 0 ≤ c) →
          (op.cols.map (preScaling sv.nu sv.alphaImplicit sv.dt (rowOps2D sv) op.row)).sum =
            1 / sv.dt ∧
          (∀ c, c ∉ op.cols →
            preScaling sv.nu sv.alphaImplicit sv.dt (rowOps2D sv) op.row c = 0) ∧
          preScaling sv.nu sv.alphaImplicit sv.dt (rowOps2D sv) op.row op.row -
            (op.cols.tail.map fun c =>
              |preScaling sv.nu sv.alphaImplicit sv.dt (rowOps2D sv) op.row c|).sum =
            1 / sv.dt)) ∧
    (∀ sv : Solver3D, 0 ≤ sv.nu * sv.alphaImplicit → 0 < sv.dt → PositiveSpacings3D sv →
      generateA3D be sv = Except.ok (MatDiagonalScale
        (preScaling sv.nu sv.alphaImplicit sv.dt (rowOps3D sv)) sv.MHat sv.RInv) ∧
      ∀ op, op ∈ rowOps3D sv → RowsDistinct (rowOps3D sv) → DistinctColumns op.cols →
        (0 ≤ op.row →
          0 < preScaling sv.nu sv.alphaImplicit sv.dt (rowOps3D sv) op.row op.row ∧
          (∀ p, 0 < p → p < 7 → 0 ≤ op.cols.getD p 0 →
            preScaling sv.nu sv.alphaImplicit sv.dt (rowOps3D sv) op.row
              (op.cols.getD p 0) ≤ 0) ∧
          (∀ c, c ≠ op.row →
            preScaling sv.nu sv.alphaImplicit sv.dt (rowOps3D sv) op.row c ≤ 0) ∧
          0 < 1 / sv.dt ∧
          (∀ S : Finset PetscInt, op.row ∉ S →
            1 / sv.dt ≤ preScaling sv.nu sv.alphaImplicit sv.dt (rowOps3D sv) op.row op.row -
              S.sum fun c => |preScaling sv.nu sv.alphaImplicit sv.dt (rowOps3D sv) op.row c|) ∧
          (∀ S : Finset PetscInt, op.row ∈ S →
            1 / sv.dt ≤ S.sum (preScaling sv.nu sv.alphaImplicit sv.dt (rowOps3D sv) op.row))) ∧
        ((∀ c ∈ op.cols, 0 ≤ c) →
          (op.cols.map (preScaling sv.nu sv.alphaImplicit sv.dt (rowOps3D sv) op.row)).sum =
            1 / sv.dt ∧
          (∀ c, c ∉ op.cols →
            preScaling sv.nu sv.alphaImplicit sv.dt (rowOps3D sv) op.row c = 0) ∧
          preScaling sv.nu sv.alphaImplicit sv.dt (rowOps3D sv) op.row op.row -
            (op.cols.tail.map fun c =>
              |preScaling sv.nu sv.alphaImplicit sv.dt (rowOps3D sv) op.row c|).sum =
            1 / sv.dt)) := by
  refine ⟨?_, ?_, ?_, ?_⟩
  · intro a b c d ha hb hc hd
    have hs := getCoefficients2D_signs a b c d ha hb hc hd
    exact ⟨getCoefficients2D_sum _ _ _ _ (ne_of_gt ha) (ne_of_gt hb) (ne_of_gt hc) (ne_of_gt hd)
      (ne_of_gt (by linarith)) (ne_of_gt (by linarith)), hs.1, hs.2⟩
  · intro a b c d e f ha hb hc hd he hf
    have hs := getCoefficients3D_signs a b c d e f ha hb hc hd he hf
    exact ⟨getCoefficients3D_sum _ _ _ _ _ _ (ne_of_gt ha) (ne_of_gt hb) (ne_of_gt hc)
      (ne_of_gt hd) (ne_of_gt he) (ne_of_gt hf) (ne_of_gt (by linarith))
      (ne_of_gt (by linarith)) (ne_of_gt (by linarith)), hs.1, hs.2⟩
  · intro sv hna hdt hp
    refine ⟨generateA2D_ok be hbe sv, fun op hmem hd hcols => ⟨fun hrow => ?_, fun hnn => ?_⟩⟩
    · have hv := rowOps2D_values sv hp op hmem
      have hs := preScaling_row_signs _ _ _ _ op 5 (by decide) hmem hd
        (rowShape_rowOps2D sv op hmem) hrow hcols hv.2.1 hv.2.2 hna hdt
      have hdom := preScaling_row_dominant _ _ _ _ op 5 (by decide) hmem hd
        (rowShape_rowOps2D sv op hmem) hrow hcols hv.1 hv.2.1 hv.2.2 hna hdt
      exact ⟨hs.1, hs.2, hdom.1, hdom.2.1, hdom.2.2.1, hdom.2.2.2⟩
    · have hv := rowOps2D_values sv hp op hmem
      have key := preScaling_row_invariants _ _ _ _ op 5 (by decide) hmem hd
        (rowShape_rowOps2D sv op hmem) hcols hnn hv.1 hv.2.1 hv.2.2 hna hdt
      exact ⟨key.1, key.2.1, key.2.2.2.2⟩
  · intro sv hna hdt hp
    refine ⟨generateA3D_ok be hbe sv, fun op hmem hd hcols => ⟨fun hrow => ?_, fun hnn => ?_⟩⟩
    · have hv := rowOps3D_values sv hp op hmem
      have hs := preScaling_row_signs _ _ _ _ op 7 (by decide) hmem hd
        (rowShape_rowOps3D sv op hmem) hrow hcols hv.2.1 hv.2.2 hna hdt
      have hdom := preScaling_row_dominant _ _ _ _ op 7 (by decide) hmem hd
        (rowShape_rowOps3D sv op hmem) hrow hcols hv.1 hv.2.1 hv.2.2 hna hdt
      exact ⟨hs.1, hs.2, hdom.1, hdom.2.1, hdom.2.2.1, hdom.2.2.2⟩
    · have hv := rowOps3D_values sv hp op hmem
      have key := preScaling_row_invariants _ _ _ _ op 7 (by decide) hmem hd
        (rowShape_rowOps3D sv op hmem) hcols hnn hv.1 hv.2.1 hv.2.2 hna hdt
      exact ⟨key.1, key.2.1, key.2.2.2.2⟩

/-- Witness for the amended C14: spacings `1, 2, 3, 4`; the centre row of the
uniform 3×3 grid, whose columns `[4, 3, 5, 1, 7]` are all unknowns; and the
corner row `0`, whose columns `[0, -1, 1, -1, 3]` contain two ghosts and whose
diagonal dominates the off-diagonal entries at the columns `1` and `3`. -/
theorem generateA_row_invariants_witness :
    (getCoefficients2D 1 2 3 4).sum = 0 ∧
    (((rowOp2D uniformSolver2D.uGlobalIdx uniformSolver2D.dxU uniformSolver2D.dyU 2 2).cols.map
        (preScaling uniformSolver2D.nu uniformSolver2D.alphaImplicit uniformSolver2D.dt
          (rowOps2D uniformSolver2D)
          (rowOp2D uniformSolver2D.uGlobalIdx uniformSolver2D.dxU
            uniformSolver2D.dyU 2 2).row)).sum = 1 / uniformSolver2D.dt) ∧
    1 / uniformSolver2D.dt ≤
      preScaling uniformSolver2D.nu uniformSolver2D.alphaImplicit uniformSolver2D.dt
        (rowOps2D uniformSolver2D)
        (rowOp2D uniformSolver2D.uGlobalIdx uniformSolver2D.dxU uniformSolver2D.dyU 1 1).row
        (rowOp2D uniformSolver2D.uGlobalIdx uniformSolver2D.dxU uniformSolver2D.dyU 1 1).row -
      ({1, 3} : Finset PetscInt).sum fun c =>
        |preScaling uniformSolver2D.nu uniformSolver2D.alphaImplicit uniformSolver2D.dt
          (rowOps2D uniformSolver2D)
          (rowOp2D uniformSolver2D.uGlobalIdx uniformSolver2D.dxU
            uniformSolver2D.dyU 1 1).row c| :=
  ⟨((generateA_row_invariants okBackend okBackend_allOk).1 1 2 3 4 (by norm_num) (by norm_num)
      (by norm_num) (by norm_num)).1,
   ((((generateA_row_invariants okBackend okBackend_allOk).2.2.1 uniformSolver2D
      uniform_nu_alpha uniform_dt uniform_positive).2 _ centre_mem_uniform (by decide)
      (by decide)).2 (by decide)).1,
   ((((generateA_row_invariants okBackend okBackend_allOk).2.2.1 uniformSolver2D
      uniform_nu_alpha uniform_dt uniform_positive).2 _ corner_mem_uniform (by decide)
      (by decide)).1 (by decide)).2.2.2.2.1 _ (by decide)⟩

end PetIBM
